import Mathlib

/-!
A verification development for a hand-written convolutional neural network
engine written in Rust.  The definitions below are a shallow embedding of the
engine's source: 3-D volumes are flat lists of rationals (modelling `f32`
values on the exact-arithmetic inputs the claims exercise), machine-integer
arithmetic is `Nat` with explicit checked subtraction where underflow
matters, and fallible operations return `Except`/`Option`.
-/

namespace CNN

/-- Closed error taxonomy of the engine (src/errors.rs). -/
inductive Error where
  | DimensionMismatch
  | IncompatibleLayers
  | ImpossibleOutputDimension
  | InvalidInput
deriving DecidableEq, Repr

/-- A 3-D (width, height, depth) dimension triple. -/
structure Dim3 where
  x : Nat
  y : Nat
  z : Nat
deriving DecidableEq, Repr

/-- Flattening a 3-D coordinate to a buffer offset (util.rs `get_index`):
`z + dim_z * (y + dim_y * x)`. -/
def get_index (position : Dim3) (dimension : Dim3) : Nat :=
  position.z + dimension.z * (position.y + dimension.y * position.x)

/-- Kernel-weight offset computation (util.rs `get_kernel_index`). -/
def get_kernel_index (x y z kernel_idx kernel_size input_depth : Nat) : Nat :=
  kernel_idx * (kernel_size * kernel_size * input_depth)
    + z * (kernel_size * kernel_size)
    + y * kernel_size
    + x

/-- Zero-padded coordinate lookup (util.rs `query_zero_padded`), with the
`usize` subtractions rendered as truncated `Nat` subtraction. -/
def query_zero_padded (position : Dim3) (input_dimension : Dim3)
    (zero_padding : Nat) : Option Nat :=
  if position.x < zero_padding ∨
      input_dimension.x - zero_padding ≤ position.x ∨
      position.y < zero_padding ∨
      input_dimension.y - zero_padding ≤ position.y
  then none
  else some (get_index
    ⟨position.x - zero_padding, position.y - zero_padding, position.z⟩
    input_dimension)

/-- Checked `usize` subtraction: `none` models the panic of a debug-mode
underflow. -/
def checked_sub (a b : Nat) : Option Nat :=
  if b ≤ a then some (a - b) else none

/-- Panic-aware rendering of `query_zero_padded`: the outer `none` marks an
underflowing subtraction, following the source's short-circuit evaluation
order (the subtraction `dim - padding` is only reached when the preceding
comparison failed). -/
def query_zero_padded_checked (position : Dim3) (input_dimension : Dim3)
    (zero_padding : Nat) : Option (Option Nat) :=
  if position.x < zero_padding then some none
  else match checked_sub input_dimension.x zero_padding with
  | none => none
  | some wx =>
    if wx ≤ position.x then some none
    else if position.y < zero_padding then some none
    else match checked_sub input_dimension.y zero_padding with
    | none => none
    | some wy =>
      if wy ≤ position.y then some none
      else some (some (get_index
        ⟨position.x - zero_padding, position.y - zero_padding, position.z⟩
        input_dimension))

/-- Output-dimension inference (util.rs `get_output_dimension`), with the
source's `let` bindings inlined. -/
def get_output_dimension (dimension : Dim3) (zero_padding num_kernels
    kernel_size stride : Nat) : Option Dim3 :=
  if num_kernels = 0 ∨ kernel_size = 0 ∨ stride = 0 ∨
      dimension.x = 0 ∨ dimension.y = 0 ∨ dimension.z = 0 then none
  else if dimension.x + zero_padding * 2 ≤ kernel_size - 1 ∨
      dimension.y + zero_padding * 2 ≤ kernel_size - 1 then none
  else if (dimension.x + zero_padding * 2 - kernel_size + 1 + stride - 1)
        / stride = 0 ∨
      (dimension.y + zero_padding * 2 - kernel_size + 1 + stride - 1)
        / stride = 0 then none
  else some
    ⟨(dimension.x + zero_padding * 2 - kernel_size + 1 + stride - 1) / stride,
     (dimension.y + zero_padding * 2 - kernel_size + 1 + stride - 1) / stride,
     num_kernels⟩

/-- Output-dimension validation (util.rs `check_output_dimension`). -/
def check_output_dimension (dimension expected_dimension : Dim3)
    (zero_padding num_kernels kernel_size stride : Nat) : Except Error Unit :=
  match get_output_dimension dimension zero_padding num_kernels kernel_size
      stride with
  | some dim =>
    if dim.x ≠ expected_dimension.x ∨ dim.y ≠ expected_dimension.y ∨
        dim.z ≠ expected_dimension.z
    then Except.error Error.DimensionMismatch
    else Except.ok ()
  | none => Except.error Error.ImpossibleOutputDimension

/-- Transcription of the claim's description of `infer_output_dim`: fail
exactly when kernel size, stride or kernel count is zero, an input dimension
is zero, `kernel_size - 1` reaches the padded width or height, or the ceiling
formula yields a non-positive size; otherwise return the ceiling formula
`ceil((dim + 2*padding - kernel_size + 1) / stride)` per axis. -/
def get_output_dimension_claimed (dimension : Dim3) (zero_padding num_kernels
    kernel_size stride : Nat) : Option Dim3 :=
  if kernel_size = 0 ∨ stride = 0 ∨ num_kernels = 0 ∨
      dimension.x = 0 ∨ dimension.y = 0 ∨ dimension.z = 0 ∨
      dimension.x + 2 * zero_padding ≤ kernel_size - 1 ∨
      dimension.y + 2 * zero_padding ≤ kernel_size - 1 ∨
      (dimension.x + 2 * zero_padding - kernel_size + 1 + stride - 1)
        / stride = 0 ∨
      (dimension.y + 2 * zero_padding - kernel_size + 1 + stride - 1)
        / stride = 0
  then none
  else some
    ⟨(dimension.x + 2 * zero_padding - kernel_size + 1 + stride - 1) / stride,
     (dimension.y + 2 * zero_padding - kernel_size + 1 + stride - 1) / stride,
     num_kernels⟩

/-- Transcription of the claim's description of `padded_lookup`: the offset
of `(x-p, y-p, z)` into the unpadded buffer exactly when `(x, y)` lies inside
the logical padded window but outside the pad border. -/
def query_zero_padded_claimed (position : Dim3) (input_dimension : Dim3)
    (zero_padding : Nat) : Option Nat :=
  if position.x < input_dimension.x + 2 * zero_padding ∧
      position.y < input_dimension.y + 2 * zero_padding ∧
      zero_padding ≤ position.x ∧
      position.x < input_dimension.x + zero_padding ∧
      zero_padding ≤ position.y ∧
      position.y < input_dimension.y + zero_padding
  then some (get_index
    ⟨position.x - zero_padding, position.y - zero_padding, position.z⟩
    input_dimension)
  else none

/-- Number of iterations of a Rust `(0..len).step_by(stride)` loop
(`ceil(len / stride)` for positive stride); it also equals the running
counter the convolution loops keep for the output coordinate. -/
def num_steps (len stride : Nat) : Nat := (len + stride - 1) / stride

/-- Access-safety monitor for the convolutional forward loop
(convolutional_layer.rs `convolve`): it replays every index computation of
the loop nest and checks that no `usize` subtraction underflows and that
every buffer offset that is read or written is within the corresponding
buffer length. -/
def conv_access_safe (input_dimension : Dim3) (zero_padding kernel_size
    stride num_kernels input_depth : Nat) (out_dimension : Dim3)
    (input_len kernel_len bias_len out_len : Nat) : Bool :=
  (List.range num_kernels).all fun k =>
    (List.range (num_steps
        (input_dimension.x + zero_padding * 2 - kernel_size + 1)
        stride)).all fun o_x =>
      (List.range (num_steps
          (input_dimension.y + zero_padding * 2 - kernel_size + 1)
          stride)).all fun o_y =>
        decide (get_index ⟨o_x, o_y, k⟩ out_dimension < out_len) &&
        decide (k < bias_len) &&
        ((List.range input_dimension.z).all fun z =>
          (List.range kernel_size).all fun kernel_y =>
            (List.range kernel_size).all fun kernel_x =>
              match query_zero_padded_checked
                  ⟨o_x * stride + kernel_x, o_y * stride + kernel_y, z⟩
                  input_dimension zero_padding with
              | none => false
              | some none => true
              | some (some ind) =>
                decide (ind < input_len) &&
                decide (get_kernel_index kernel_x kernel_y z k kernel_size
                  input_depth < kernel_len))

/-- Activation function kinds (src/activations.rs).  `None` is the identity
passthrough. -/
inductive ActivationFunction where
  | Sigmoid
  | ReLU
  | LeakyReLU (slope : ℚ)
  | None
deriving DecidableEq, Repr

/-- Elementwise activation (activations.rs `eval`).  The scalar exponential
of `f32` is abstracted as the function argument `ex`, so `sigmoid(x)` is
`1 / (1 + ex (-x))`. -/
def activations_eval (ex : ℚ → ℚ) : ActivationFunction → ℚ → ℚ
  | ActivationFunction.Sigmoid, x => 1 / (1 + ex (-x))
  | ActivationFunction.ReLU, x => max x 0
  | ActivationFunction.LeakyReLU slope, x => max x (x * slope)
  | ActivationFunction.None, x => x

/-- Elementwise activation derivative (activations.rs `eval_derivative`). -/
def activations_eval_derivative (ex : ℚ → ℚ) : ActivationFunction → ℚ → ℚ
  | ActivationFunction.Sigmoid, x =>
    (1 / (1 + ex (-x))) * (1 - 1 / (1 + ex (-x)))
  | ActivationFunction.ReLU, x => if x ≤ 0 then 0 else 1
  | ActivationFunction.LeakyReLU slope, x => if x < 0 then slope else 1
  | ActivationFunction.None, _ => 1

/-- Replay of a loop that stores `w.2` at offset `w.1` of a flat buffer, one
write per list element, in order. -/
def apply_writes (v : List ℚ) (ws : List (Nat × ℚ)) : List ℚ :=
  ws.foldl (fun v w => v.set w.1 w.2) v

/-- Replay of a loop that adds `w.2` to the value at offset `w.1` of a flat
buffer, one accumulation per list element, in order. -/
def apply_adds (v : List ℚ) (ws : List (Nat × ℚ)) : List ℚ :=
  ws.foldl (fun v w => v.set w.1 (v.getD w.1 0 + w.2)) v

/-- State of a convolutional layer (convolutional_layer.rs). -/
structure ConvolutionalLayer where
  stride : Nat
  kernel_size : Nat
  num_kernels : Nat
  dimension : Dim3
  volume : List ℚ
  volume_gradients : List ℚ
  bias_gradients : List ℚ
  kernel_gradients : List ℚ
  back_activated_volume : List ℚ
  raw_volume : List ℚ
  bias_velocity : List ℚ
  kernel_velocity : List ℚ
  zero_padding : Nat
  biases : List ℚ
  kernel : List ℚ
  input_depth : Nat
deriving DecidableEq, Repr

/-- Constructor `ConvolutionalLayer::new`: zero-filled buffers whose sizes
are fixed by the declared dimension, kernel size and input depth. -/
def ConvolutionalLayer.new (zero_padding stride kernel_size : Nat)
    (dimension : Dim3) (input_depth : Nat) : ConvolutionalLayer :=
  { stride := stride
    kernel_size := kernel_size
    num_kernels := dimension.z
    dimension := dimension
    volume := List.replicate (dimension.x * dimension.y * dimension.z) 0
    volume_gradients :=
      List.replicate (dimension.x * dimension.y * dimension.z) 0
    bias_gradients := List.replicate dimension.z 0
    kernel_gradients := List.replicate
      (kernel_size * kernel_size * input_depth * dimension.z) 0
    back_activated_volume :=
      List.replicate (dimension.x * dimension.y * dimension.z) 0
    raw_volume := List.replicate (dimension.x * dimension.y * dimension.z) 0
    bias_velocity := List.replicate dimension.z 0
    kernel_velocity := List.replicate
      (kernel_size * kernel_size * input_depth * dimension.z) 0
    zero_padding := zero_padding
    biases := List.replicate dimension.z 0
    kernel := List.replicate
      (kernel_size * kernel_size * input_depth * dimension.z) 0
    input_depth := input_depth }

/-- `ConvolutionalLayer::set_volume`: replaces the volume after a length
check. -/
def ConvolutionalLayer.set_volume (c : ConvolutionalLayer)
    (volume : List ℚ) : Except Error ConvolutionalLayer :=
  if c.volume.length ≠ volume.length then Except.error Error.DimensionMismatch
  else Except.ok { c with volume := volume }

/-- Accumulated dot product of one kernel window over all input channels
(the inner three loops of `ConvolutionalLayer::convolve`), entered at padded
window origin `(x, y)` for output channel `k`. -/
def conv_value (kernel : List ℚ) (kernel_size input_depth : Nat)
    (input_dimension : Dim3) (volume : List ℚ) (zero_padding x y k : Nat) :
    ℚ :=
  (List.range input_dimension.z).foldl (fun acc z =>
    (List.range kernel_size).foldl (fun acc kernel_y =>
      (List.range kernel_size).foldl (fun acc kernel_x =>
        match query_zero_padded ⟨x + kernel_x, y + kernel_y, z⟩
            input_dimension zero_padding with
        | some ind => acc + volume.getD ind 0 *
            kernel.getD
              (get_kernel_index kernel_x kernel_y z k kernel_size input_depth)
              0
        | none => acc) acc) acc) 0

/-- The ordered writes performed by `ConvolutionalLayer::convolve`: one store
per output channel and strided window position, at the flattened output
offset, of the window dot product plus the channel bias. -/
def conv_writes (kernel biases : List ℚ) (kernel_size input_depth stride
    num_kernels : Nat) (out_dimension : Dim3) (input_dimension : Dim3)
    (volume : List ℚ) (zero_padding : Nat) : List (Nat × ℚ) :=
  (List.range num_kernels).flatMap fun k =>
    (List.range (num_steps
        (input_dimension.x + zero_padding * 2 - kernel_size + 1)
        stride)).flatMap fun o_x =>
      (List.range (num_steps
          (input_dimension.y + zero_padding * 2 - kernel_size + 1)
          stride)).map fun o_y =>
        (get_index ⟨o_x, o_y, k⟩ out_dimension,
         conv_value kernel kernel_size input_depth input_dimension volume
           zero_padding (o_x * stride) (o_y * stride) k + biases.getD k 0)

/-- `ConvolutionalLayer::convolve`: stores every window result into both the
raw and the activated volume.  The loop nest never reads either of the two
buffers it writes, so replaying the recorded writes over each buffer is the
loop verbatim. -/
def ConvolutionalLayer.convolve (c : ConvolutionalLayer)
    (input_dimension : Dim3) (volume : List ℚ) (zero_padding : Nat) :
    ConvolutionalLayer :=
  let ws := conv_writes c.kernel c.biases c.kernel_size c.input_depth
    c.stride c.num_kernels c.dimension input_dimension volume zero_padding
  { c with raw_volume := apply_writes c.raw_volume ws,
           volume := apply_writes c.volume ws }

/-- `ConvolutionalLayer::activate`: overwrite `volume[i]` with the activation
of `raw_volume[i]` for every `i` below the volume length. -/
def ConvolutionalLayer.activate (ex : ℚ → ℚ) (c : ConvolutionalLayer)
    (func : ActivationFunction) : ConvolutionalLayer :=
  { c with volume := (apply_writes c.volume
      ((List.range c.volume.length).map fun i =>
        (i, activations_eval ex func (c.raw_volume.getD i 0)))) }

/-- `ConvolutionalLayer::back_activate` as the source writes it: the stored
value is `activations_eval` (not `activations_eval_derivative`) of the raw
value, times the incoming gradient. -/
def ConvolutionalLayer.back_activate (ex : ℚ → ℚ) (c : ConvolutionalLayer)
    (func : ActivationFunction) : ConvolutionalLayer :=
  { c with back_activated_volume := (apply_writes c.back_activated_volume
      ((List.range c.volume.length).map fun i =>
        (i, activations_eval ex func (c.raw_volume.getD i 0) *
          c.volume_gradients.getD i 0))) }

/-- Two-channel 3×3 input volume of the repository's convolution test
fixture (tests.rs). -/
def fixture_input : List ℚ :=
  [1, 10, 2, 11, 3, 12, 4, 13, 5, 14, 6, 15, 7, 16, 8, 17, 9, 18]

/-- The 4×4 output volume the repository's test asserts. -/
def fixture_expected : List ℚ :=
  [6.5, 18.5, 12.5, 0.5, 21.5, 45.5, 24.5, 0.5,
   15.5, 27.5, 12.5, 0.5, 0.5, 0.5, 0.5, 0.5]

/-- The convolutional layer under test in the fixture: padding 1, stride 1,
kernel size 2, output dimension 4×4×1, input depth 2, with the fixture's
kernel weights and bias. -/
def fixture_layer : ConvolutionalLayer :=
  { ConvolutionalLayer.new 1 1 2 ⟨4, 4, 1⟩ 2 with
    kernel := [1, 0.5, 0.5, 1, 0.5, 1, 1, 0.5],
    biases := [0.5] }

/-- Pooling kinds (src/pooling_layer.rs). -/
inductive PoolingType where
  | Max
  | Average
deriving DecidableEq, Repr

/-- State of a pooling layer (pooling_layer.rs). -/
structure PoolingLayer where
  zero_padding : Nat
  stride : Nat
  kernel_size : Nat
  dimension : Dim3
  volume : List ℚ
  volume_gradients : List ℚ
  pooling_type : PoolingType
deriving DecidableEq, Repr

/-- Constructor `PoolingLayer::new`. -/
def PoolingLayer.new (pooling_type : PoolingType) (zero_padding stride
    kernel_size : Nat) (dimension : Dim3) : PoolingLayer :=
  { zero_padding := zero_padding
    stride := stride
    kernel_size := kernel_size
    dimension := dimension
    volume := List.replicate (dimension.x * dimension.y * dimension.z) 0
    volume_gradients :=
      List.replicate (dimension.x * dimension.y * dimension.z) 0
    pooling_type := pooling_type }

/-- The single window value computed by the pooling forward loop
(pooling_layer.rs `convolve`): for Max a running `value.max(·)` fold that
starts at `0.0`, for Average the running sum scaled by
`1 / kernel_size²`. -/
def pool_value (pooling_type : PoolingType) (kernel_size : Nat)
    (input_dimension : Dim3) (volume : List ℚ) (x y z : Nat) : ℚ :=
  match pooling_type with
  | PoolingType.Max =>
    (List.range kernel_size).foldl (fun value kernel_y =>
      (List.range kernel_size).foldl (fun value kernel_x =>
        max value (volume.getD
          (get_index ⟨x + kernel_x, y + kernel_y, z⟩ input_dimension) 0))
        value) 0
  | PoolingType.Average =>
    ((List.range kernel_size).foldl (fun value kernel_y =>
      (List.range kernel_size).foldl (fun value kernel_x =>
        value + volume.getD
          (get_index ⟨x + kernel_x, y + kernel_y, z⟩ input_dimension) 0)
        value) 0) *
      (1 / ((kernel_size : ℚ) * (kernel_size : ℚ)))

/-- The ordered writes of the pooling forward loop: one store per strided
window position and channel. -/
def pool_writes (pooling_type : PoolingType) (kernel_size stride : Nat)
    (out_dimension input_dimension : Dim3) (volume : List ℚ) :
    List (Nat × ℚ) :=
  (List.range (num_steps (input_dimension.x - kernel_size + 1)
      stride)).flatMap fun o_x =>
    (List.range (num_steps (input_dimension.y - kernel_size + 1)
        stride)).flatMap fun o_y =>
      (List.range input_dimension.z).map fun z =>
        (get_index ⟨o_x, o_y, z⟩ out_dimension,
         pool_value pooling_type kernel_size input_dimension volume
           (o_x * stride) (o_y * stride) z)

/-- `PoolingLayer::convolve` (forward pooling).  The loop nest never reads
the output volume it writes, so replaying the recorded writes is the loop
verbatim. -/
def PoolingLayer.convolve (p : PoolingLayer) (input_dimension : Dim3)
    (volume : List ℚ) : PoolingLayer :=
  { p with volume := (apply_writes p.volume
      (pool_writes p.pooling_type p.kernel_size p.stride p.dimension
        input_dimension volume)) }

/-- The kernel-window values at window origin `(x, y)` of channel `z`, in
the row-major order the pooling loops scan them. -/
def window_values (kernel_size : Nat) (input_dimension : Dim3)
    (volume : List ℚ) (x y z : Nat) : List ℚ :=
  (List.range kernel_size).flatMap fun kernel_y =>
    (List.range kernel_size).map fun kernel_x =>
      volume.getD (get_index ⟨x + kernel_x, y + kernel_y, z⟩ input_dimension) 0

/-- Maximum of a list of window values (the first value seeded, as the
backward pooling pass computes it); `0` for an empty window. -/
def list_max_head (l : List ℚ) : ℚ :=
  match l with
  | [] => 0
  | v :: vs => vs.foldl max v

/-- The true maximum value occurring in a kernel window, as the claim for
Max pooling states it. -/
def window_max (kernel_size : Nat) (input_dimension : Dim3)
    (volume : List ℚ) (x y z : Nat) : ℚ :=
  list_max_head (window_values kernel_size input_dimension volume x y z)

/-- Error function kinds (src/nn_error.rs). -/
inductive ErrorFunction where
  | HalfMeanSquaredError
  | BinaryCrossEntropy
deriving DecidableEq, Repr

/-- Rust `f32::clamp(lo, hi)`. -/
def clampQ (x lo hi : ℚ) : ℚ := min (max x lo) hi

/-- Per-element loss derivative (nn_error.rs `eval_derivative`). -/
def nn_error_eval_derivative (function_type : ErrorFunction) (i : Nat)
    (values expected : List ℚ) : ℚ :=
  match function_type with
  | ErrorFunction.HalfMeanSquaredError =>
    (values.getD i 0 - expected.getD i 0) / (values.length : ℚ)
  | ErrorFunction.BinaryCrossEntropy =>
    -((expected.getD i 0 / clampQ (values.getD i 0) (1e-12) (1 - 1e-12) -
        (1 - expected.getD i 0) /
          (1 - clampQ (values.getD i 0) (1e-12) (1 - 1e-12))) /
      (values.length : ℚ))

/-- Loss evaluation (nn_error.rs `eval`); the scalar natural logarithm of
`f32` is abstracted as the function argument `lg`. -/
def nn_error_eval (lg : ℚ → ℚ) (function_type : ErrorFunction)
    (values expected : List ℚ) : ℚ :=
  match function_type with
  | ErrorFunction.HalfMeanSquaredError =>
    ((List.range values.length).foldl (fun result i =>
      result + (values.getD i 0 - expected.getD i 0) *
        (values.getD i 0 - expected.getD i 0)) 0) /
      (values.length : ℚ) * 0.5
  | ErrorFunction.BinaryCrossEntropy =>
    -(((List.range values.length).foldl (fun result i =>
      result + expected.getD i 0 *
          lg (clampQ (values.getD i 0) (1e-12) (1 - 1e-12)) +
        (1 - expected.getD i 0) *
          lg (1 - clampQ (values.getD i 0) (1e-12) (1 - 1e-12))) 0) /
      (values.length : ℚ))

/-- State of a fully connected layer (fully_connected_layer.rs). -/
structure FullyConnectedLayer where
  num_inputs : Nat
  weight_gradients : List ℚ
  bias_gradients : List ℚ
  num_neurons : Nat
  raw_values : List ℚ
  back_activated_values : List ℚ
  values : List ℚ
  weights : List ℚ
  biases : List ℚ
  value_gradients : List ℚ
  weight_velocity : List ℚ
  bias_velocity : List ℚ
deriving DecidableEq, Repr

/-- Constructor `FullyConnectedLayer::new`. -/
def FullyConnectedLayer.new (num_inputs num_neurons : Nat) :
    FullyConnectedLayer :=
  { num_inputs := num_inputs
    num_neurons := num_neurons
    raw_values := List.replicate num_neurons 0
    back_activated_values := List.replicate num_neurons 0
    values := List.replicate num_neurons 0
    weights := List.replicate (num_inputs * num_neurons) 0
    biases := List.replicate num_neurons 0
    value_gradients := List.replicate num_neurons 0
    weight_gradients := List.replicate (num_inputs * num_neurons) 0
    bias_gradients := List.replicate num_neurons 0
    weight_velocity := List.replicate (num_inputs * num_neurons) 0
    bias_velocity := List.replicate num_neurons 0 }

/-- Weight-matrix offset (fully_connected_layer.rs `get_weight`):
`neuron * num_inputs + input`. -/
def FullyConnectedLayer.get_weight (f : FullyConnectedLayer)
    (input neuron : Nat) : Nat :=
  neuron * f.num_inputs + input

/-- One neuron's affine value in `feed_forward`: the bias seeded, then the
weighted inputs accumulated in loop order. -/
def fc_value (f : FullyConnectedLayer) (input : List ℚ) (i : Nat) : ℚ :=
  (List.range f.num_inputs).foldl (fun value j =>
    value + input.getD j 0 * f.weights.getD (f.get_weight j i) 0)
    (f.biases.getD i 0)

/-- `FullyConnectedLayer::feed_forward`: stores every neuron value into both
`values` and `raw_values`; the loop reads neither buffer it writes. -/
def FullyConnectedLayer.feed_forward (f : FullyConnectedLayer)
    (input : List ℚ) : FullyConnectedLayer :=
  let ws := (List.range f.num_neurons).map fun i => (i, fc_value f input i)
  { f with values := apply_writes f.values ws,
           raw_values := apply_writes f.raw_values ws }

/-- `FullyConnectedLayer::feed_back`: zeroes the input-gradient buffer, then
accumulates the back-activated derivative into the bias gradients, the
weight gradients (scaled by the input) and the input gradients (scaled by
the weights).  The loop reads only `back_activated_values`, `input` and
`weights`, none of which it writes, so the three accumulation streams replay
it verbatim.  Returns the updated layer and the new input gradients. -/
def FullyConnectedLayer.feed_back (f : FullyConnectedLayer)
    (input input_gradients : List ℚ) : FullyConnectedLayer × List ℚ :=
  let bias_adds := (List.range f.num_neurons).map fun i =>
    (i, f.back_activated_values.getD i 0)
  let weight_adds := (List.range f.num_neurons).flatMap fun i =>
    (List.range f.num_inputs).map fun j =>
      (f.get_weight j i,
       f.back_activated_values.getD i 0 * input.getD j 0)
  let ig_adds := (List.range f.num_neurons).flatMap fun i =>
    (List.range f.num_inputs).map fun j =>
      (j, f.back_activated_values.getD i 0 *
        f.weights.getD (f.get_weight j i) 0)
  ({ f with bias_gradients := apply_adds f.bias_gradients bias_adds,
            weight_gradients := apply_adds f.weight_gradients weight_adds },
   apply_adds (List.replicate input_gradients.length 0) ig_adds)

/-- `FullyConnectedLayer::calculate_output_gradients`. -/
def FullyConnectedLayer.calculate_output_gradients
    (f : FullyConnectedLayer) (error_function_type : ErrorFunction)
    (expected : List ℚ) : Except Error FullyConnectedLayer :=
  if f.values.length ≠ expected.length then Except.error Error.InvalidInput
  else Except.ok { f with value_gradients := (apply_writes f.value_gradients
    ((List.range expected.length).map fun i =>
      (i, nn_error_eval_derivative error_function_type i f.values
        expected))) }

/-- `FullyConnectedLayer::get_outputs`. -/
def FullyConnectedLayer.get_outputs (f : FullyConnectedLayer) : List ℚ :=
  f.values

/-- `FullyConnectedLayer::get_error`. -/
def FullyConnectedLayer.get_error (lg : ℚ → ℚ) (f : FullyConnectedLayer)
    (function_type : ErrorFunction) (expected : List ℚ) : Except Error ℚ :=
  if f.values.length ≠ expected.length then Except.error Error.InvalidInput
  else Except.ok (nn_error_eval lg function_type f.values expected)

/-- `FullyConnectedLayer::activate`. -/
def FullyConnectedLayer.activate (ex : ℚ → ℚ) (f : FullyConnectedLayer)
    (func : ActivationFunction) : FullyConnectedLayer :=
  { f with values := (apply_writes f.values
      ((List.range f.values.length).map fun i =>
        (i, activations_eval ex func (f.raw_values.getD i 0)))) }

/-- `FullyConnectedLayer::back_activate`: here the source does use the
activation derivative. -/
def FullyConnectedLayer.back_activate (ex : ℚ → ℚ)
    (f : FullyConnectedLayer) (func : ActivationFunction) :
    FullyConnectedLayer :=
  { f with back_activated_values := (apply_writes f.back_activated_values
      ((List.range f.values.length).map fun i =>
        (i, activations_eval_derivative ex func (f.raw_values.getD i 0) *
          f.value_gradients.getD i 0))) }

/-- `FullyConnectedLayer::reset_gradients`: writes `0` over every bias and
weight gradient. -/
def FullyConnectedLayer.reset_gradients (f : FullyConnectedLayer) :
    FullyConnectedLayer :=
  { f with bias_gradients := (apply_writes f.bias_gradients
      ((List.range f.bias_gradients.length).map fun i => (i, 0))),
           weight_gradients := (apply_writes f.weight_gradients
      ((List.range f.weight_gradients.length).map fun i => (i, 0))) }

/-- `ConvolutionalLayer::reset_gradients`. -/
def ConvolutionalLayer.reset_gradients (c : ConvolutionalLayer) :
    ConvolutionalLayer :=
  { c with bias_gradients := (apply_writes c.bias_gradients
      ((List.range c.bias_gradients.length).map fun i => (i, 0))),
           kernel_gradients := (apply_writes c.kernel_gradients
      ((List.range c.kernel_gradients.length).map fun i => (i, 0))) }

/-- The kernel-gradient accumulations of
`ConvolutionalLayer::convolve_back`, in loop order: positions whose
back-activated derivative is exactly zero are skipped. -/
def conv_back_kernel_adds (c : ConvolutionalLayer) (input_dimension : Dim3)
    (volume : List ℚ) (zero_padding : Nat) : List (Nat × ℚ) :=
  (List.range c.num_kernels).flatMap fun k =>
    (List.range (num_steps
        (input_dimension.x + zero_padding * 2 - c.kernel_size + 1)
        c.stride)).flatMap fun o_x =>
      (List.range (num_steps
          (input_dimension.y + zero_padding * 2 - c.kernel_size + 1)
          c.stride)).flatMap fun o_y =>
        if c.back_activated_volume.getD
            (get_index ⟨o_x, o_y, k⟩ c.dimension) 0 = 0 then []
        else
          (List.range input_dimension.z).flatMap fun z =>
            (List.range c.kernel_size).flatMap fun kernel_y =>
              (List.range c.kernel_size).flatMap fun kernel_x =>
                match query_zero_padded
                    ⟨o_x * c.stride + kernel_x, o_y * c.stride + kernel_y,
                      z⟩ input_dimension zero_padding with
                | some ind =>
                  [(get_kernel_index kernel_x kernel_y z k c.kernel_size
                      c.input_depth,
                    volume.getD ind 0 * c.back_activated_volume.getD
                      (get_index ⟨o_x, o_y, k⟩ c.dimension) 0)]
                | none => []

/-- The input-gradient accumulations of
`ConvolutionalLayer::convolve_back`, in loop order. -/
def conv_back_input_adds (c : ConvolutionalLayer) (input_dimension : Dim3)
    (zero_padding : Nat) : List (Nat × ℚ) :=
  (List.range c.num_kernels).flatMap fun k =>
    (List.range (num_steps
        (input_dimension.x + zero_padding * 2 - c.kernel_size + 1)
        c.stride)).flatMap fun o_x =>
      (List.range (num_steps
          (input_dimension.y + zero_padding * 2 - c.kernel_size + 1)
          c.stride)).flatMap fun o_y =>
        if c.back_activated_volume.getD
            (get_index ⟨o_x, o_y, k⟩ c.dimension) 0 = 0 then []
        else
          (List.range input_dimension.z).flatMap fun z =>
            (List.range c.kernel_size).flatMap fun kernel_y =>
              (List.range c.kernel_size).flatMap fun kernel_x =>
                match query_zero_padded
                    ⟨o_x * c.stride + kernel_x, o_y * c.stride + kernel_y,
                      z⟩ input_dimension zero_padding with
                | some ind =>
                  [(ind,
                    c.kernel.getD (get_kernel_index kernel_x kernel_y z k
                      c.kernel_size c.input_depth) 0 *
                    c.back_activated_volume.getD
                      (get_index ⟨o_x, o_y, k⟩ c.dimension) 0)]
                | none => []

/-- The bias-gradient accumulations of `ConvolutionalLayer::convolve_back`:
per non-skipped output position, the derivative times the input depth. -/
def conv_back_bias_adds (c : ConvolutionalLayer) (input_dimension : Dim3)
    (zero_padding : Nat) : List (Nat × ℚ) :=
  (List.range c.num_kernels).flatMap fun k =>
    (List.range (num_steps
        (input_dimension.x + zero_padding * 2 - c.kernel_size + 1)
        c.stride)).flatMap fun o_x =>
      (List.range (num_steps
          (input_dimension.y + zero_padding * 2 - c.kernel_size + 1)
          c.stride)).flatMap fun o_y =>
        if c.back_activated_volume.getD
            (get_index ⟨o_x, o_y, k⟩ c.dimension) 0 = 0 then []
        else
          [(k, c.back_activated_volume.getD
              (get_index ⟨o_x, o_y, k⟩ c.dimension) 0 *
            (input_dimension.z : ℚ))]

/-- `ConvolutionalLayer::convolve_back`: zeroes the upstream gradient
buffer, then replays the three accumulation streams (which read only
buffers the loop never writes).  Returns the updated layer and the new
upstream volume gradients. -/
def ConvolutionalLayer.convolve_back (c : ConvolutionalLayer)
    (input_dimension : Dim3) (volume volume_gradients : List ℚ)
    (zero_padding : Nat) : ConvolutionalLayer × List ℚ :=
  ({ c with kernel_gradients := (apply_adds c.kernel_gradients
        (conv_back_kernel_adds c input_dimension volume zero_padding)),
            bias_gradients := (apply_adds c.bias_gradients
        (conv_back_bias_adds c input_dimension zero_padding)) },
   apply_adds (List.replicate volume_gradients.length 0)
     (conv_back_input_adds c input_dimension zero_padding))

/-- The arg-max offset the Max-pooling backward pass computes for one
window: seeded with the window origin, updated on strictly greater values
in row-major scan order (ties keep the first occurrence). -/
def pool_argmax (input_dimension : Dim3) (volume : List ℚ)
    (kernel_size x y z : Nat) : Nat :=
  ((List.range kernel_size).flatMap fun kernel_y =>
    (List.range kernel_size).map fun kernel_x =>
      get_index ⟨x + kernel_x, y + kernel_y, z⟩ input_dimension).foldl
    (fun best index =>
      if volume.getD best 0 < volume.getD index 0 then index else best)
    (get_index ⟨x, y, z⟩ input_dimension)

/-- The input-gradient accumulations of `PoolingLayer::convolve_back`: Max
routes the whole output gradient to the arg-max offset; Average distributes
`gradient / kernel_size²` over the window. -/
def pool_back_adds (p : PoolingLayer) (input_dimension : Dim3)
    (volume : List ℚ) : List (Nat × ℚ) :=
  (List.range (num_steps (input_dimension.x - p.kernel_size + 1)
      p.stride)).flatMap fun o_x =>
    (List.range (num_steps (input_dimension.y - p.kernel_size + 1)
        p.stride)).flatMap fun o_y =>
      (List.range input_dimension.z).flatMap fun z =>
        match p.pooling_type with
        | PoolingType.Max =>
          [(pool_argmax input_dimension volume p.kernel_size
              (o_x * p.stride) (o_y * p.stride) z,
            p.volume_gradients.getD (get_index ⟨o_x, o_y, z⟩ p.dimension) 0)]
        | PoolingType.Average =>
          (List.range p.kernel_size).flatMap fun kernel_y =>
            (List.range p.kernel_size).map fun kernel_x =>
              (get_index ⟨o_x * p.stride + kernel_x,
                  o_y * p.stride + kernel_y, z⟩ input_dimension,
               p.volume_gradients.getD
                   (get_index ⟨o_x, o_y, z⟩ p.dimension) 0 *
                 (1 / ((p.kernel_size : ℚ) * (p.kernel_size : ℚ))))

/-- `PoolingLayer::convolve_back`: zeroes the upstream gradient buffer and
replays the accumulations; the pooling layer itself is not modified. -/
def PoolingLayer.convolve_back (p : PoolingLayer) (input_dimension : Dim3)
    (volume volume_gradients : List ℚ) : List ℚ :=
  apply_adds (List.replicate volume_gradients.length 0)
    (pool_back_adds p input_dimension volume)

/-- The closed polymorphic layer container (src/layer.rs). -/
inductive Layer where
  | Convolutional (c : ConvolutionalLayer)
  | Pooling (p : PoolingLayer)
  | FullyConnected (f : FullyConnectedLayer)
deriving DecidableEq, Repr

/-- `Layer::make_input_layer`: a degenerate convolutional layer with stride
0, kernel size 0 and input depth 0 serving as the network's input. -/
def Layer.make_input_layer (zero_padding : Nat) (dimension : Dim3) : Layer :=
  Layer.Convolutional (ConvolutionalLayer.new zero_padding 0 0 dimension 0)

/-- Cross-layer forward dispatch (the `LayerBase::forward_propagate`
implementations): validates the dimensional contract, then runs the
downstream layer's forward computation.  Returns the updated downstream
layer. -/
def Layer.forward_propagate (self next_layer : Layer) : Except Error Layer :=
  match self with
  | Layer.Convolutional c =>
    match next_layer with
    | Layer.Convolutional layer =>
      match check_output_dimension c.dimension layer.dimension
          c.zero_padding layer.num_kernels layer.kernel_size layer.stride
        with
      | Except.error e => Except.error e
      | Except.ok _ => Except.ok (Layer.Convolutional
          (layer.convolve c.dimension c.volume c.zero_padding))
    | Layer.Pooling layer =>
      match check_output_dimension c.dimension layer.dimension 0
          layer.dimension.z layer.kernel_size layer.stride with
      | Except.error e => Except.error e
      | Except.ok _ =>
        Except.ok (Layer.Pooling (layer.convolve c.dimension c.volume))
    | Layer.FullyConnected layer =>
      if c.dimension.x * c.dimension.y * c.dimension.z ≠ layer.num_inputs
      then Except.error Error.DimensionMismatch
      else Except.ok (Layer.FullyConnected (layer.feed_forward c.volume))
  | Layer.Pooling p =>
    match next_layer with
    | Layer.Convolutional layer =>
      match check_output_dimension p.dimension layer.dimension
          p.zero_padding layer.num_kernels layer.kernel_size layer.stride
        with
      | Except.error e => Except.error e
      | Except.ok _ => Except.ok (Layer.Convolutional
          (layer.convolve p.dimension p.volume p.zero_padding))
    | Layer.Pooling layer =>
      match check_output_dimension p.dimension layer.dimension 0
          layer.dimension.z layer.kernel_size layer.stride with
      | Except.error e => Except.error e
      | Except.ok _ =>
        Except.ok (Layer.Pooling (layer.convolve p.dimension p.volume))
    | Layer.FullyConnected layer =>
      if p.dimension.x * p.dimension.y * p.dimension.z ≠ layer.num_inputs
      then Except.error Error.DimensionMismatch
      else Except.ok (Layer.FullyConnected (layer.feed_forward p.volume))
  | Layer.FullyConnected f =>
    match next_layer with
    | Layer.FullyConnected layer =>
      if layer.num_inputs ≠ f.num_neurons
      then Except.error Error.DimensionMismatch
      else Except.ok (Layer.FullyConnected (layer.feed_forward f.values))
    | _ => Except.error Error.IncompatibleLayers

/-- Cross-layer backward dispatch (the `LayerBase::back_propagate`
implementations).  Returns the updated pair `(self, previous_layer)`. -/
def Layer.back_propagate (self previous_layer : Layer) :
    Except Error (Layer × Layer) :=
  match self with
  | Layer.Convolutional c =>
    match previous_layer with
    | Layer.Convolutional layer =>
      match check_output_dimension layer.dimension c.dimension
          layer.zero_padding c.num_kernels c.kernel_size c.stride with
      | Except.error e => Except.error e
      | Except.ok _ =>
        Except.ok (Layer.Convolutional (c.convolve_back layer.dimension
            layer.volume layer.volume_gradients layer.zero_padding).1,
          Layer.Convolutional { layer with volume_gradients :=
            (c.convolve_back layer.dimension layer.volume
              layer.volume_gradients layer.zero_padding).2 })
    | Layer.Pooling layer =>
      match check_output_dimension layer.dimension c.dimension
          layer.zero_padding c.num_kernels c.kernel_size c.stride with
      | Except.error e => Except.error e
      | Except.ok _ =>
        Except.ok (Layer.Convolutional (c.convolve_back layer.dimension
            layer.volume layer.volume_gradients layer.zero_padding).1,
          Layer.Pooling { layer with volume_gradients :=
            (c.convolve_back layer.dimension layer.volume
              layer.volume_gradients layer.zero_padding).2 })
    | Layer.FullyConnected _ =>
      Except.ok (Layer.Convolutional c, previous_layer)
  | Layer.Pooling p =>
    match previous_layer with
    | Layer.Convolutional layer =>
      match check_output_dimension layer.dimension p.dimension 0
          p.dimension.z p.kernel_size p.stride with
      | Except.error e => Except.error e
      | Except.ok _ =>
        Except.ok (Layer.Pooling p,
          Layer.Convolutional { layer with volume_gradients :=
            (p.convolve_back layer.dimension layer.volume
              layer.volume_gradients) })
    | Layer.Pooling layer =>
      match check_output_dimension layer.dimension p.dimension 0
          p.dimension.z p.kernel_size p.stride with
      | Except.error e => Except.error e
      | Except.ok _ =>
        Except.ok (Layer.Pooling p,
          Layer.Pooling { layer with volume_gradients :=
            (p.convolve_back layer.dimension layer.volume
              layer.volume_gradients) })
    | Layer.FullyConnected _ =>
      Except.ok (Layer.Pooling p, previous_layer)
  | Layer.FullyConnected f =>
    match previous_layer with
    | Layer.FullyConnected layer =>
      if layer.num_neurons ≠ f.num_inputs
      then Except.error Error.DimensionMismatch
      else
        let r := f.feed_back layer.values layer.value_gradients
        Except.ok (Layer.FullyConnected r.1,
          Layer.FullyConnected { layer with value_gradients := r.2 })
    | Layer.Convolutional layer =>
      if layer.dimension.x * layer.dimension.y * layer.dimension.z ≠
          f.num_inputs
      then Except.error Error.DimensionMismatch
      else
        let r := f.feed_back layer.volume layer.volume_gradients
        Except.ok (Layer.FullyConnected r.1,
          Layer.Convolutional { layer with volume_gradients := r.2 })
    | Layer.Pooling layer =>
      if layer.dimension.x * layer.dimension.y * layer.dimension.z ≠
          f.num_inputs
      then Except.error Error.DimensionMismatch
      else
        let r := f.feed_back layer.volume layer.volume_gradients
        Except.ok (Layer.FullyConnected r.1,
          Layer.Pooling { layer with volume_gradients := r.2 })

/-- `Layer::activate`: dispatch; a no-op on pooling layers. -/
def Layer.activate (ex : ℚ → ℚ) (self : Layer)
    (func : ActivationFunction) : Layer :=
  match self with
  | Layer.Convolutional c =>
    Layer.Convolutional (ConvolutionalLayer.activate ex c func)
  | Layer.FullyConnected f =>
    Layer.FullyConnected (FullyConnectedLayer.activate ex f func)
  | Layer.Pooling p => Layer.Pooling p

/-- `Layer::backward_activate`: dispatch; a no-op on pooling layers. -/
def Layer.backward_activate (ex : ℚ → ℚ) (self : Layer)
    (func : ActivationFunction) : Layer :=
  match self with
  | Layer.Convolutional c =>
    Layer.Convolutional (ConvolutionalLayer.back_activate ex c func)
  | Layer.FullyConnected f =>
    Layer.FullyConnected (FullyConnectedLayer.back_activate ex f func)
  | Layer.Pooling p => Layer.Pooling p

/-- `Layer::reset_gradients`: dispatch; a no-op on pooling layers. -/
def Layer.reset_gradients (self : Layer) : Layer :=
  match self with
  | Layer.Convolutional c => Layer.Convolutional c.reset_gradients
  | Layer.FullyConnected f => Layer.FullyConnected f.reset_gradients
  | Layer.Pooling p => Layer.Pooling p

/-- Failure of a network-level operation: a typed engine error, or a Rust
panic (`usize` underflow or out-of-bounds indexing). -/
inductive Fail where
  | err (e : Error)
  | crash
deriving DecidableEq, Repr

/-- The network orchestrator (src/neural_network.rs): the ordered layer
chain, each layer tagged with its activation function, plus the error
function. -/
structure NeuralNetwork where
  layers : List (Layer × ActivationFunction)
  error_function : ErrorFunction
deriving Repr

/-- `NeuralNetwork::set_input`: an explicit emptiness check (the one typed
guard on the layer count in the source), then dispatch on the first
layer. -/
def NeuralNetwork.set_input (nn : NeuralNetwork) (input : List ℚ) :
    Except Error NeuralNetwork :=
  match nn.layers with
  | [] => Except.error Error.IncompatibleLayers
  | (Layer.Convolutional c, a) :: rest =>
    match c.set_volume input with
    | Except.ok c₂ =>
      Except.ok { nn with layers := (Layer.Convolutional c₂, a) :: rest }
    | Except.error e => Except.error e
  | _ :: _ => Except.error Error.IncompatibleLayers

/-- One step of the forward sweep: propagate from layer `i` into layer
`i+1`, then activate layer `i+1` with its own activation function. -/
def forward_step (ex : ℚ → ℚ)
    (layers : List (Layer × ActivationFunction)) (i : Nat) :
    Except Fail (List (Layer × ActivationFunction)) :=
  match layers[i]?, layers[i + 1]? with
  | some (cur, _), some (nxt, func) =>
    match cur.forward_propagate nxt with
    | Except.error e => Except.error (Fail.err e)
    | Except.ok nxt₂ =>
      Except.ok (layers.set (i + 1) (nxt₂.activate ex func, func))
  | _, _ => Except.error Fail.crash

/-- `NeuralNetwork::forward_propagate`: the loop bound `layers.len() - 1`
is a `usize` subtraction, so the empty network panics before the loop
body runs. -/
def NeuralNetwork.forward_propagate (ex : ℚ → ℚ) (nn : NeuralNetwork) :
    Except Fail NeuralNetwork :=
  match checked_sub nn.layers.length 1 with
  | none => Except.error Fail.crash
  | some bound =>
    ((List.range bound).foldlM (forward_step ex) nn.layers).map
      (fun ls => { nn with layers := ls })

/-- One step of the backward sweep at index `i ≥ 1`: back-activate layer
`i`, then back-propagate from layer `i` into layer `i-1`. -/
def backward_step (ex : ℚ → ℚ)
    (layers : List (Layer × ActivationFunction)) (i : Nat) :
    Except Fail (List (Layer × ActivationFunction)) :=
  match layers[i]?, layers[i - 1]? with
  | some (cur, func), some (prev, fprev) =>
    let cur₂ := cur.backward_activate ex func
    match cur₂.back_propagate prev with
    | Except.error e => Except.error (Fail.err e)
    | Except.ok r =>
      Except.ok ((layers.set i (r.1, func)).set (i - 1) (r.2, fprev))
  | _, _ => Except.error Fail.crash

/-- The index sequence `(1..len).rev()` of the backward sweep:
`[len-1, …, 1]`. -/
def back_range (len : Nat) : List Nat :=
  (List.range (len - 1)).reverse.map (· + 1)

/-- `NeuralNetwork::back_propagate`: `layers.len() - 1` panics on the empty
network; a non-dense last layer is the one typed error; then the output
gradients are seeded and the backward sweep runs from the last layer down
to index 1. -/
def NeuralNetwork.back_propagate (ex : ℚ → ℚ) (nn : NeuralNetwork)
    (target_output : List ℚ) : Except Fail NeuralNetwork :=
  match checked_sub nn.layers.length 1 with
  | none => Except.error Fail.crash
  | some last =>
    match nn.layers[last]? with
    | none => Except.error Fail.crash
    | some (Layer.FullyConnected f, func) =>
      match f.calculate_output_gradients nn.error_function target_output with
      | Except.error e => Except.error (Fail.err e)
      | Except.ok f₂ =>
        let layers₂ := nn.layers.set last (Layer.FullyConnected f₂, func)
        ((back_range nn.layers.length).foldlM (backward_step ex)
          layers₂).map (fun ls => { nn with layers := ls })
    | some _ => Except.error (Fail.err Error.IncompatibleLayers)

/-- `NeuralNetwork::start_batch`: reset every layer's gradients. -/
def NeuralNetwork.start_batch (nn : NeuralNetwork) : NeuralNetwork :=
  { nn with layers := nn.layers.map (fun la => (la.1.reset_gradients, la.2)) }

/-- `NeuralNetwork::get_error`: `layers.len() - 1` panics on the empty
network. -/
def NeuralNetwork.get_error (lg : ℚ → ℚ) (nn : NeuralNetwork)
    (target_output : List ℚ) : Except Fail ℚ :=
  match checked_sub nn.layers.length 1 with
  | none => Except.error Fail.crash
  | some last =>
    match nn.layers[last]? with
    | none => Except.error Fail.crash
    | some (Layer.FullyConnected f, _) =>
      match f.get_error lg nn.error_function target_output with
      | Except.ok v => Except.ok v
      | Except.error e => Except.error (Fail.err e)
    | some _ => Except.error (Fail.err Error.InvalidInput)

/-- `NeuralNetwork::get_output`: `layers.len() - 1` panics on the empty
network. -/
def NeuralNetwork.get_output (nn : NeuralNetwork) :
    Except Fail (List ℚ) :=
  match checked_sub nn.layers.length 1 with
  | none => Except.error Fail.crash
  | some last =>
    match nn.layers[last]? with
    | none => Except.error Fail.crash
    | some (Layer.FullyConnected f, _) => Except.ok f.get_outputs
    | some _ => Except.error (Fail.err Error.InvalidInput)

/-- `NeuralNetwork::collect_gradients`: the flat concatenation, in layer
order, of convolutional kernel then bias gradients and dense weight then
bias gradients; pooling layers contribute nothing. -/
def NeuralNetwork.collect_gradients (nn : NeuralNetwork) : List ℚ :=
  nn.layers.flatMap fun la =>
    match la.1 with
    | Layer.Convolutional c => c.kernel_gradients ++ c.bias_gradients
    | Layer.FullyConnected f => f.weight_gradients ++ f.bias_gradients
    | Layer.Pooling _ => []

/-- A network with no registered layers. -/
def empty_network (error_function : ErrorFunction) : NeuralNetwork :=
  { layers := [], error_function := error_function }

/-- Per-sample training-side processing, as both the serial and the
parallel trainer perform it: `set_input`, `forward_propagate`,
`back_propagate`. -/
def process_sample (ex : ℚ → ℚ) (nn : NeuralNetwork)
    (s : List ℚ × List ℚ) : Except Fail NeuralNetwork :=
  match nn.set_input s.1 with
  | Except.error e => Except.error (Fail.err e)
  | Except.ok nn₁ =>
    match nn₁.forward_propagate ex with
    | Except.error f => Except.error f
    | Except.ok nn₂ => nn₂.back_propagate ex s.2

/-- Sequential processing of a list of samples on one network. -/
def run_batch (ex : ℚ → ℚ) (nn : NeuralNetwork)
    (samples : List (List ℚ × List ℚ)) : Except Fail NeuralNetwork :=
  samples.foldlM (process_sample ex) nn

/-- Elementwise addition of two gradient vectors. -/
def vec_add (a b : List ℚ) : List ℚ := List.zipWith (· + ·) a b

/-- The coordinator's reduction of the workers' gradient vectors
(trainer_parallel.rs): the first arrival is taken as-is, later ones are
added elementwise. -/
def sum_vectors (vs : List (List ℚ)) : List ℚ :=
  vs.foldl (fun combined v =>
    if combined.isEmpty then v else vec_add combined v) []

/-- Elementwise difference of two gradient vectors (used to speak about the
gradient accumulated by a run). -/
def vec_sub (a b : List ℚ) : List ℚ := List.zipWith (· - ·) a b

/-- Structural buffer-length invariant of a constructed convolutional layer
(established by `ConvolutionalLayer::new` and preserved by every
operation), including the constructor's tie `num_kernels = dimension.z`. -/
def wf_conv (c : ConvolutionalLayer) : Prop :=
  c.num_kernels = c.dimension.z ∧
  c.volume.length = c.dimension.x * c.dimension.y * c.dimension.z ∧
  c.volume_gradients.length =
    c.dimension.x * c.dimension.y * c.dimension.z ∧
  c.back_activated_volume.length =
    c.dimension.x * c.dimension.y * c.dimension.z ∧
  c.raw_volume.length = c.dimension.x * c.dimension.y * c.dimension.z ∧
  c.bias_gradients.length = c.dimension.z ∧
  c.kernel_gradients.length =
    c.kernel_size * c.kernel_size * c.input_depth * c.num_kernels ∧
  c.biases.length = c.dimension.z ∧
  c.kernel.length =
    c.kernel_size * c.kernel_size * c.input_depth * c.num_kernels

/-- Structural buffer-length invariant of a constructed pooling layer. -/
def wf_pool (p : PoolingLayer) : Prop :=
  p.volume.length = p.dimension.x * p.dimension.y * p.dimension.z ∧
  p.volume_gradients.length = p.dimension.x * p.dimension.y * p.dimension.z

/-- Structural buffer-length invariant of a constructed fully connected
layer. -/
def wf_fc (f : FullyConnectedLayer) : Prop :=
  f.values.length = f.num_neurons ∧
  f.raw_values.length = f.num_neurons ∧
  f.back_activated_values.length = f.num_neurons ∧
  f.value_gradients.length = f.num_neurons ∧
  f.biases.length = f.num_neurons ∧
  f.bias_gradients.length = f.num_neurons ∧
  f.weights.length = f.num_inputs * f.num_neurons ∧
  f.weight_gradients.length = f.num_inputs * f.num_neurons

/-- Structural invariant of a layer. -/
def wf_layer (l : Layer) : Prop :=
  match l with
  | Layer.Convolutional c => wf_conv c
  | Layer.Pooling p => wf_pool p
  | Layer.FullyConnected f => wf_fc f

/-- Structural invariant of a network: every layer is a constructed one. -/
def wf_net (nn : NeuralNetwork) : Prop :=
  ∀ la ∈ nn.layers, wf_layer la.1

/-- The flattened offsets the pooling forward loop writes, a function of
the static geometry alone. -/
def pool_fwd_idx (kernel_size stride : Nat) (out_dimension : Dim3)
    (input_dimension : Dim3) : List Nat :=
  (List.range (num_steps (input_dimension.x - kernel_size + 1)
      stride)).flatMap fun o_x =>
    (List.range (num_steps (input_dimension.y - kernel_size + 1)
        stride)).flatMap fun o_y =>
      (List.range input_dimension.z).map fun z =>
        get_index ⟨o_x, o_y, z⟩ out_dimension

/-- The flattened offsets the convolutional forward loop writes, a function
of the static geometry alone. -/
def conv_fwd_idx (kernel_size stride num_kernels : Nat)
    (out_dimension input_dimension : Dim3) (zero_padding : Nat) :
    List Nat :=
  (List.range num_kernels).flatMap fun k =>
    (List.range (num_steps
        (input_dimension.x + zero_padding * 2 - kernel_size + 1)
        stride)).flatMap fun o_x =>
      (List.range (num_steps
          (input_dimension.y + zero_padding * 2 - kernel_size + 1)
          stride)).map fun o_y =>
        get_index ⟨o_x, o_y, k⟩ out_dimension

/-- Agreement of static fields, parameters and velocities between two
convolutional layers. -/
def conv_statics (x y : ConvolutionalLayer) : Prop :=
  x.stride = y.stride ∧ x.kernel_size = y.kernel_size ∧
  x.num_kernels = y.num_kernels ∧ x.dimension = y.dimension ∧
  x.zero_padding = y.zero_padding ∧ x.input_depth = y.input_depth ∧
  x.kernel = y.kernel ∧ x.biases = y.biases ∧
  x.bias_velocity = y.bias_velocity ∧ x.kernel_velocity = y.kernel_velocity

/-- Length agreement of all mutable convolutional buffers. -/
def conv_lens (x y : ConvolutionalLayer) : Prop :=
  x.volume.length = y.volume.length ∧
  x.raw_volume.length = y.raw_volume.length ∧
  x.back_activated_volume.length = y.back_activated_volume.length ∧
  x.volume_gradients.length = y.volume_gradients.length ∧
  x.kernel_gradients.length = y.kernel_gradients.length ∧
  x.bias_gradients.length = y.bias_gradients.length

/-- Agreement of static fields, parameters and velocities between two
fully connected layers. -/
def fc_statics (x y : FullyConnectedLayer) : Prop :=
  x.num_inputs = y.num_inputs ∧ x.num_neurons = y.num_neurons ∧
  x.weights = y.weights ∧ x.biases = y.biases ∧
  x.weight_velocity = y.weight_velocity ∧ x.bias_velocity = y.bias_velocity

/-- Length agreement of all mutable dense buffers. -/
def fc_lens (x y : FullyConnectedLayer) : Prop :=
  x.values.length = y.values.length ∧
  x.raw_values.length = y.raw_values.length ∧
  x.back_activated_values.length = y.back_activated_values.length ∧
  x.value_gradients.length = y.value_gradients.length ∧
  x.weight_gradients.length = y.weight_gradients.length ∧
  x.bias_gradients.length = y.bias_gradients.length

/-- Agreement of static fields between two pooling layers. -/
def pool_statics (x y : PoolingLayer) : Prop :=
  x.zero_padding = y.zero_padding ∧ x.stride = y.stride ∧
  x.kernel_size = y.kernel_size ∧ x.dimension = y.dimension ∧
  x.pooling_type = y.pooling_type

/-- Lockstep relation between a layer of the mid-batch serial network and
the corresponding layer of a freshly cloned worker network: all static
fields, parameters and velocities agree; buffers that every successful
sample rewrites before reading (or never touches through a read) agree in
length; a pooling layer's output volume additionally agrees at every offset
its forward loop never writes (those stale entries are read by the next
layer). `prev_dim` is the upstream layer's declared dimension. -/
def layer_rel (prev_dim : Dim3) (a b : Layer) : Prop :=
  match a, b with
  | Layer.Convolutional x, Layer.Convolutional y =>
    conv_statics x y ∧ conv_lens x y
  | Layer.Pooling x, Layer.Pooling y =>
    pool_statics x y ∧
    x.volume.length = y.volume.length ∧
    x.volume_gradients.length = y.volume_gradients.length ∧
    (∀ j : Nat, j ∉ pool_fwd_idx x.kernel_size x.stride x.dimension
      prev_dim → x.volume[j]? = y.volume[j]?)
  | Layer.FullyConnected x, Layer.FullyConnected y =>
    fc_statics x y ∧ fc_lens x y
  | _, _ => False

/-- Lockstep relation holding after a layer's forward output buffer has
been freshly written this sample: its activated output agrees exactly; its
pre-activation buffer agrees when `strong` is set (every layer except the
input layer, whose raw buffer is never written or read). -/
def layer_sync (strong : Bool) (a b : Layer) : Prop :=
  match a, b with
  | Layer.Convolutional x, Layer.Convolutional y =>
    conv_statics x y ∧ conv_lens x y ∧ x.volume = y.volume ∧
    (strong = true → x.raw_volume = y.raw_volume)
  | Layer.Pooling x, Layer.Pooling y =>
    pool_statics x y ∧
    x.volume_gradients.length = y.volume_gradients.length ∧
    x.volume = y.volume
  | Layer.FullyConnected x, Layer.FullyConnected y =>
    fc_statics x y ∧ fc_lens x y ∧ x.values = y.values ∧
    (strong = true → x.raw_values = y.raw_values)
  | _, _ => False

/-- Common accumulation decomposition of a gradient buffer: both runs added
the same per-sample increments to their respective previous contents. -/
def accum_sync (preA preB postA postB : List ℚ) : Prop :=
  ∃ adds : List (Nat × ℚ),
    postA = apply_adds preA adds ∧ postB = apply_adds preB adds

/-- Lockstep relation holding after the backward sweep has handled a
layer: all per-sample buffers agree exactly, and the gradient accumulators
carry the same per-sample increments over their pre-sample contents
(`pa`, `pb` are the pre-sample versions of the same layer in the two
runs). -/
def layer_done (pa pb a b : Layer) : Prop :=
  match pa, pb, a, b with
  | Layer.Convolutional px, Layer.Convolutional py,
      Layer.Convolutional x, Layer.Convolutional y =>
    conv_statics x y ∧ x.volume = y.volume ∧
    x.raw_volume = y.raw_volume ∧
    x.back_activated_volume = y.back_activated_volume ∧
    x.volume_gradients = y.volume_gradients ∧
    accum_sync px.kernel_gradients py.kernel_gradients
      x.kernel_gradients y.kernel_gradients ∧
    accum_sync px.bias_gradients py.bias_gradients
      x.bias_gradients y.bias_gradients
  | Layer.Pooling _, Layer.Pooling _, Layer.Pooling x, Layer.Pooling y =>
    pool_statics x y ∧ x.volume = y.volume ∧
    x.volume_gradients = y.volume_gradients
  | Layer.FullyConnected px, Layer.FullyConnected py,
      Layer.FullyConnected x, Layer.FullyConnected y =>
    fc_statics x y ∧ x.values = y.values ∧ x.raw_values = y.raw_values ∧
    x.back_activated_values = y.back_activated_values ∧
    x.value_gradients = y.value_gradients ∧
    accum_sync px.weight_gradients py.weight_gradients
      x.weight_gradients y.weight_gradients ∧
    accum_sync px.bias_gradients py.bias_gradients
      x.bias_gradients y.bias_gradients
  | _, _, _, _ => False

/-- The upstream dimension a layer presents to its successor. -/
def Layer.geom_dim (l : Layer) : Dim3 :=
  match l with
  | Layer.Convolutional c => c.dimension
  | Layer.Pooling p => p.dimension
  | Layer.FullyConnected _ => ⟨0, 0, 0⟩

/-- The layer stored at position `j` of a layer chain, if any. -/
def lfst (A : List (Layer × ActivationFunction)) (j : Nat) : Option Layer :=
  (A[j]?).map Prod.fst

/-- The activation function tagged at position `j` of a layer chain. -/
def lsnd (A : List (Layer × ActivationFunction)) (j : Nat) :
    Option ActivationFunction :=
  (A[j]?).map Prod.snd

/-- A binary layer relation lifted to optional layers: both positions must be
present or both absent. -/
def orel (R : Layer → Layer → Prop) :
    Option Layer → Option Layer → Prop
  | some a, some b => R a b
  | none, none => True
  | _, _ => False

/-- A 4-ary layer relation lifted to optional layers. -/
def orel4 (R : Layer → Layer → Layer → Layer → Prop) :
    Option Layer → Option Layer → Option Layer → Option Layer → Prop
  | some a, some b, some c, some d => R a b c d
  | none, none, none, none => True
  | _, _, _, _ => False

/-- The structural invariant lifted to an optional layer. -/
def owf : Option Layer → Prop
  | some a => wf_layer a
  | none => True

/-- The upstream dimension seen by position `j` of a layer chain: the
declared dimension of position `j - 1` (a default for the head). -/
def prev_geom (A : List (Layer × ActivationFunction)) : Nat → Dim3
  | 0 => ⟨0, 0, 0⟩
  | j + 1 =>
    match A[j]? with
    | some la => la.1.geom_dim
    | none => ⟨0, 0, 0⟩

/-- Chainwise lockstep relation over layer lists: equal length, equal
activation tags and positionwise `layer_rel` against the upstream
dimension. -/
def chain_rel (A B : List (Layer × ActivationFunction)) : Prop :=
  A.length = B.length ∧
  (∀ j, lsnd A j = lsnd B j) ∧
  (∀ j, orel (layer_rel (prev_geom A j)) (lfst A j) (lfst B j))

/-- Lockstep relation between two whole networks. -/
def net_rel (s t : NeuralNetwork) : Prop :=
  s.error_function = t.error_function ∧ chain_rel s.layers t.layers

/-- Agreement of the gradient buffer the backward sweep seeds into a layer
before back-activating it. -/
def seeded (a b : Layer) : Prop :=
  match a, b with
  | Layer.Convolutional x, Layer.Convolutional y =>
    x.volume_gradients = y.volume_gradients
  | Layer.Pooling x, Layer.Pooling y =>
    x.volume_gradients = y.volume_gradients
  | Layer.FullyConnected x, Layer.FullyConnected y =>
    x.value_gradients = y.value_gradients
  | _, _ => False

/-- The gradient accumulators of `a` still hold exactly the contents they
had in the earlier state `p`. -/
def accums_keep (p a : Layer) : Prop :=
  match p, a with
  | Layer.Convolutional px, Layer.Convolutional x =>
    x.kernel_gradients = px.kernel_gradients ∧
    x.bias_gradients = px.bias_gradients
  | Layer.Pooling _, Layer.Pooling _ => True
  | Layer.FullyConnected px, Layer.FullyConnected x =>
    x.weight_gradients = px.weight_gradients ∧
    x.bias_gradients = px.bias_gradients
  | _, _ => False

/-- Kind compatibility of an adjacent pair `(previous, current)`: a dense
layer is never followed by a spatial layer (the forward pass rejects such a
chain, and the backward pass would silently skip it). -/
def fc_ok (p a : Layer) : Prop :=
  match p, a with
  | Layer.FullyConnected _, Layer.Convolutional _ => False
  | Layer.FullyConnected _, Layer.Pooling _ => False
  | _, _ => True

/-- Gradient-accounting part of the per-sample lockstep: the two runs added
the same per-sample increments to each of the layer's accumulators. -/
def gdone (pa pb a b : Layer) : Prop :=
  match pa, pb, a, b with
  | Layer.Convolutional px, Layer.Convolutional py,
      Layer.Convolutional x, Layer.Convolutional y =>
    accum_sync px.kernel_gradients py.kernel_gradients
      x.kernel_gradients y.kernel_gradients ∧
    accum_sync px.bias_gradients py.bias_gradients
      x.bias_gradients y.bias_gradients
  | Layer.Pooling _, Layer.Pooling _, Layer.Pooling _, Layer.Pooling _ =>
    True
  | Layer.FullyConnected px, Layer.FullyConnected py,
      Layer.FullyConnected x, Layer.FullyConnected y =>
    accum_sync px.weight_gradients py.weight_gradients
      x.weight_gradients y.weight_gradients ∧
    accum_sync px.bias_gradients py.bias_gradients
      x.bias_gradients y.bias_gradients
  | _, _, _, _ => False

/-- Networkwise gradient accounting: positionwise `gdone` over the two runs'
pre- and post-sample states. -/
def gnet (pa pb a b : NeuralNetwork) : Prop :=
  a.layers.length = pa.layers.length ∧
  b.layers.length = pb.layers.length ∧
  ∀ j, orel4 gdone (lfst pa.layers j) (lfst pb.layers j)
    (lfst a.layers j) (lfst b.layers j)

/-- The slice a single layer contributes to `collect_gradients`. -/
def seg (l : Layer) : List ℚ :=
  match l with
  | Layer.Convolutional c => c.kernel_gradients ++ c.bias_gradients
  | Layer.FullyConnected f => f.weight_gradients ++ f.bias_gradients
  | Layer.Pooling _ => []

/-- Shift every accumulation offset by a base offset. -/
def shift_adds (n : Nat) (ws : List (Nat × ℚ)) : List (Nat × ℚ) :=
  ws.map fun w => (w.1 + n, w.2)

/-- The degenerate input layer used in the C6 scenarios: dimension 1×1×1,
so the input volume size is 1. -/
def c6_input_layer : ConvolutionalLayer :=
  ConvolutionalLayer.new 0 0 0 ⟨1, 1, 1⟩ 0

/-- The tail of the C6 network: one dense layer. -/
def c6_rest : List (Layer × ActivationFunction) :=
  [(Layer.FullyConnected (FullyConnectedLayer.new 1 1),
    ActivationFunction.Sigmoid)]

/-- A two-layer network whose first registered layer is a convolutional
input layer. -/
def c6_network : NeuralNetwork :=
  { layers := (Layer.Convolutional c6_input_layer, ActivationFunction.None)
      :: c6_rest,
    error_function := ErrorFunction.HalfMeanSquaredError }

/-- A two-layer network (convolutional input layer, dense output layer)
used to instantiate the batch-parallelism claim at a concrete input. -/
def c9_network : NeuralNetwork :=
  { layers := [(Layer.Convolutional (ConvolutionalLayer.new 0 0 0
        ⟨1, 1, 1⟩ 0), ActivationFunction.None),
      (Layer.FullyConnected (FullyConnectedLayer.new 1 1),
        ActivationFunction.None)],
    error_function := ErrorFunction.HalfMeanSquaredError }

/-- A one-chunk batch with a single sample for the concrete C9 instance. -/
def c9_chunks : List (List (List ℚ × List ℚ)) := [[([0], [0])]]

/-- Claim C7: the output-dimension inference fails exactly in the cases the
specification enumerates and otherwise returns the ceiling formula, and the
checking wrapper surfaces inference failure as `ImpossibleOutputDimension`. -/
theorem claim_C7 (dimension : Dim3) (zero_padding num_kernels kernel_size
    stride : Nat) :
    get_output_dimension dimension zero_padding num_kernels kernel_size stride
      = get_output_dimension_claimed dimension zero_padding num_kernels
          kernel_size stride ∧
    ∀ expected : Dim3,
      (check_output_dimension dimension expected zero_padding num_kernels
          kernel_size stride = Except.error Error.ImpossibleOutputDimension ↔
        get_output_dimension dimension zero_padding num_kernels kernel_size
          stride = none) := by
  have hp : zero_padding * 2 = 2 * zero_padding := by ring
  constructor
  · unfold get_output_dimension get_output_dimension_claimed
    rw [hp]
    split_ifs <;> first | rfl | tauto
  · intro expected
    unfold check_output_dimension
    rcases h : get_output_dimension dimension zero_padding num_kernels
        kernel_size stride with _ | dim
    · simp
    · show (if dim.x ≠ expected.x ∨ dim.y ≠ expected.y ∨ dim.z ≠ expected.z
          then Except.error Error.DimensionMismatch else Except.ok ())
          = Except.error Error.ImpossibleOutputDimension ↔ some dim = none
      split_ifs <;> simp

/-- Claim C8: on inputs where the inference succeeds it is deterministic, and
re-running the check with its own output as the expected dimension
succeeds. -/
theorem claim_C8 (dimension out : Dim3) (zero_padding num_kernels kernel_size
    stride : Nat)
    (h : get_output_dimension dimension zero_padding num_kernels kernel_size
      stride = some out) :
    (∀ out₂ : Dim3,
      get_output_dimension dimension zero_padding num_kernels kernel_size
        stride = some out₂ → out₂ = out) ∧
    check_output_dimension dimension out zero_padding num_kernels kernel_size
      stride = Except.ok () := by
  refine ⟨fun out₂ h₂ => ?_, ?_⟩
  · rw [h] at h₂
    exact (Option.some.inj h₂).symm
  · unfold check_output_dimension
    rw [h]
    simp

/-- Witness for claim C8 at the repository's test-fixture geometry. -/
theorem claim_C8_witness :
    (∀ out₂ : Dim3,
      get_output_dimension ⟨3, 3, 2⟩ 1 1 2 1 = some out₂ →
        out₂ = ⟨4, 4, 1⟩) ∧
    check_output_dimension ⟨3, 3, 2⟩ ⟨4, 4, 1⟩ 1 1 2 1 = Except.ok () :=
  claim_C8 ⟨3, 3, 2⟩ ⟨4, 4, 1⟩ 1 1 2 1 (by decide)

/-- Claim C2 fails on the code: at padded position (2,1) of a 3×3 input with
padding 1 the claim demands the unpadded offset 6, but `query_zero_padded`
compares against `width - padding` instead of `width + padding` and answers
`none`. -/
theorem claim_C2_code_bug_eval :
    query_zero_padded ⟨2, 1, 0⟩ ⟨3, 3, 2⟩ 1 = none ∧
    query_zero_padded_claimed ⟨2, 1, 0⟩ ⟨3, 3, 2⟩ 1 = some 6 ∧
    (none : Option Nat) ≠ some 6 := by
  refine ⟨by decide, by decide, by decide⟩

/-- Claim C3 fails on the code: a 1×1×1 input with padding 2 and a 1×1 kernel
passes `check_output_dimension` against the inferred 5×5×1 output, yet the
convolution's very first out-of-border column evaluates `1 - 2` on `usize`
and underflows. -/
theorem claim_C3_counterexample :
    check_output_dimension ⟨1, 1, 1⟩ ⟨5, 5, 1⟩ 2 1 1 1 = Except.ok () ∧
    conv_access_safe ⟨1, 1, 1⟩ 2 1 1 1 1 ⟨5, 5, 1⟩ 1 1 1 25 = false := by
  refine ⟨rfl, by decide⟩

theorem apply_writes_cons (v : List ℚ) (w : Nat × ℚ) (ws : List (Nat × ℚ)) :
    apply_writes v (w :: ws) = apply_writes (v.set w.1 w.2) ws := rfl

theorem apply_writes_length (v : List ℚ) (ws : List (Nat × ℚ)) :
    (apply_writes v ws).length = v.length := by
  induction ws generalizing v with
  | nil => rfl
  | cons w ws ih => rw [apply_writes_cons, ih, List.length_set]

theorem apply_writes_getElem?_of_ne (v : List ℚ) (ws : List (Nat × ℚ))
    (j : Nat) (h : ∀ w ∈ ws, w.1 ≠ j) :
    (apply_writes v ws)[j]? = v[j]? := by
  induction ws generalizing v with
  | nil => rfl
  | cons w ws ih =>
    rw [apply_writes_cons, ih _ (fun w hw => h w (List.mem_cons_of_mem _ hw))]
    exact List.getElem?_set_ne (h w (List.mem_cons_self _ _))

theorem apply_writes_getElem?_unique (v : List ℚ) (ws : List (Nat × ℚ))
    (j : Nat) (val : ℚ) (hmem : (j, val) ∈ ws)
    (huniq : ∀ w ∈ ws, w.1 = j → w.2 = val) (hlt : j < v.length) :
    (apply_writes v ws)[j]? = some val := by
  induction ws generalizing v with
  | nil => cases hmem
  | cons w ws ih =>
    rw [apply_writes_cons]
    by_cases hc : ∃ w₂ ∈ ws, w₂.1 = j
    · obtain ⟨w₂, hw₂, hj₂⟩ := hc
      have hval₂ : w₂.2 = val := huniq w₂ (List.mem_cons_of_mem _ hw₂) hj₂
      have hmem₂ : (j, val) ∈ ws := by
        have : w₂ = (j, val) := by
          cases w₂
          simp only at hj₂ hval₂
          rw [hj₂, hval₂]
        exact this ▸ hw₂
      exact ih hmem₂
        (fun w₃ hw₃ h₃ => huniq w₃ (List.mem_cons_of_mem _ hw₃) h₃)
        (v := v.set w.1 w.2) (by rw [List.length_set]; exact hlt)
    · push_neg at hc
      have hhead : w = (j, val) := by
        rcases List.mem_cons.mp hmem with h | h
        · exact h.symm
        · exact absurd rfl (hc _ h)
      subst hhead
      rw [apply_writes_getElem?_of_ne _ _ _ hc]
      simp [List.getElem?_set_self, hlt]

theorem get_index_lt (pos dim : Dim3) (hx : pos.x < dim.x)
    (hy : pos.y < dim.y) (hz : pos.z < dim.z) :
    get_index pos dim < dim.x * dim.y * dim.z := by
  have hm : pos.y + dim.y * pos.x < dim.y * dim.x := by
    have h1 : pos.y + dim.y * pos.x < dim.y * (pos.x + 1) := by
      rw [Nat.mul_succ]
      omega
    have h2 : dim.y * (pos.x + 1) ≤ dim.y * dim.x :=
      Nat.mul_le_mul_left _ hx
    omega
  have h3 : pos.z + dim.z * (pos.y + dim.y * pos.x) <
      dim.z * (dim.y * dim.x) := by
    have h4 : pos.z + dim.z * (pos.y + dim.y * pos.x) <
        dim.z * (pos.y + dim.y * pos.x + 1) := by
      rw [Nat.mul_succ]
      omega
    have h5 : dim.z * (pos.y + dim.y * pos.x + 1) ≤
        dim.z * (dim.y * dim.x) := Nat.mul_le_mul_left _ hm
    omega
  calc get_index pos dim = pos.z + dim.z * (pos.y + dim.y * pos.x) := rfl
  _ < dim.z * (dim.y * dim.x) := h3
  _ = dim.x * dim.y * dim.z := by ring

theorem get_index_inj (x₁ y₁ z₁ x₂ y₂ z₂ : Nat) (dim : Dim3)
    (hy₁ : y₁ < dim.y) (hz₁ : z₁ < dim.z) (hy₂ : y₂ < dim.y)
    (hz₂ : z₂ < dim.z)
    (h : get_index ⟨x₁, y₁, z₁⟩ dim = get_index ⟨x₂, y₂, z₂⟩ dim) :
    x₁ = x₂ ∧ y₁ = y₂ ∧ z₁ = z₂ := by
  unfold get_index at h
  simp only at h
  have hdz : 0 < dim.z := Nat.lt_of_le_of_lt (Nat.zero_le _) hz₁
  have hdy : 0 < dim.y := Nat.lt_of_le_of_lt (Nat.zero_le _) hy₁
  have hz : z₁ = z₂ := by
    have hmod := congrArg (· % dim.z) h
    simpa [Nat.add_mul_mod_self_left, Nat.mod_eq_of_lt hz₁,
      Nat.mod_eq_of_lt hz₂] using hmod
  subst hz
  have hm : y₁ + dim.y * x₁ = y₂ + dim.y * x₂ :=
    Nat.eq_of_mul_eq_mul_left hdz (by omega)
  have hy : y₁ = y₂ := by
    have hmod := congrArg (· % dim.y) hm
    simpa [Nat.add_mul_mod_self_left, Nat.mod_eq_of_lt hy₁,
      Nat.mod_eq_of_lt hy₂] using hmod
  subst hy
  exact ⟨Nat.eq_of_mul_eq_mul_left hdy (by omega), rfl, rfl⟩

theorem foldl_flatMap {α β γ : Type} (f : γ → List α) (g : β → α → β)
    (l : List γ) (b : β) :
    (l.flatMap f).foldl g b = l.foldl (fun b c => (f c).foldl g b) b := by
  induction l generalizing b with
  | nil => rfl
  | cons c l ih => simp [List.flatMap_cons, List.foldl_append, ih]

theorem foldl_max_init (l : List ℚ) (a b : ℚ) :
    l.foldl max (max a b) = max a (l.foldl max b) := by
  induction l generalizing b with
  | nil => rfl
  | cons c l ih =>
    show l.foldl max (max (max a b) c) = max a (l.foldl max (max b c))
    rw [max_assoc]
    exact ih (max b c)

theorem foldl_max_zero_eq (l : List ℚ) :
    l.foldl max 0 = max 0 (list_max_head l) := by
  cases l with
  | nil => simp [list_max_head]
  | cons v vs =>
    show vs.foldl max (max 0 v) = max 0 (vs.foldl max v)
    exact foldl_max_init vs 0 v

theorem get_output_dimension_eq_some (dim : Dim3) (zero_padding num_kernels
    kernel_size stride : Nat) (out : Dim3)
    (h : get_output_dimension dim zero_padding num_kernels kernel_size stride
      = some out) :
    out = ⟨(dim.x + zero_padding * 2 - kernel_size + 1 + stride - 1) / stride,
           (dim.y + zero_padding * 2 - kernel_size + 1 + stride - 1) / stride,
           num_kernels⟩ := by
  unfold get_output_dimension at h
  split_ifs at h
  exact (Option.some.inj h).symm

theorem apply_writes_getElem?_ge (v : List ℚ) (ws : List (Nat × ℚ))
    (j : Nat) (h : v.length ≤ j) : (apply_writes v ws)[j]? = none := by
  refine List.getElem?_eq_none ?_
  rw [apply_writes_length]
  exact h

theorem apply_writes_congr_outside (ws : List (Nat × ℚ)) (b₁ b₂ : List ℚ)
    (hlen : b₁.length = b₂.length)
    (h : ∀ j, j < b₁.length → j ∉ ws.map Prod.fst → b₁[j]? = b₂[j]?) :
    apply_writes b₁ ws = apply_writes b₂ ws := by
  induction ws generalizing b₁ b₂ with
  | nil =>
    refine List.ext_getElem? fun j => ?_
    show b₁[j]? = b₂[j]?
    by_cases hj : j < b₁.length
    · exact h j hj (by simp)
    · rw [List.getElem?_eq_none (show b₁.length ≤ j by omega),
        List.getElem?_eq_none (show b₂.length ≤ j by omega)]
  | cons w rest ih =>
    rw [apply_writes_cons, apply_writes_cons]
    refine ih (b₁.set w.1 w.2) (b₂.set w.1 w.2) (by simp [hlen]) ?_
    intro j hj hrest
    rw [List.length_set] at hj
    by_cases hw : w.1 = j
    · subst hw
      rw [List.getElem?_set_self (by omega),
        List.getElem?_set_self (by omega)]
    · rw [List.getElem?_set_ne hw, List.getElem?_set_ne hw]
      refine h j hj ?_
      simp only [List.map_cons, List.mem_cons, not_or]
      exact ⟨fun e => hw e.symm, hrest⟩

theorem apply_adds_cons (v : List ℚ) (w : Nat × ℚ) (ws : List (Nat × ℚ)) :
    apply_adds v (w :: ws) =
      apply_adds (v.set w.1 (v.getD w.1 0 + w.2)) ws := rfl

theorem apply_adds_length (v : List ℚ) (ws : List (Nat × ℚ)) :
    (apply_adds v ws).length = v.length := by
  induction ws generalizing v with
  | nil => rfl
  | cons w ws ih => rw [apply_adds_cons, ih, List.length_set]

theorem apply_adds_append (v : List ℚ) (ws₁ ws₂ : List (Nat × ℚ)) :
    apply_adds v (ws₁ ++ ws₂) = apply_adds (apply_adds v ws₁) ws₂ := by
  unfold apply_adds
  rw [List.foldl_append]

theorem getD_eq_getElem? (v : List ℚ) (j : Nat) :
    v.getD j 0 = (v[j]?).getD 0 := by
  rw [List.getD_eq_getElem?_getD]

theorem apply_adds_getElem? (ws : List (Nat × ℚ)) (b : List ℚ) (j : Nat)
    (hj : j < b.length) :
    (apply_adds b ws)[j]? =
      some (b.getD j 0 +
        ((ws.filter (fun w => w.1 == j)).map Prod.snd).sum) := by
  induction ws generalizing b with
  | nil =>
    show b[j]? = _
    rw [List.getElem?_eq_getElem hj]
    simp [getD_eq_getElem?, List.getElem?_eq_getElem hj]
  | cons w rest ih =>
    rw [apply_adds_cons]
    by_cases hw : w.1 = j
    · subst hw
      rw [ih _ (by simp [hj])]
      have hset : (b.set w.1 (b.getD w.1 0 + w.2)).getD w.1 0 =
          b.getD w.1 0 + w.2 := by
        rw [getD_eq_getElem?, List.getElem?_set_self hj]
        rfl
      rw [hset]
      simp [List.filter_cons]
      ring
    · rw [ih _ (by simp [hj])]
      have hset : (b.set w.1 (b.getD w.1 0 + w.2)).getD j 0 =
          b.getD j 0 := by
        rw [getD_eq_getElem?, List.getElem?_set_ne hw, ← getD_eq_getElem?]
      rw [hset]
      simp [List.filter_cons, hw, getD_eq_getElem?]

theorem apply_adds_getElem?_of_ne (v : List ℚ) (ws : List (Nat × ℚ))
    (j : Nat) (h : ∀ w ∈ ws, w.1 ≠ j) :
    (apply_adds v ws)[j]? = v[j]? := by
  induction ws generalizing v with
  | nil => rfl
  | cons w ws ih =>
    rw [apply_adds_cons, ih _ (fun w hw => h w (List.mem_cons_of_mem _ hw))]
    exact List.getElem?_set_ne (h w (List.mem_cons_self _ _))

theorem get_index_surj (dim : Dim3) (j : Nat)
    (hj : j < dim.x * dim.y * dim.z) :
    ∃ x y z, x < dim.x ∧ y < dim.y ∧ z < dim.z ∧
      get_index ⟨x, y, z⟩ dim = j := by
  have hz : 0 < dim.z := by
    rcases Nat.eq_zero_or_pos dim.z with h | h
    · rw [h] at hj
      omega
    · exact h
  have hy : 0 < dim.y := by
    rcases Nat.eq_zero_or_pos dim.y with h | h
    · rw [h] at hj
      simp at hj
    · exact h
  refine ⟨j / dim.z / dim.y, j / dim.z % dim.y, j % dim.z, ?_, ?_, ?_, ?_⟩
  · have h1 : j / dim.z < dim.x * dim.y := by
      rw [Nat.div_lt_iff_lt_mul hz]
      calc j < dim.x * dim.y * dim.z := hj
      _ = dim.x * dim.y * dim.z := rfl
    rw [Nat.div_lt_iff_lt_mul hy]
    calc j / dim.z < dim.x * dim.y := h1
    _ = dim.x * dim.y := rfl
  · exact Nat.mod_lt _ hy
  · exact Nat.mod_lt _ hz
  · show j % dim.z + dim.z * (j / dim.z % dim.y +
      dim.y * (j / dim.z / dim.y)) = j
    have h1 : dim.z * (j / dim.z % dim.y + dim.y * (j / dim.z / dim.y)) =
        dim.z * (j / dim.z) := by
      rw [Nat.mod_add_div]
    rw [h1, Nat.mod_add_div]

theorem conv_writes_fst (kernel biases : List ℚ) (kernel_size input_depth
    stride num_kernels : Nat) (out_dimension input_dimension : Dim3)
    (volume : List ℚ) (zero_padding : Nat) :
    (conv_writes kernel biases kernel_size input_depth stride num_kernels
      out_dimension input_dimension volume zero_padding).map Prod.fst =
    conv_fwd_idx kernel_size stride num_kernels out_dimension
      input_dimension zero_padding := by
  unfold conv_writes conv_fwd_idx
  simp [List.map_flatMap, List.map_map, Function.comp_def]

theorem pool_writes_fst (pooling_type : PoolingType) (kernel_size stride :
    Nat) (out_dimension input_dimension : Dim3) (volume : List ℚ) :
    (pool_writes pooling_type kernel_size stride out_dimension
      input_dimension volume).map Prod.fst =
    pool_fwd_idx kernel_size stride out_dimension input_dimension := by
  unfold pool_writes pool_fwd_idx
  simp [List.map_flatMap, List.map_map, Function.comp_def]

theorem conv_fwd_idx_cover (kernel_size stride num_kernels : Nat)
    (out_dimension input_dimension : Dim3) (zero_padding : Nat)
    (hx : num_steps (input_dimension.x + zero_padding * 2 - kernel_size + 1)
      stride = out_dimension.x)
    (hy : num_steps (input_dimension.y + zero_padding * 2 - kernel_size + 1)
      stride = out_dimension.y)
    (hn : num_kernels = out_dimension.z) (j : Nat)
    (hj : j < out_dimension.x * out_dimension.y * out_dimension.z) :
    j ∈ conv_fwd_idx kernel_size stride num_kernels out_dimension
      input_dimension zero_padding := by
  obtain ⟨x, y, z, hxx, hyy, hzz, he⟩ := get_index_surj out_dimension j hj
  unfold conv_fwd_idx
  refine List.mem_flatMap.mpr ⟨z, List.mem_range.mpr (by omega), ?_⟩
  refine List.mem_flatMap.mpr ⟨x, List.mem_range.mpr (by omega), ?_⟩
  exact List.mem_map.mpr ⟨y, List.mem_range.mpr (by omega), he⟩

theorem apply_writes_cover_congr (ws : List (Nat × ℚ)) (b₁ b₂ : List ℚ)
    (hlen : b₁.length = b₂.length)
    (hcov : ∀ j, j < b₁.length → j ∈ ws.map Prod.fst) :
    apply_writes b₁ ws = apply_writes b₂ ws := by
  refine apply_writes_congr_outside ws b₁ b₂ hlen fun j hj hmem =>
    absurd (hcov j hj) hmem

theorem apply_writes_range_congr (f : Nat → ℚ) (n : Nat) (b₁ b₂ : List ℚ)
    (hlen : b₁.length = b₂.length) (hn : b₁.length ≤ n) :
    apply_writes b₁ ((List.range n).map fun i => (i, f i)) =
    apply_writes b₂ ((List.range n).map fun i => (i, f i)) := by
  refine apply_writes_cover_congr _ b₁ b₂ hlen fun j hj => ?_
  have hidx : ((List.range n).map fun i => ((i, f i) : Nat × ℚ)).map
      Prod.fst = List.range n := by
    simp [List.map_map, Function.comp_def]
  rw [hidx]
  exact List.mem_range.mpr (by omega)

theorem check_output_dimension_ok (dim expected : Dim3) (zero_padding
    num_kernels kernel_size stride : Nat)
    (h : check_output_dimension dim expected zero_padding num_kernels
      kernel_size stride = Except.ok ()) :
    get_output_dimension dim zero_padding num_kernels kernel_size stride =
      some expected := by
  unfold check_output_dimension at h
  rcases hg : get_output_dimension dim zero_padding num_kernels kernel_size
      stride with _ | d
  · rw [hg] at h
    exact Except.noConfusion h
  · rw [hg] at h
    have h₂ : (if d.x ≠ expected.x ∨ d.y ≠ expected.y ∨ d.z ≠ expected.z
        then Except.error Error.DimensionMismatch
        else Except.ok ()) = (Except.ok () : Except Error Unit) := h
    split_ifs at h₂ with hif
    push_neg at hif
    obtain ⟨h1, h2, h3⟩ := hif
    cases d
    cases expected
    simp only at h1 h2 h3
    rw [h1, h2, h3]

theorem get_kernel_index_lt (x y z ki ks id n : Nat) (hx : x < ks)
    (hy : y < ks) (hz : z < id) (hk : ki < n) :
    get_kernel_index x y z ki ks id < ks * ks * id * n := by
  have hy1 : (y + 1) * ks ≤ ks * ks := Nat.mul_le_mul_right _ hy
  have hz1 : (z + 1) * (ks * ks) ≤ id * (ks * ks) := Nat.mul_le_mul_right _ hz
  have hk1 : (ki + 1) * (ks * ks * id) ≤ n * (ks * ks * id) :=
    Nat.mul_le_mul_right _ hk
  unfold get_kernel_index
  nlinarith [hx, hy1, hz1, hk1]

theorem query_checked_eq (pos dim : Dim3) (p : Nat) (hx : p ≤ dim.x)
    (hy : p ≤ dim.y) :
    query_zero_padded_checked pos dim p =
      some (query_zero_padded pos dim p) := by
  have h1 : checked_sub dim.x p = some (dim.x - p) := by
    unfold checked_sub
    rw [if_pos hx]
  have h2 : checked_sub dim.y p = some (dim.y - p) := by
    unfold checked_sub
    rw [if_pos hy]
  by_cases hA : pos.x < p
  · simp [query_zero_padded_checked, query_zero_padded, hA]
  · by_cases hB : dim.x - p ≤ pos.x
    · simp [query_zero_padded_checked, query_zero_padded, h1, hA, hB]
    · by_cases hC : pos.y < p
      · simp [query_zero_padded_checked, query_zero_padded, h1, h2, hA, hB,
          hC]
      · by_cases hD : dim.y - p ≤ pos.y
        · simp [query_zero_padded_checked, query_zero_padded, h1, h2, hA,
            hB, hC, hD]
        · simp [query_zero_padded_checked, query_zero_padded, h1, h2, hA,
            hB, hC, hD]

theorem query_some_bound (pos dim : Dim3) (p ind : Nat)
    (hq : query_zero_padded pos dim p = some ind) (hzlt : pos.z < dim.z) :
    ind < dim.x * dim.y * dim.z := by
  unfold query_zero_padded at hq
  split_ifs at hq with h
  push_neg at h
  obtain ⟨h1, h2, h3, h4⟩ := h
  rw [← Option.some.inj hq]
  exact get_index_lt ⟨pos.x - p, pos.y - p, pos.z⟩ dim
    (show pos.x - p < dim.x by omega) (show pos.y - p < dim.y by omega) hzlt

/-- Claim C3, amended: the dimension check alone does not rule out the
underflow (see the counterexample), but together with the side conditions
that the padding does not exceed the input width and height and that the
layer's declared input depth equals the input volume's depth, every offset
the forward convolution reads or writes is in bounds and no `usize`
subtraction underflows, for the buffers at their constructed lengths. -/
theorem claim_C3_amended (input_dimension out_dimension : Dim3)
    (zero_padding num_kernels kernel_size stride input_depth : Nat)
    (hcheck : check_output_dimension input_dimension out_dimension
      zero_padding num_kernels kernel_size stride = Except.ok ())
    (hpx : zero_padding ≤ input_dimension.x)
    (hpy : zero_padding ≤ input_dimension.y)
    (hdepth : input_depth = input_dimension.z) :
    conv_access_safe input_dimension zero_padding kernel_size stride
      num_kernels input_depth out_dimension
      (input_dimension.x * input_dimension.y * input_dimension.z)
      (kernel_size * kernel_size * input_depth * num_kernels)
      num_kernels
      (out_dimension.x * out_dimension.y * out_dimension.z) = true := by
  have hget := check_output_dimension_ok _ _ _ _ _ _ hcheck
  have hout := get_output_dimension_eq_some _ _ _ _ _ _ hget
  have houtx : num_steps
      (input_dimension.x + zero_padding * 2 - kernel_size + 1) stride =
      out_dimension.x := by
    simp [hout, num_steps]
  have houty : num_steps
      (input_dimension.y + zero_padding * 2 - kernel_size + 1) stride =
      out_dimension.y := by
    simp [hout, num_steps]
  have houtz : num_kernels = out_dimension.z := by
    simp [hout]
  unfold conv_access_safe
  simp only [List.all_eq_true, Bool.and_eq_true, decide_eq_true_eq]
  intro k hk o_x hox o_y hoy
  rw [List.mem_range] at hk hox hoy
  refine ⟨⟨?_, ?_⟩, ?_⟩
  · exact get_index_lt ⟨o_x, o_y, k⟩ out_dimension (houtx ▸ hox)
      (houty ▸ hoy) (houtz ▸ hk)
  · exact hk
  · intro z hz kernel_y hky kernel_x hkx
    rw [List.mem_range] at hz hky hkx
    rw [query_checked_eq _ _ _ hpx hpy]
    cases hq : query_zero_padded
        ⟨o_x * stride + kernel_x, o_y * stride + kernel_y, z⟩
        input_dimension zero_padding with
    | none => simp
    | some ind =>
      simp only [Bool.and_eq_true, decide_eq_true_eq]
      refine ⟨query_some_bound _ _ _ _ hq hz, ?_⟩
      exact get_kernel_index_lt _ _ _ _ _ _ _ hkx hky (hdepth ▸ hz) hk

/-- Witness for the amended claim C3 at the test fixture's geometry. -/
theorem claim_C3_amended_witness :
    conv_access_safe ⟨3, 3, 2⟩ 1 2 1 1 2 ⟨4, 4, 1⟩ (3 * 3 * 2)
      (2 * 2 * 2 * 1) 1 (4 * 4 * 1) = true :=
  claim_C3_amended ⟨3, 3, 2⟩ ⟨4, 4, 1⟩ 1 1 2 1 2 rfl (by decide) (by decide)
    (by decide)

theorem pool_value_max_eq (k : Nat) (idim : Dim3) (vol : List ℚ)
    (x y z : Nat) :
    pool_value PoolingType.Max k idim vol x y z =
      max 0 (window_max k idim vol x y z) := by
  unfold window_max
  rw [← foldl_max_zero_eq]
  unfold pool_value window_values
  rw [foldl_flatMap]
  simp only [List.foldl_map]

theorem pool_value_avg_eq (k : Nat) (idim : Dim3) (vol : List ℚ)
    (x y z : Nat) :
    pool_value PoolingType.Average k idim vol x y z =
      (window_values k idim vol x y z).sum *
        (1 / ((k : ℚ) * (k : ℚ))) := by
  unfold pool_value window_values
  rw [List.sum_eq_foldl, foldl_flatMap]
  simp only [List.foldl_map]

theorem convolve_raw_volume (x : ConvolutionalLayer) (idim : Dim3)
    (vol : List ℚ) (p : Nat) :
    (x.convolve idim vol p).raw_volume = apply_writes x.raw_volume
      (conv_writes x.kernel x.biases x.kernel_size x.input_depth x.stride
        x.num_kernels x.dimension idim vol p) := rfl

theorem convolve_volume (x : ConvolutionalLayer) (idim : Dim3)
    (vol : List ℚ) (p : Nat) :
    (x.convolve idim vol p).volume = apply_writes x.volume
      (conv_writes x.kernel x.biases x.kernel_size x.input_depth x.stride
        x.num_kernels x.dimension idim vol p) := rfl

theorem conv_target_core (ex : ℚ → ℚ) (func : ActivationFunction)
    (x y : ConvolutionalLayer) (idim : Dim3) (vol : List ℚ) (p : Nat)
    (hs : conv_statics x y) (hl : conv_lens x y) (hwf : wf_conv x)
    (hcheck : check_output_dimension idim x.dimension p x.num_kernels
      x.kernel_size x.stride = Except.ok ()) :
    layer_sync true
      (Layer.Convolutional (ConvolutionalLayer.activate ex
        (x.convolve idim vol p) func))
      (Layer.Convolutional (ConvolutionalLayer.activate ex
        (y.convolve idim vol p) func)) ∧
    (∀ pd : Dim3, layer_rel pd
      (Layer.Convolutional (ConvolutionalLayer.activate ex
        (x.convolve idim vol p) func))
      (Layer.Convolutional x)) ∧
    wf_conv (ConvolutionalLayer.activate ex (x.convolve idim vol p) func) :=
  by
  obtain ⟨hstride, hks, hnk, hdim, hzp, hid, hker, hbias, hbv, hkv⟩ := hs
  obtain ⟨lvol, lraw, lback, lvg, lkg, lbg⟩ := hl
  obtain ⟨wnk, wvol, wvg, wback, wraw, wbg, wkg, wbias, wker⟩ := hwf
  have hgeo := get_output_dimension_eq_some _ _ _ _ _ _
    (check_output_dimension_ok _ _ _ _ _ _ hcheck)
  have hgx : num_steps (idim.x + p * 2 - x.kernel_size + 1) x.stride =
      x.dimension.x := by
    rw [hgeo]
    rfl
  have hgy : num_steps (idim.y + p * 2 - x.kernel_size + 1) x.stride =
      x.dimension.y := by
    rw [hgeo]
    rfl
  have hgn : x.num_kernels = x.dimension.z := wnk
  have hws : conv_writes y.kernel y.biases y.kernel_size y.input_depth
      y.stride y.num_kernels y.dimension idim vol p =
      conv_writes x.kernel x.biases x.kernel_size x.input_depth x.stride
        x.num_kernels x.dimension idim vol p := by
    rw [hstride, hks, hnk, hdim, hid, hker, hbias]
  have hcov : ∀ j, j < x.raw_volume.length →
      j ∈ (conv_writes x.kernel x.biases x.kernel_size x.input_depth
        x.stride x.num_kernels x.dimension idim vol p).map Prod.fst := by
    intro j hj
    rw [conv_writes_fst]
    refine conv_fwd_idx_cover _ _ _ _ _ _ hgx hgy hgn j ?_
    omega
  have hraw : (x.convolve idim vol p).raw_volume =
      (y.convolve idim vol p).raw_volume := by
    rw [convolve_raw_volume, convolve_raw_volume, hws]
    exact apply_writes_cover_congr _ _ _ lraw hcov
  have hvlen : (x.convolve idim vol p).volume.length =
      (y.convolve idim vol p).volume.length := by
    rw [convolve_volume, convolve_volume, apply_writes_length,
      apply_writes_length, lvol]
  have hvol : (ConvolutionalLayer.activate ex (x.convolve idim vol p)
      func).volume = (ConvolutionalLayer.activate ex
      (y.convolve idim vol p) func).volume := by
    show apply_writes (x.convolve idim vol p).volume
        ((List.range (x.convolve idim vol p).volume.length).map fun i =>
          (i, activations_eval ex func
            ((x.convolve idim vol p).raw_volume.getD i 0))) = _
    rw [hvlen, hraw]
    exact apply_writes_range_congr _ _ _ _ hvlen (le_of_eq hvlen)
  have hvlen₂ : (ConvolutionalLayer.activate ex (x.convolve idim vol p)
      func).volume.length = x.volume.length := by
    show (apply_writes _ _).length = _
    rw [apply_writes_length, convolve_volume, apply_writes_length]
  refine ⟨⟨?_, ?_, hvol, fun _ => hraw⟩, fun pd => ⟨?_, ?_⟩, ?_⟩
  · exact ⟨hstride, hks, hnk, hdim, hzp, hid, hker, hbias, hbv, hkv⟩
  · refine ⟨?_, ?_, lback, lvg, lkg, lbg⟩
    · rw [hvlen₂]
      show x.volume.length = (apply_writes _ _).length
      rw [apply_writes_length, convolve_volume, apply_writes_length, lvol]
    · show (apply_writes x.raw_volume _).length =
        (apply_writes y.raw_volume _).length
      rw [apply_writes_length, apply_writes_length, lraw]
  · exact ⟨rfl, rfl, rfl, rfl, rfl, rfl, rfl, rfl, rfl, rfl⟩
  · refine ⟨hvlen₂, ?_, rfl, rfl, rfl, rfl⟩
    show (apply_writes x.raw_volume _).length = x.raw_volume.length
    rw [apply_writes_length]
  · refine ⟨wnk, ?_, wvg, wback, ?_, wbg, wkg, wbias, wker⟩
    · rw [hvlen₂, wvol]
      rfl
    · show (apply_writes x.raw_volume _).length = _
      rw [apply_writes_length, wraw]
      rfl

theorem pool_convolve_volume (x : PoolingLayer) (idim : Dim3)
    (vol : List ℚ) :
    (x.convolve idim vol).volume = apply_writes x.volume
      (pool_writes x.pooling_type x.kernel_size x.stride x.dimension idim
        vol) := rfl

theorem pool_target_core (x y : PoolingLayer) (idim : Dim3) (vol : List ℚ)
    (hs : pool_statics x y) (hvl : x.volume.length = y.volume.length)
    (hgl : x.volume_gradients.length = y.volume_gradients.length)
    (hout : ∀ j, j ∉ pool_fwd_idx x.kernel_size x.stride x.dimension idim →
      x.volume[j]? = y.volume[j]?)
    (hwf : wf_pool x) :
    layer_sync true (Layer.Pooling (x.convolve idim vol))
      (Layer.Pooling (y.convolve idim vol)) ∧
    layer_rel idim (Layer.Pooling (x.convolve idim vol))
      (Layer.Pooling x) ∧
    wf_pool (x.convolve idim vol) := by
  obtain ⟨hzp, hstride, hks, hdim, hpt⟩ := hs
  have hws : pool_writes y.pooling_type y.kernel_size y.stride y.dimension
      idim vol = pool_writes x.pooling_type x.kernel_size x.stride
      x.dimension idim vol := by
    rw [hstride, hks, hdim, hpt]
  have hvol : (x.convolve idim vol).volume = (y.convolve idim vol).volume :=
    by
    rw [pool_convolve_volume, pool_convolve_volume, hws]
    refine apply_writes_congr_outside _ _ _ hvl fun j hj hmem => ?_
    refine hout j ?_
    rw [pool_writes_fst] at hmem
    exact hmem
  have hfoot : ∀ j, j ∉ pool_fwd_idx x.kernel_size x.stride x.dimension
      idim → (x.convolve idim vol).volume[j]? = x.volume[j]? := by
    intro j hj
    rw [pool_convolve_volume]
    refine apply_writes_getElem?_of_ne _ _ _ fun w hw he => ?_
    refine hj ?_
    rw [← pool_writes_fst x.pooling_type x.kernel_size x.stride x.dimension
      idim vol, ← he]
    exact List.mem_map.mpr ⟨w, hw, rfl⟩
  have hlen : (x.convolve idim vol).volume.length = x.volume.length := by
    rw [pool_convolve_volume, apply_writes_length]
  refine ⟨⟨⟨hzp, hstride, hks, hdim, hpt⟩, hgl, hvol⟩,
    ⟨⟨rfl, rfl, rfl, rfl, rfl⟩, ?_, rfl, hfoot⟩, ?_, ?_⟩
  · rw [hlen]
  · rw [hlen]
    exact hwf.1
  · exact hwf.2

theorem feed_forward_values (x : FullyConnectedLayer) (input : List ℚ) :
    (x.feed_forward input).values = apply_writes x.values
      ((List.range x.num_neurons).map fun i => (i, fc_value x input i)) :=
  rfl

theorem feed_forward_raw (x : FullyConnectedLayer) (input : List ℚ) :
    (x.feed_forward input).raw_values = apply_writes x.raw_values
      ((List.range x.num_neurons).map fun i => (i, fc_value x input i)) :=
  rfl

theorem fc_value_congr (x y : FullyConnectedLayer) (input : List ℚ)
    (hni : x.num_inputs = y.num_inputs) (hw : x.weights = y.weights)
    (hb : x.biases = y.biases) :
    fc_value x input = fc_value y input := by
  funext i
  unfold fc_value FullyConnectedLayer.get_weight
  rw [hni, hw, hb]

theorem fc_target_core (ex : ℚ → ℚ) (func : ActivationFunction)
    (x y : FullyConnectedLayer) (input : List ℚ)
    (hs : fc_statics x y) (hl : fc_lens x y) (hwf : wf_fc x) :
    layer_sync true
      (Layer.FullyConnected (FullyConnectedLayer.activate ex
        (x.feed_forward input) func))
      (Layer.FullyConnected (FullyConnectedLayer.activate ex
        (y.feed_forward input) func)) ∧
    (∀ pd : Dim3, layer_rel pd
      (Layer.FullyConnected (FullyConnectedLayer.activate ex
        (x.feed_forward input) func))
      (Layer.FullyConnected x)) ∧
    wf_fc (FullyConnectedLayer.activate ex (x.feed_forward input) func) :=
  by
  obtain ⟨hni, hnn, hw, hb, hwv, hbv⟩ := hs
  obtain ⟨lval, lraw, lback, lvg, lwg, lbg⟩ := hl
  obtain ⟨wval, wraw, wback, wvg, wbias, wbg, wwts, wwg⟩ := hwf
  have hfv : fc_value x input = fc_value y input :=
    fc_value_congr x y input hni hw hb
  have hraw : (x.feed_forward input).raw_values =
      (y.feed_forward input).raw_values := by
    rw [feed_forward_raw, feed_forward_raw, ← hnn, ← hfv]
    exact apply_writes_range_congr _ _ _ _ lraw (le_of_eq wraw)
  have hval : (x.feed_forward input).values =
      (y.feed_forward input).values := by
    rw [feed_forward_values, feed_forward_values, ← hnn, ← hfv]
    exact apply_writes_range_congr _ _ _ _ lval (le_of_eq wval)
  have hvlen : (x.feed_forward input).values.length =
      (y.feed_forward input).values.length := by
    rw [feed_forward_values, feed_forward_values, apply_writes_length,
      apply_writes_length, lval]
  have hvol : (FullyConnectedLayer.activate ex (x.feed_forward input)
      func).values = (FullyConnectedLayer.activate ex
      (y.feed_forward input) func).values := by
    show apply_writes (x.feed_forward input).values
        ((List.range (x.feed_forward input).values.length).map fun i =>
          (i, activations_eval ex func
            ((x.feed_forward input).raw_values.getD i 0))) = _
    rw [hvlen, hraw]
    exact apply_writes_range_congr _ _ _ _ hvlen (le_of_eq hvlen)
  have hvlen₂ : (FullyConnectedLayer.activate ex (x.feed_forward input)
      func).values.length = x.values.length := by
    show (apply_writes _ _).length = _
    rw [apply_writes_length, feed_forward_values, apply_writes_length]
  have hrlen₂ : (FullyConnectedLayer.activate ex (x.feed_forward input)
      func).raw_values.length = x.raw_values.length := by
    show (apply_writes x.raw_values _).length = _
    rw [apply_writes_length]
  refine ⟨⟨⟨hni, hnn, hw, hb, hwv, hbv⟩, ?_, hvol, fun _ => hraw⟩,
    fun pd => ⟨⟨rfl, rfl, rfl, rfl, rfl, rfl⟩,
      ⟨hvlen₂, hrlen₂, rfl, rfl, rfl, rfl⟩⟩, ?_⟩
  · refine ⟨?_, ?_, lback, lvg, lwg, lbg⟩
    · rw [hvlen₂]
      show x.values.length = (apply_writes _ _).length
      rw [apply_writes_length, feed_forward_values, apply_writes_length,
        lval]
    · rw [hrlen₂]
      show x.raw_values.length = (apply_writes y.raw_values _).length
      rw [apply_writes_length, lraw]
  · exact ⟨by rw [hvlen₂, wval]; rfl, by rw [hrlen₂, wraw]; rfl, wback,
      wvg, wbias, wbg, wwts, wwg⟩

theorem forward_cc (c n : ConvolutionalLayer) :
    Layer.forward_propagate (Layer.Convolutional c) (Layer.Convolutional n)
      = match check_output_dimension c.dimension n.dimension c.zero_padding
          n.num_kernels n.kernel_size n.stride with
        | Except.error e => Except.error e
        | Except.ok _ => Except.ok (Layer.Convolutional
            (n.convolve c.dimension c.volume c.zero_padding)) := rfl

theorem forward_cp (c : ConvolutionalLayer) (n : PoolingLayer) :
    Layer.forward_propagate (Layer.Convolutional c) (Layer.Pooling n)
      = match check_output_dimension c.dimension n.dimension 0
          n.dimension.z n.kernel_size n.stride with
        | Except.error e => Except.error e
        | Except.ok _ =>
          Except.ok (Layer.Pooling (n.convolve c.dimension c.volume)) := rfl

theorem forward_cf (c : ConvolutionalLayer) (n : FullyConnectedLayer) :
    Layer.forward_propagate (Layer.Convolutional c)
        (Layer.FullyConnected n)
      = if c.dimension.x * c.dimension.y * c.dimension.z ≠ n.num_inputs
        then Except.error Error.DimensionMismatch
        else Except.ok (Layer.FullyConnected (n.feed_forward c.volume)) :=
  rfl

theorem forward_pc (p : PoolingLayer) (n : ConvolutionalLayer) :
    Layer.forward_propagate (Layer.Pooling p) (Layer.Convolutional n)
      = match check_output_dimension p.dimension n.dimension p.zero_padding
          n.num_kernels n.kernel_size n.stride with
        | Except.error e => Except.error e
        | Except.ok _ => Except.ok (Layer.Convolutional
            (n.convolve p.dimension p.volume p.zero_padding)) := rfl

theorem forward_pp (p : PoolingLayer) (n : PoolingLayer) :
    Layer.forward_propagate (Layer.Pooling p) (Layer.Pooling n)
      = match check_output_dimension p.dimension n.dimension 0
          n.dimension.z n.kernel_size n.stride with
        | Except.error e => Except.error e
        | Except.ok _ =>
          Except.ok (Layer.Pooling (n.convolve p.dimension p.volume)) := rfl

theorem forward_pf (p : PoolingLayer) (n : FullyConnectedLayer) :
    Layer.forward_propagate (Layer.Pooling p) (Layer.FullyConnected n)
      = if p.dimension.x * p.dimension.y * p.dimension.z ≠ n.num_inputs
        then Except.error Error.DimensionMismatch
        else Except.ok (Layer.FullyConnected (n.feed_forward p.volume)) :=
  rfl

theorem forward_ff (f : FullyConnectedLayer) (n : FullyConnectedLayer) :
    Layer.forward_propagate (Layer.FullyConnected f)
        (Layer.FullyConnected n)
      = if n.num_inputs ≠ f.num_neurons
        then Except.error Error.DimensionMismatch
        else Except.ok (Layer.FullyConnected (n.feed_forward f.values)) :=
  rfl

theorem activate_conv (ex : ℚ → ℚ) (c : ConvolutionalLayer)
    (func : ActivationFunction) :
    Layer.activate ex (Layer.Convolutional c) func =
      Layer.Convolutional (ConvolutionalLayer.activate ex c func) := rfl

theorem activate_pool (ex : ℚ → ℚ) (p : PoolingLayer)
    (func : ActivationFunction) :
    Layer.activate ex (Layer.Pooling p) func = Layer.Pooling p := rfl

theorem activate_fc (ex : ℚ → ℚ) (f : FullyConnectedLayer)
    (func : ActivationFunction) :
    Layer.activate ex (Layer.FullyConnected f) func =
      Layer.FullyConnected (FullyConnectedLayer.activate ex f func) := rfl

theorem forward_propagate_lockstep (ex : ℚ → ℚ) (func : ActivationFunction)
    (b : Bool) (cA cB nA nB : Layer) (hcur : layer_sync b cA cB)
    (hrel : layer_rel cA.geom_dim nA nB) (hwf : wf_layer nA) :
    match Layer.forward_propagate cA nA, Layer.forward_propagate cB nB with
    | Except.error e₁, Except.error e₂ => e₁ = e₂
    | Except.ok rA, Except.ok rB =>
      layer_sync true (Layer.activate ex rA func)
        (Layer.activate ex rB func) ∧
      layer_rel cA.geom_dim (Layer.activate ex rA func) nA ∧
      wf_layer (Layer.activate ex rA func)
    | _, _ => False := by
  cases cA with
  | Convolutional x =>
    cases cB with
    | Convolutional x₂ =>
      obtain ⟨⟨hstride, hks, hnk, hdim, hzp, hid, hker, hbias, hbv, hkv⟩,
        hlens, hxv, hxr⟩ := hcur
      cases nA with
      | Convolutional n =>
        cases nB with
        | Convolutional n₂ =>
          obtain ⟨hns, hnl⟩ := hrel
          rw [forward_cc, forward_cc, ← hdim, ← hzp, ← hxv, ← hns.1,
            ← hns.2.1, ← hns.2.2.1, ← hns.2.2.2.1]
          rcases hc : check_output_dimension x.dimension n.dimension
              x.zero_padding n.num_kernels n.kernel_size n.stride with e | u
          · rfl
          · obtain ⟨h1, h2, h3⟩ := conv_target_core ex func n n₂ x.dimension
              x.volume x.zero_padding hns hnl hwf hc
            exact ⟨h1, h2 _, h3⟩
        | Pooling n₂ => exact absurd hrel (by simp [layer_rel])
        | FullyConnected n₂ => exact absurd hrel (by simp [layer_rel])
      | Pooling n =>
        cases nB with
        | Convolutional n₂ => exact absurd hrel (by simp [layer_rel])
        | Pooling n₂ =>
          obtain ⟨hns, hvl, hgl, hout⟩ := hrel
          rw [forward_cp, forward_cp, ← hdim, ← hxv, ← hns.2.2.1,
            ← hns.2.1, ← hns.2.2.2.1]
          rcases hc : check_output_dimension x.dimension n.dimension 0
              n.dimension.z n.kernel_size n.stride with e | u
          · rfl
          · obtain ⟨h1, h2, h3⟩ := pool_target_core n n₂ x.dimension
              x.volume hns hvl hgl hout hwf
            exact ⟨h1, h2, h3⟩
        | FullyConnected n₂ => exact absurd hrel (by simp [layer_rel])
      | FullyConnected n =>
        cases nB with
        | Convolutional n₂ => exact absurd hrel (by simp [layer_rel])
        | Pooling n₂ => exact absurd hrel (by simp [layer_rel])
        | FullyConnected n₂ =>
          obtain ⟨hns, hnl⟩ := hrel
          rw [forward_cf, forward_cf, ← hdim, ← hxv, ← hns.1]
          by_cases hc : x.dimension.x * x.dimension.y * x.dimension.z ≠
              n.num_inputs
          · rw [if_pos hc, if_pos hc]
          · rw [if_neg hc, if_neg hc]
            obtain ⟨h1, h2, h3⟩ := fc_target_core ex func n n₂ x.volume hns
              hnl hwf
            exact ⟨h1, h2 _, h3⟩
    | Pooling x₂ => exact absurd hcur (by simp [layer_sync])
    | FullyConnected x₂ => exact absurd hcur (by simp [layer_sync])
  | Pooling x =>
    cases cB with
    | Convolutional x₂ => exact absurd hcur (by simp [layer_sync])
    | Pooling x₂ =>
      obtain ⟨⟨hzp, hstride, hks, hdim, hpt⟩, hgl, hxv⟩ := hcur
      cases nA with
      | Convolutional n =>
        cases nB with
        | Convolutional n₂ =>
          obtain ⟨hns, hnl⟩ := hrel
          rw [forward_pc, forward_pc, ← hdim, ← hzp, ← hxv, ← hns.1,
            ← hns.2.1, ← hns.2.2.1, ← hns.2.2.2.1]
          rcases hc : check_output_dimension x.dimension n.dimension
              x.zero_padding n.num_kernels n.kernel_size n.stride with e | u
          · rfl
          · obtain ⟨h1, h2, h3⟩ := conv_target_core ex func n n₂ x.dimension
              x.volume x.zero_padding hns hnl hwf hc
            exact ⟨h1, h2 _, h3⟩
        | Pooling n₂ => exact absurd hrel (by simp [layer_rel])
        | FullyConnected n₂ => exact absurd hrel (by simp [layer_rel])
      | Pooling n =>
        cases nB with
        | Convolutional n₂ => exact absurd hrel (by simp [layer_rel])
        | Pooling n₂ =>
          obtain ⟨hns, hvl, hgl₂, hout⟩ := hrel
          rw [forward_pp, forward_pp, ← hdim, ← hxv, ← hns.2.2.1,
            ← hns.2.1, ← hns.2.2.2.1]
          rcases hc : check_output_dimension x.dimension n.dimension 0
              n.dimension.z n.kernel_size n.stride with e | u
          · rfl
          · obtain ⟨h1, h2, h3⟩ := pool_target_core n n₂ x.dimension
              x.volume hns hvl hgl₂ hout hwf
            exact ⟨h1, h2, h3⟩
        | FullyConnected n₂ => exact absurd hrel (by simp [layer_rel])
      | FullyConnected n =>
        cases nB with
        | Convolutional n₂ => exact absurd hrel (by simp [layer_rel])
        | Pooling n₂ => exact absurd hrel (by simp [layer_rel])
        | FullyConnected n₂ =>
          obtain ⟨hns, hnl⟩ := hrel
          rw [forward_pf, forward_pf, ← hdim, ← hxv, ← hns.1]
          by_cases hc : x.dimension.x * x.dimension.y * x.dimension.z ≠
              n.num_inputs
          · rw [if_pos hc, if_pos hc]
          · rw [if_neg hc, if_neg hc]
            obtain ⟨h1, h2, h3⟩ := fc_target_core ex func n n₂ x.volume hns
              hnl hwf
            exact ⟨h1, h2 _, h3⟩
    | FullyConnected x₂ => exact absurd hcur (by simp [layer_sync])
  | FullyConnected x =>
    cases cB with
    | Convolutional x₂ => exact absurd hcur (by simp [layer_sync])
    | Pooling x₂ => exact absurd hcur (by simp [layer_sync])
    | FullyConnected x₂ =>
      obtain ⟨⟨hni, hnn, hw, hb, hwv, hbv⟩, hlens, hxv, hxr⟩ := hcur
      cases nA with
      | Convolutional n =>
        cases nB with
        | Convolutional n₂ => rfl
        | Pooling n₂ => exact absurd hrel (by simp [layer_rel])
        | FullyConnected n₂ => exact absurd hrel (by simp [layer_rel])
      | Pooling n =>
        cases nB with
        | Convolutional n₂ => exact absurd hrel (by simp [layer_rel])
        | Pooling n₂ => rfl
        | FullyConnected n₂ => exact absurd hrel (by simp [layer_rel])
      | FullyConnected n =>
        cases nB with
        | Convolutional n₂ => exact absurd hrel (by simp [layer_rel])
        | Pooling n₂ => exact absurd hrel (by simp [layer_rel])
        | FullyConnected n₂ =>
          obtain ⟨hns, hnl⟩ := hrel
          rw [forward_ff, forward_ff, ← hnn, ← hxv, ← hns.1]
          by_cases hc : n.num_inputs ≠ x.num_neurons
          · rw [if_pos hc, if_pos hc]
          · rw [if_neg hc, if_neg hc]
            obtain ⟨h1, h2, h3⟩ := fc_target_core ex func n n₂ x.values hns
              hnl hwf
            exact ⟨h1, h2 _, h3⟩

/-- Claim C1 fails on the code: for a convolutional layer with identity
activation, raw value 2 and incoming gradient 3, `back_activate` stores
`eval(raw) * gradient = 2 * 3 = 6`, not the claimed
`eval_derivative(raw) * gradient = 1 * 3 = 3`, because the source applies
`activations::eval` instead of `activations::eval_derivative`. -/
theorem claim_C1_code_bug_eval :
    (ConvolutionalLayer.back_activate (fun _ => 0)
        { ConvolutionalLayer.new 0 1 1 ⟨1, 1, 1⟩ 1 with
          raw_volume := [2], volume_gradients := [3] }
        ActivationFunction.None).back_activated_volume = [6] ∧
    activations_eval_derivative (fun _ => 0) ActivationFunction.None 2 * 3
      = 3 ∧
    (6 : ℚ) ≠ 3 := by
  refine ⟨?_, by norm_num [activations_eval_derivative], by norm_num⟩
  norm_num [ConvolutionalLayer.back_activate, ConvolutionalLayer.new,
    apply_writes, activations_eval, List.range_succ]

/-- Claim C4 fails on the code: the fixture convolution passes the dimension
check but produces
`[6.5, 11, 0.5, 0.5, 11, 6.5, 0.5, …]`, not the documented output volume —
already the second entry is 11 instead of 18.5, a consequence of the
`width - padding` bound in `query_zero_padded`. -/
theorem claim_C4_code_bug_eval :
    check_output_dimension ⟨3, 3, 2⟩ ⟨4, 4, 1⟩ 1 1 2 1 = Except.ok () ∧
    (fixture_layer.convolve ⟨3, 3, 2⟩ fixture_input 1).volume =
      [6.5, 11, 0.5, 0.5, 11, 6.5, 0.5, 0.5,
       0.5, 0.5, 0.5, 0.5, 0.5, 0.5, 0.5, 0.5] ∧
    ([6.5, 11, 0.5, 0.5, 11, 6.5, 0.5, 0.5,
      0.5, 0.5, 0.5, 0.5, 0.5, 0.5, 0.5, 0.5] : List ℚ) ≠ fixture_expected
    := by
  refine ⟨rfl, ?_, by norm_num [fixture_expected]⟩
  norm_num [fixture_layer, fixture_input, ConvolutionalLayer.convolve,
    ConvolutionalLayer.new, conv_writes, conv_value, apply_writes, num_steps,
    query_zero_padded, get_index, get_kernel_index, List.range_succ,
    List.replicate_succ, List.set_cons_succ, List.set_cons_zero]

/-- Claim C5 fails on the code for Max pooling: a 1×1 window holding the
single value −1 pools to 0, not to the window maximum −1, because the
forward loop seeds its running maximum with `0.0`. -/
theorem claim_C5_counterexample :
    ((PoolingLayer.new PoolingType.Max 0 1 1 ⟨1, 1, 1⟩).convolve ⟨1, 1, 1⟩
        [-1]).volume = [0] ∧
    window_max 1 ⟨1, 1, 1⟩ [-1] 0 0 0 = -1 ∧
    ((0 : ℚ) ≠ -1) := by
  refine ⟨?_, ?_, by norm_num⟩
  · norm_num [PoolingLayer.new, PoolingLayer.convolve, pool_writes,
      pool_value, apply_writes, num_steps, get_index, List.range_succ,
      max_def]
  · norm_num [window_max, window_values, list_max_head, get_index,
      List.range_succ]

/-- Claim C5, amended: at every valid strided output position and channel,
forward Max pooling stores the maximum of `0` and the window values (which
is the window maximum whenever the window holds a nonnegative value, but not
for all-negative windows), and Average pooling stores the window sum times
`1 / kernel_size²` as claimed. -/
theorem claim_C5_amended (p : PoolingLayer) (input_dimension : Dim3)
    (volume : List ℚ) (o_x o_y z : Nat)
    (hdim : get_output_dimension input_dimension 0 p.dimension.z
      p.kernel_size p.stride = some p.dimension)
    (hz : input_dimension.z = p.dimension.z)
    (hlen : p.volume.length = p.dimension.x * p.dimension.y * p.dimension.z)
    (hx : o_x < p.dimension.x) (hy : o_y < p.dimension.y)
    (hzlt : z < p.dimension.z) :
    ((p.convolve input_dimension volume).volume)[get_index ⟨o_x, o_y, z⟩
        p.dimension]? =
      some (match p.pooling_type with
        | PoolingType.Max => max 0 (window_max p.kernel_size input_dimension
            volume (o_x * p.stride) (o_y * p.stride) z)
        | PoolingType.Average =>
          (window_values p.kernel_size input_dimension volume
            (o_x * p.stride) (o_y * p.stride) z).sum *
            (1 / ((p.kernel_size : ℚ) * (p.kernel_size : ℚ)))) := by
  have hout := get_output_dimension_eq_some _ _ _ _ _ _ hdim
  have hdx : num_steps (input_dimension.x - p.kernel_size + 1) p.stride =
      p.dimension.x := by
    rw [hout]
    simp [num_steps]
  have hdy : num_steps (input_dimension.y - p.kernel_size + 1) p.stride =
      p.dimension.y := by
    rw [hout]
    simp [num_steps]
  have hkey : ((p.convolve input_dimension volume).volume)[get_index
      ⟨o_x, o_y, z⟩ p.dimension]? =
      some (pool_value p.pooling_type p.kernel_size input_dimension volume
        (o_x * p.stride) (o_y * p.stride) z) := by
    show (apply_writes p.volume (pool_writes p.pooling_type p.kernel_size
      p.stride p.dimension input_dimension volume))[get_index
        ⟨o_x, o_y, z⟩ p.dimension]? = _
    apply apply_writes_getElem?_unique
    · unfold pool_writes
      refine List.mem_flatMap.mpr ⟨o_x, List.mem_range.mpr (hdx ▸ hx), ?_⟩
      refine List.mem_flatMap.mpr ⟨o_y, List.mem_range.mpr (hdy ▸ hy), ?_⟩
      exact List.mem_map.mpr ⟨z, List.mem_range.mpr (hz ▸ hzlt), rfl⟩
    · intro w hw he
      unfold pool_writes at hw
      obtain ⟨ox₂, hox₂, hw⟩ := List.mem_flatMap.mp hw
      obtain ⟨oy₂, hoy₂, hw⟩ := List.mem_flatMap.mp hw
      obtain ⟨z₂, hz₂, hw⟩ := List.mem_map.mp hw
      subst hw
      simp only at he ⊢
      obtain ⟨ex, ey, ez⟩ := get_index_inj ox₂ oy₂ z₂ o_x o_y z p.dimension
        (hdy ▸ List.mem_range.mp hoy₂) (hz ▸ List.mem_range.mp hz₂)
        hy hzlt he
      rw [ex, ey, ez]
    · rw [hlen]
      exact get_index_lt _ _ hx hy hzlt
  cases hpt : p.pooling_type with
  | Max =>
    rw [hpt] at hkey
    rw [hkey, pool_value_max_eq]
  | Average =>
    rw [hpt] at hkey
    rw [hkey, pool_value_avg_eq]

/-- Witness for the amended claim C5 at the specification's hand-computed
max-pooling scenario: a 1-channel 3×3 input through a 2×2 max-pool with
stride 1 and no padding, read at output position (0,0). -/
theorem claim_C5_amended_witness :
    ((PoolingLayer.new PoolingType.Max 0 1 2 ⟨2, 2, 1⟩).convolve ⟨3, 3, 1⟩
        [1, 4, 7, 2, 5, 8, 3, 6, 9]).volume[get_index ⟨0, 0, 0⟩
        ⟨2, 2, 1⟩]? =
      some (max 0 (window_max 2 ⟨3, 3, 1⟩ [1, 4, 7, 2, 5, 8, 3, 6, 9]
        (0 * 1) (0 * 1) 0)) :=
  claim_C5_amended (PoolingLayer.new PoolingType.Max 0 1 2 ⟨2, 2, 1⟩)
    ⟨3, 3, 1⟩ [1, 4, 7, 2, 5, 8, 3, 6, 9] 0 0 0 (by decide) (by decide)
    (by decide) (by decide) (by decide) (by decide)

/-- Claim C6 fails on the code: a wrong-length input vector is rejected
with `DimensionMismatch` (raised by `set_volume`'s length check), not with
the claimed `IncompatibleLayers`. -/
theorem claim_C6_counterexample :
    c6_network.set_input [3, 4] = Except.error Error.DimensionMismatch ∧
    Error.DimensionMismatch ≠ Error.IncompatibleLayers := by
  exact ⟨rfl, by decide⟩

/-- Claim C6, amended: on a network whose first registered layer is
convolutional (with its volume at the constructed width·height·depth
length), `set_input` with a flat vector whose length differs from the input
layer's volume size fails with `DimensionMismatch` (not
`IncompatibleLayers`), and a call with a vector of exactly that length
succeeds. -/
theorem claim_C6_amended (nn : NeuralNetwork) (c : ConvolutionalLayer)
    (a : ActivationFunction) (rest : List (Layer × ActivationFunction))
    (input : List ℚ)
    (hlayers : nn.layers = (Layer.Convolutional c, a) :: rest)
    (hlen : c.volume.length =
      c.dimension.x * c.dimension.y * c.dimension.z) :
    (input.length ≠ c.dimension.x * c.dimension.y * c.dimension.z →
      nn.set_input input = Except.error Error.DimensionMismatch) ∧
    (input.length = c.dimension.x * c.dimension.y * c.dimension.z →
      nn.set_input input = Except.ok { nn with
        layers := (Layer.Convolutional { c with volume := input }, a)
          :: rest }) := by
  constructor
  · intro h
    simp only [NeuralNetwork.set_input, hlayers,
      ConvolutionalLayer.set_volume]
    rw [if_pos (by omega)]
  · intro h
    simp only [NeuralNetwork.set_input, hlayers,
      ConvolutionalLayer.set_volume]
    rw [if_neg (by omega)]

/-- Witness for the amended claim C6: a length-1 input on the 1×1×1 input
layer succeeds (and the wrong-length conjunct is instantiated alongside). -/
theorem claim_C6_amended_witness :
    (([(5 : ℚ)].length ≠ c6_input_layer.dimension.x *
        c6_input_layer.dimension.y * c6_input_layer.dimension.z →
      c6_network.set_input [5] = Except.error Error.DimensionMismatch) ∧
    ([(5 : ℚ)].length = c6_input_layer.dimension.x *
        c6_input_layer.dimension.y * c6_input_layer.dimension.z →
      c6_network.set_input [5] = Except.ok { c6_network with
        layers := (Layer.Convolutional
          { c6_input_layer with volume := [5] }, ActivationFunction.None)
          :: c6_rest })) :=
  claim_C6_amended c6_network c6_input_layer ActivationFunction.None c6_rest
    [5] rfl (by decide)

/-- Claim C10: on the network with zero registered layers,
`forward_propagate`, `back_propagate`, `get_output` and `get_error` all
panic (the `usize` subtraction `layers.len() - 1` underflows, respectively
the subsequent indexing is out of bounds) instead of returning any typed
error value. -/
theorem claim_C10 (ex lg : ℚ → ℚ) (error_function : ErrorFunction)
    (target : List ℚ) :
    NeuralNetwork.forward_propagate ex (empty_network error_function) =
      Except.error Fail.crash ∧
    NeuralNetwork.back_propagate ex (empty_network error_function) target =
      Except.error Fail.crash ∧
    NeuralNetwork.get_output (empty_network error_function) =
      Except.error Fail.crash ∧
    NeuralNetwork.get_error lg (empty_network error_function) target =
      Except.error Fail.crash ∧
    ∀ e : Error, Fail.crash ≠ Fail.err e := by
  refine ⟨rfl, rfl, rfl, rfl, fun e h => Fail.noConfusion h⟩

theorem except_bind_ok {α β ε : Type} (a : α) (f : α → Except ε β) :
    (Except.ok a >>= f) = f a := rfl

theorem except_bind_error {α β ε : Type} (e : ε) (f : α → Except ε β) :
    ((Except.error e : Except ε α) >>= f) = Except.error e := rfl

theorem except_bind_pure {α ε : Type} (x : Except ε α) :
    (x >>= fun a => (pure a : Except ε α)) = x := by
  cases x <;> rfl

theorem layer_rel_refl (pd : Dim3) (a : Layer) : layer_rel pd a a := by
  cases a with
  | Convolutional x =>
    exact ⟨⟨rfl, rfl, rfl, rfl, rfl, rfl, rfl, rfl, rfl, rfl⟩,
      rfl, rfl, rfl, rfl, rfl, rfl⟩
  | Pooling x => exact ⟨⟨rfl, rfl, rfl, rfl, rfl⟩, rfl, rfl, fun _ _ => rfl⟩
  | FullyConnected x =>
    exact ⟨⟨rfl, rfl, rfl, rfl, rfl, rfl⟩, rfl, rfl, rfl, rfl, rfl, rfl⟩

theorem layer_rel_trans (pd : Dim3) (a b c : Layer)
    (h₁ : layer_rel pd a b) (h₂ : layer_rel pd b c) : layer_rel pd a c := by
  cases a with
  | Convolutional x =>
    cases b with
    | Convolutional y =>
      cases c with
      | Convolutional z =>
        obtain ⟨⟨s1, s2, s3, s4, s5, s6, s7, s8, s9, s10⟩,
          l1, l2, l3, l4, l5, l6⟩ := h₁
        obtain ⟨⟨t1, t2, t3, t4, t5, t6, t7, t8, t9, t10⟩,
          m1, m2, m3, m4, m5, m6⟩ := h₂
        exact ⟨⟨s1.trans t1, s2.trans t2, s3.trans t3, s4.trans t4,
          s5.trans t5, s6.trans t6, s7.trans t7, s8.trans t8, s9.trans t9,
          s10.trans t10⟩, l1.trans m1, l2.trans m2, l3.trans m3,
          l4.trans m4, l5.trans m5, l6.trans m6⟩
      | Pooling z => exact absurd h₂ (by simp [layer_rel])
      | FullyConnected z => exact absurd h₂ (by simp [layer_rel])
    | Pooling y => exact absurd h₁ (by simp [layer_rel])
    | FullyConnected y => exact absurd h₁ (by simp [layer_rel])
  | Pooling x =>
    cases b with
    | Convolutional y => exact absurd h₁ (by simp [layer_rel])
    | Pooling y =>
      cases c with
      | Convolutional z => exact absurd h₂ (by simp [layer_rel])
      | Pooling z =>
        obtain ⟨⟨s1, s2, s3, s4, s5⟩, l1, l2, hout₁⟩ := h₁
        obtain ⟨⟨t1, t2, t3, t4, t5⟩, m1, m2, hout₂⟩ := h₂
        refine ⟨⟨s1.trans t1, s2.trans t2, s3.trans t3, s4.trans t4,
          s5.trans t5⟩, l1.trans m1, l2.trans m2, fun j hj => ?_⟩
        rw [hout₁ j hj]
        refine hout₂ j ?_
        rw [← s2, ← s3, ← s4]
        exact hj
      | FullyConnected z => exact absurd h₂ (by simp [layer_rel])
    | FullyConnected y => exact absurd h₁ (by simp [layer_rel])
  | FullyConnected x =>
    cases b with
    | Convolutional y => exact absurd h₁ (by simp [layer_rel])
    | Pooling y => exact absurd h₁ (by simp [layer_rel])
    | FullyConnected y =>
      cases c with
      | Convolutional z => exact absurd h₂ (by simp [layer_rel])
      | Pooling z => exact absurd h₂ (by simp [layer_rel])
      | FullyConnected z =>
        obtain ⟨⟨s1, s2, s3, s4, s5, s6⟩, l1, l2, l3, l4, l5, l6⟩ := h₁
        obtain ⟨⟨t1, t2, t3, t4, t5, t6⟩, m1, m2, m3, m4, m5, m6⟩ := h₂
        exact ⟨⟨s1.trans t1, s2.trans t2, s3.trans t3, s4.trans t4,
          s5.trans t5, s6.trans t6⟩, l1.trans m1, l2.trans m2, l3.trans m3,
          l4.trans m4, l5.trans m5, l6.trans m6⟩

theorem layer_rel_geom (pd : Dim3) (a b : Layer)
    (h : layer_rel pd a b) : a.geom_dim = b.geom_dim := by
  cases a with
  | Convolutional x =>
    cases b with
    | Convolutional y => exact h.1.2.2.2.1
    | Pooling y => exact absurd h (by simp [layer_rel])
    | FullyConnected y => exact absurd h (by simp [layer_rel])
  | Pooling x =>
    cases b with
    | Convolutional y => exact absurd h (by simp [layer_rel])
    | Pooling y => exact h.1.2.2.2.1
    | FullyConnected y => exact absurd h (by simp [layer_rel])
  | FullyConnected x =>
    cases b with
    | Convolutional y => exact absurd h (by simp [layer_rel])
    | Pooling y => exact absurd h (by simp [layer_rel])
    | FullyConnected y => rfl

theorem layer_rel_wf (pd : Dim3) (a b : Layer)
    (h : layer_rel pd a b) (hwf : wf_layer a) : wf_layer b := by
  cases a with
  | Convolutional x =>
    cases b with
    | Convolutional y =>
      obtain ⟨⟨s1, s2, s3, s4, s5, s6, s7, s8, s9, s10⟩,
        l1, l2, l3, l4, l5, l6⟩ := h
      obtain ⟨w1, w2, w3, w4, w5, w6, w7, w8, w9⟩ := hwf
      refine ⟨?_, ?_, ?_, ?_, ?_, ?_, ?_, ?_, ?_⟩
      · rw [← s3, ← s4, w1]
      · rw [← l1, ← s4, w2]
      · rw [← l4, ← s4, w3]
      · rw [← l3, ← s4, w4]
      · rw [← l2, ← s4, w5]
      · rw [← l6, ← s4, w6]
      · rw [← l5, ← s2, ← s6, ← s3, w7]
      · rw [← congrArg List.length s8, ← s4, w8]
      · rw [← congrArg List.length s7, ← s2, ← s6, ← s3, w9]
    | Pooling y => exact absurd h (by simp [layer_rel])
    | FullyConnected y => exact absurd h (by simp [layer_rel])
  | Pooling x =>
    cases b with
    | Convolutional y => exact absurd h (by simp [layer_rel])
    | Pooling y =>
      obtain ⟨⟨s1, s2, s3, s4, s5⟩, l1, l2, hout⟩ := h
      obtain ⟨w1, w2⟩ := hwf
      exact ⟨by rw [← l1, ← s4, w1], by rw [← l2, ← s4, w2]⟩
    | FullyConnected y => exact absurd h (by simp [layer_rel])
  | FullyConnected x =>
    cases b with
    | Convolutional y => exact absurd h (by simp [layer_rel])
    | Pooling y => exact absurd h (by simp [layer_rel])
    | FullyConnected y =>
      obtain ⟨⟨s1, s2, s3, s4, s5, s6⟩, l1, l2, l3, l4, l5, l6⟩ := h
      obtain ⟨w1, w2, w3, w4, w5, w6, w7, w8⟩ := hwf
      refine ⟨?_, ?_, ?_, ?_, ?_, ?_, ?_, ?_⟩
      · rw [← l1, ← s2, w1]
      · rw [← l2, ← s2, w2]
      · rw [← l3, ← s2, w3]
      · rw [← l4, ← s2, w4]
      · rw [← congrArg List.length s4, ← s2, w5]
      · rw [← l6, ← s2, w6]
      · rw [← congrArg List.length s3, ← s1, ← s2, w7]
      · rw [← l5, ← s1, ← s2, w8]

theorem layer_sync_rel (b : Bool) (pd : Dim3) (x y : Layer)
    (h : layer_sync b x y) : layer_rel pd x y := by
  cases x with
  | Convolutional c =>
    cases y with
    | Convolutional d => exact ⟨h.1, h.2.1⟩
    | Pooling d => exact absurd h (by simp [layer_sync])
    | FullyConnected d => exact absurd h (by simp [layer_sync])
  | Pooling c =>
    cases y with
    | Convolutional d => exact absurd h (by simp [layer_sync])
    | Pooling d =>
      obtain ⟨hs, hgl, hv⟩ := h
      exact ⟨hs, by rw [hv], hgl, fun j _ => by rw [hv]⟩
    | FullyConnected d => exact absurd h (by simp [layer_sync])
  | FullyConnected c =>
    cases y with
    | Convolutional d => exact absurd h (by simp [layer_sync])
    | Pooling d => exact absurd h (by simp [layer_sync])
    | FullyConnected d => exact ⟨h.1, h.2.1⟩

theorem fc_ok_of_rel (pd pd' : Dim3) (a p b c : Layer)
    (h₁ : layer_rel pd a p) (h₂ : layer_rel pd' b c)
    (h : fc_ok p c) : fc_ok a b := by
  cases a <;> cases p <;> cases b <;> cases c <;>
    simp_all [layer_rel, fc_ok]

theorem accums_keep_refl (a : Layer) : accums_keep a a := by
  cases a <;> first | exact ⟨rfl, rfl⟩ | trivial

theorem accums_keep_trans (p a b : Layer)
    (h₁ : accums_keep p a) (h₂ : accums_keep a b) : accums_keep p b := by
  cases p <;> cases a <;> cases b <;> simp_all [accums_keep]

theorem gdone_of_done (pa pb a b : Layer)
    (h : layer_done pa pb a b) : gdone pa pb a b := by
  cases pa <;> cases pb <;> cases a <;> cases b <;>
    simp_all [layer_done, gdone]

theorem gdone_pre_congr (pa' pb' pa pb a b : Layer)
    (h : gdone pa pb a b) (ha : accums_keep pa' pa)
    (hb : accums_keep pb' pb) : gdone pa' pb' a b := by
  cases pa' <;> cases pb' <;> cases pa <;> cases pb <;> cases a <;>
    cases b <;> simp_all [accums_keep, gdone]

theorem gdone_of_keep (pd : Dim3) (pa pb a b : Layer)
    (ha : accums_keep pa a) (hb : accums_keep pb b)
    (hrel : layer_rel pd pa pb) : gdone pa pb a b := by
  cases pa <;> cases pb <;> cases a <;> cases b <;>
    simp_all [accums_keep, gdone, layer_rel] <;>
    exact ⟨⟨[], rfl, rfl⟩, ⟨[], rfl, rfl⟩⟩

theorem gdone_trans (pa pb m₁ m₂ a b : Layer)
    (h₁ : gdone pa pb m₁ m₂) (h₂ : gdone m₁ m₂ a b) :
    gdone pa pb a b := by
  cases pa <;> cases pb <;> cases m₁ <;> cases m₂ <;> cases a <;>
    cases b <;> simp_all [gdone] <;>
  · obtain ⟨⟨⟨w₁, hw₁, hw₂⟩, ⟨w₂, hw₃, hw₄⟩⟩,
      ⟨⟨u₁, hu₁, hu₂⟩, ⟨u₂, hu₃, hu₄⟩⟩⟩ := And.intro h₁ h₂
    refine ⟨⟨w₁ ++ u₁, ?_, ?_⟩, ⟨w₂ ++ u₂, ?_, ?_⟩⟩ <;>
      rw [apply_adds_append] <;> simp_all

theorem prev_geom_congr (A C : List (Layer × ActivationFunction))
    (pdf : Nat → Dim3)
    (h : ∀ j, orel (layer_rel (pdf j)) (lfst A j) (lfst C j)) :
    ∀ j, prev_geom A j = prev_geom C j := by
  intro j
  cases j with
  | zero => rfl
  | succ i =>
    have hi := h i
    unfold prev_geom
    show (match A[i]? with
      | some la => la.1.geom_dim
      | none => (⟨0, 0, 0⟩ : Dim3)) =
      (match C[i]? with
      | some la => la.1.geom_dim
      | none => (⟨0, 0, 0⟩ : Dim3))
    cases hA : A[i]? with
    | none =>
      cases hC : C[i]? with
      | none => rfl
      | some lc =>
        rw [show lfst A i = none by simp [lfst, hA],
          show lfst C i = some lc.1 by simp [lfst, hC]] at hi
        exact hi.elim
    | some la =>
      cases hC : C[i]? with
      | none =>
        rw [show lfst A i = some la.1 by simp [lfst, hA],
          show lfst C i = none by simp [lfst, hC]] at hi
        exact hi.elim
      | some lc =>
        rw [show lfst A i = some la.1 by simp [lfst, hA],
          show lfst C i = some lc.1 by simp [lfst, hC]] at hi
        exact layer_rel_geom _ _ _ hi

theorem orel_none_left (R : Layer → Layer → Prop) (o : Option Layer)
    (h : orel R none o) : o = none := by
  cases o with
  | none => rfl
  | some b => exact h.elim

theorem orel_some_left (R : Layer → Layer → Prop) (o : Option Layer)
    (a : Layer) (h : orel R (some a) o) : ∃ b, o = some b ∧ R a b := by
  cases o with
  | none => exact h.elim
  | some b => exact ⟨b, rfl, h⟩

theorem lfst_eq_none (A : List (Layer × ActivationFunction)) (j : Nat)
    (h : A[j]? = none) : lfst A j = none := by simp [lfst, h]

theorem lfst_eq_some (A : List (Layer × ActivationFunction)) (j : Nat)
    (p : Layer × ActivationFunction) (h : A[j]? = some p) :
    lfst A j = some p.1 := by simp [lfst, h]

theorem lfst_none (A : List (Layer × ActivationFunction)) (j : Nat)
    (h : lfst A j = none) : A[j]? = none := by
  cases hA : A[j]? with
  | none => rfl
  | some p => rw [lfst_eq_some A j p hA] at h; exact Option.noConfusion h

theorem pair_of_lfst (A : List (Layer × ActivationFunction)) (j : Nat)
    (c : Layer) (h : lfst A j = some c) :
    ∃ p, A[j]? = some p ∧ p.1 = c := by
  cases hA : A[j]? with
  | none => rw [lfst_eq_none A j hA] at h; exact Option.noConfusion h
  | some p =>
    rw [lfst_eq_some A j p hA] at h
    exact ⟨p, rfl, Option.some.inj h⟩

theorem forward_result_accums (ex : ℚ → ℚ) (func : ActivationFunction)
    (c n r : Layer) (h : Layer.forward_propagate c n = Except.ok r) :
    accums_keep n (Layer.activate ex r func) := by
  cases c with
  | Convolutional x =>
    cases n with
    | Convolutional m =>
      rw [forward_cc] at h
      rcases hc : check_output_dimension x.dimension m.dimension
          x.zero_padding m.num_kernels m.kernel_size m.stride with e | u
      · rw [hc] at h
        exact Except.noConfusion h
      · rw [hc] at h
        obtain rfl := Except.ok.inj h
        exact ⟨rfl, rfl⟩
    | Pooling m =>
      rw [forward_cp] at h
      rcases hc : check_output_dimension x.dimension m.dimension 0
          m.dimension.z m.kernel_size m.stride with e | u
      · rw [hc] at h
        exact Except.noConfusion h
      · rw [hc] at h
        obtain rfl := Except.ok.inj h
        trivial
    | FullyConnected m =>
      rw [forward_cf] at h
      by_cases hc : x.dimension.x * x.dimension.y * x.dimension.z ≠
          m.num_inputs
      · rw [if_pos hc] at h
        exact Except.noConfusion h
      · rw [if_neg hc] at h
        obtain rfl := Except.ok.inj h
        exact ⟨rfl, rfl⟩
  | Pooling x =>
    cases n with
    | Convolutional m =>
      rw [forward_pc] at h
      rcases hc : check_output_dimension x.dimension m.dimension
          x.zero_padding m.num_kernels m.kernel_size m.stride with e | u
      · rw [hc] at h
        exact Except.noConfusion h
      · rw [hc] at h
        obtain rfl := Except.ok.inj h
        exact ⟨rfl, rfl⟩
    | Pooling m =>
      rw [forward_pp] at h
      rcases hc : check_output_dimension x.dimension m.dimension 0
          m.dimension.z m.kernel_size m.stride with e | u
      · rw [hc] at h
        exact Except.noConfusion h
      · rw [hc] at h
        obtain rfl := Except.ok.inj h
        trivial
    | FullyConnected m =>
      rw [forward_pf] at h
      by_cases hc : x.dimension.x * x.dimension.y * x.dimension.z ≠
          m.num_inputs
      · rw [if_pos hc] at h
        exact Except.noConfusion h
      · rw [if_neg hc] at h
        obtain rfl := Except.ok.inj h
        exact ⟨rfl, rfl⟩
  | FullyConnected x =>
    cases n with
    | Convolutional m => exact Except.noConfusion h
    | Pooling m => exact Except.noConfusion h
    | FullyConnected m =>
      rw [forward_ff] at h
      by_cases hc : m.num_inputs ≠ x.num_neurons
      · rw [if_pos hc] at h
        exact Except.noConfusion h
      · rw [if_neg hc] at h
        obtain rfl := Except.ok.inj h
        exact ⟨rfl, rfl⟩

theorem forward_result_compat (c n r : Layer)
    (h : Layer.forward_propagate c n = Except.ok r) : fc_ok c n := by
  cases c with
  | Convolutional x => cases n <;> trivial
  | Pooling x => cases n <;> trivial
  | FullyConnected x =>
    cases n with
    | Convolutional m => exact Except.noConfusion h
    | Pooling m => exact Except.noConfusion h
    | FullyConnected m => trivial

theorem foldlM_single {σ α : Type} (f : σ → α → Except Fail σ) (s : σ)
    (a : α) : [a].foldlM f s = f s a := by
  show (f s a >>= fun x => List.foldlM f x []) = f s a
  rcases h : f s a with e | v
  · rfl
  · rfl

theorem forward_step_none_cur (ex : ℚ → ℚ)
    (L : List (Layer × ActivationFunction)) (i : Nat)
    (h : L[i]? = none) :
    forward_step ex L i = Except.error Fail.crash := by
  unfold forward_step
  rw [h]

theorem forward_step_none_nxt (ex : ℚ → ℚ)
    (L : List (Layer × ActivationFunction)) (i : Nat)
    (h : L[i + 1]? = none) :
    forward_step ex L i = Except.error Fail.crash := by
  unfold forward_step
  rw [h]
  cases hc : L[i]? with
  | none => rfl
  | some p => rfl

theorem forward_step_eq (ex : ℚ → ℚ)
    (L : List (Layer × ActivationFunction)) (i : Nat) (cur nxt : Layer)
    (a f : ActivationFunction) (hc : L[i]? = some (cur, a))
    (hn : L[i + 1]? = some (nxt, f)) :
    forward_step ex L i =
      match Layer.forward_propagate cur nxt with
      | Except.error e => Except.error (Fail.err e)
      | Except.ok nxt₂ =>
        Except.ok (L.set (i + 1) (Layer.activate ex nxt₂ f, f)) := by
  unfold forward_step
  rw [hc, hn]

theorem forward_fold_lockstep (ex : ℚ → ℚ)
    (A B : List (Layer × ActivationFunction)) (k : Nat)
    (hlen : A.length = B.length)
    (hsnd : ∀ j, lsnd A j = lsnd B j)
    (h0 : orel (layer_sync false) (lfst A 0) (lfst B 0))
    (hrel : ∀ j, 1 ≤ j →
      orel (layer_rel (prev_geom A j)) (lfst A j) (lfst B j))
    (hwf : ∀ j, owf (lfst A j)) :
    match (List.range k).foldlM (forward_step ex) A,
        (List.range k).foldlM (forward_step ex) B with
    | Except.error e₁, Except.error e₂ => e₁ = e₂
    | Except.ok A₂, Except.ok B₂ =>
      A₂.length = A.length ∧ B₂.length = B.length ∧
      (∀ j, lsnd A₂ j = lsnd A j) ∧ (∀ j, lsnd B₂ j = lsnd B j) ∧
      (∀ j, k + 1 ≤ j → A₂[j]? = A[j]?) ∧
      (∀ j, k + 1 ≤ j → B₂[j]? = B[j]?) ∧
      A₂[0]? = A[0]? ∧ B₂[0]? = B[0]? ∧
      (∀ j, 1 ≤ j → j ≤ k →
        orel (layer_sync true) (lfst A₂ j) (lfst B₂ j)) ∧
      (∀ j, orel (layer_rel (prev_geom A j)) (lfst A₂ j) (lfst A j)) ∧
      (∀ j, orel accums_keep (lfst A j) (lfst A₂ j)) ∧
      (∀ j, orel accums_keep (lfst B j) (lfst B₂ j)) ∧
      (∀ j, owf (lfst A₂ j))
    | _, _ => False := by
  induction k with
  | zero =>
    refine ⟨rfl, rfl, fun j => rfl, fun j => rfl, fun j _ => rfl,
      fun j _ => rfl, rfl, rfl, fun j h1 h2 => absurd h1 (by omega),
      fun j => ?_, fun j => ?_, fun j => ?_, hwf⟩
    · cases hA : lfst A j with
      | none => trivial
      | some a => exact layer_rel_refl _ a
    · cases hA : lfst A j with
      | none => trivial
      | some a => exact accums_keep_refl a
    · cases hB : lfst B j with
      | none => trivial
      | some a => exact accums_keep_refl a
  | succ n ih =>
    have IH := ih
    rw [List.range_succ, List.foldlM_append, List.foldlM_append]
    rcases hFA : (List.range n).foldlM (forward_step ex) A with eA | A₁
    · rcases hFB : (List.range n).foldlM (forward_step ex) B with eB | B₁
      · rw [hFA, hFB] at IH
        exact IH
      · rw [hFA, hFB] at IH
        exact False.elim IH
    · rcases hFB : (List.range n).foldlM (forward_step ex) B with eB | B₁
      · rw [hFA, hFB] at IH
        exact False.elim IH
      · rw [hFA, hFB] at IH
        obtain ⟨lenA, lenB, sndA, sndB, untA, untB, z0A, z0B, syncIH,
          presIH, keepA, keepB, wfIH⟩ := IH
        rw [except_bind_ok, except_bind_ok, foldlM_single, foldlM_single]
        have hsyncn : ∃ bb, orel (layer_sync bb) (lfst A₁ n) (lfst B₁ n) :=
          by
          cases n with
          | zero =>
            refine ⟨false, ?_⟩
            have e1 : lfst A₁ 0 = lfst A 0 := by simp [lfst, z0A]
            have e2 : lfst B₁ 0 = lfst B 0 := by simp [lfst, z0B]
            rw [e1, e2]
            exact h0
          | succ m => exact ⟨true, syncIH (m + 1) (by omega) (by omega)⟩
        obtain ⟨bb, hsyncn⟩ := hsyncn
        cases hA1n : A₁[n]? with
        | none =>
          have hlfA : lfst A₁ n = none := lfst_eq_none _ _ hA1n
          have hlfB : lfst B₁ n = none :=
            orel_none_left _ _ (hlfA ▸ hsyncn)
          rw [forward_step_none_cur ex A₁ n hA1n,
            forward_step_none_cur ex B₁ n (lfst_none _ _ hlfB)]
        | some pk =>
          have hlfA : lfst A₁ n = some pk.1 := lfst_eq_some _ _ _ hA1n
          obtain ⟨ck, hlfB, hsk⟩ := orel_some_left _ _ _ (hlfA ▸ hsyncn)
          obtain ⟨qk, hB1n, hqk⟩ := pair_of_lfst _ _ _ hlfB
          subst hqk
          have hAn1 : A₁[n + 1]? = A[n + 1]? := untA (n + 1) (by omega)
          have hBn1 : B₁[n + 1]? = B[n + 1]? := untB (n + 1) (by omega)
          cases hAn1v : A[n + 1]? with
          | none =>
            have hlfn : lfst A (n + 1) = none := lfst_eq_none _ _ hAn1v
            have hlfBn : lfst B (n + 1) = none :=
              orel_none_left _ _ (hlfn ▸ hrel (n + 1) (by omega))
            rw [forward_step_none_nxt ex A₁ n (by rw [hAn1, hAn1v]),
              forward_step_none_nxt ex B₁ n
                (by rw [hBn1, lfst_none _ _ hlfBn])]
          | some pn =>
            have hlfAn1 : lfst A (n + 1) = some pn.1 :=
              lfst_eq_some _ _ _ hAn1v
            obtain ⟨cn, hlfBn1, hreln⟩ :=
              orel_some_left _ _ _ (hlfAn1 ▸ hrel (n + 1) (by omega))
            obtain ⟨qn, hBn1v, hqn⟩ := pair_of_lfst _ _ _ hlfBn1
            subst hqn
            rw [forward_step_eq ex A₁ n pk.1 pn.1 pk.2 pn.2
                (by rw [hA1n]) (by rw [hAn1, hAn1v]),
              forward_step_eq ex B₁ n qk.1 qn.1 qk.2 qn.2
                (by rw [hB1n]) (by rw [hBn1, hBn1v])]
            have hfunc : pn.2 = qn.2 := by
              have e1 : lsnd A (n + 1) = some pn.2 := by
                simp [lsnd, hAn1v]
              have e2 : lsnd B (n + 1) = some qn.2 := by
                simp [lsnd, hBn1v]
              have := hsnd (n + 1)
              rw [e1, e2] at this
              exact Option.some.inj this
            have hwfn : wf_layer pn.1 := by
              have := hwf (n + 1)
              rw [hlfAn1] at this
              exact this
            have hpg : prev_geom A (n + 1) = pk.1.geom_dim := by
              have hpA := presIH n
              rw [hlfA] at hpA
              obtain ⟨ql, hlfAn, hrelq⟩ := orel_some_left _ _ _ hpA
              obtain ⟨pl, hApl, hpl⟩ := pair_of_lfst _ _ _ hlfAn
              show (match A[n]? with
                | some la => la.1.geom_dim
                | none => (⟨0, 0, 0⟩ : Dim3)) = pk.1.geom_dim
              rw [hApl]
              show pl.1.geom_dim = pk.1.geom_dim
              rw [hpl]
              exact (layer_rel_geom _ _ _ hrelq).symm
            have hrelk : layer_rel pk.1.geom_dim pn.1 qn.1 := by
              rw [← hpg]
              exact hreln
            have D := forward_propagate_lockstep ex pn.2 bb pk.1 qk.1 pn.1
              qn.1 hsk hrelk hwfn
            have hA1n1 : A₁[n + 1]? = some pn := by rw [hAn1, hAn1v]
            have hB1n1 : B₁[n + 1]? = some qn := by rw [hBn1, hBn1v]
            have h1 : n + 1 < A₁.length := by
              by_contra hcon
              rw [List.getElem?_eq_none
                (show A₁.length ≤ n + 1 by omega)] at hA1n1
              exact Option.noConfusion hA1n1
            have h2 : n + 1 < B₁.length := by
              by_contra hcon
              rw [List.getElem?_eq_none
                (show B₁.length ≤ n + 1 by omega)] at hB1n1
              exact Option.noConfusion hB1n1
            rcases hPA : Layer.forward_propagate pk.1 pn.1 with e₁ | rA
            · rcases hPB : Layer.forward_propagate qk.1 qn.1 with e₂ | rB
              · rw [hPA, hPB] at D
                exact congrArg Fail.err D
              · rw [hPA, hPB] at D
                exact False.elim D
            · rcases hPB : Layer.forward_propagate qk.1 qn.1 with e₂ | rB
              · rw [hPA, hPB] at D
                exact False.elim D
              · rw [hPA, hPB] at D
                obtain ⟨dsync, dpres, dwf⟩ := D
                rw [← hfunc]
                refine ⟨?_, ?_, ?_, ?_, ?_, ?_, ?_, ?_, ?_, ?_, ?_, ?_, ?_⟩
                · rw [List.length_set]
                  exact lenA
                · rw [List.length_set]
                  exact lenB
                · intro j
                  by_cases hj : j = n + 1
                  · subst hj
                    simp [lsnd, List.getElem?_set_self h1, hAn1v]
                  · simp only [lsnd,
                      List.getElem?_set_ne (fun h => hj h.symm)]
                    exact sndA j
                · intro j
                  by_cases hj : j = n + 1
                  · subst hj
                    simp [lsnd, List.getElem?_set_self h2, hBn1v, hfunc]
                  · simp only [lsnd,
                      List.getElem?_set_ne (fun h => hj h.symm)]
                    exact sndB j
                · intro j hj
                  rw [List.getElem?_set_ne (show n + 1 ≠ j by omega)]
                  exact untA j (by omega)
                · intro j hj
                  rw [List.getElem?_set_ne (show n + 1 ≠ j by omega)]
                  exact untB j (by omega)
                · rw [List.getElem?_set_ne (show n + 1 ≠ 0 by omega)]
                  exact z0A
                · rw [List.getElem?_set_ne (show n + 1 ≠ 0 by omega)]
                  exact z0B
                · intro j hj1 hj2
                  by_cases hj : j = n + 1
                  · subst hj
                    simp only [lfst, List.getElem?_set_self h1,
                      List.getElem?_set_self h2, Option.map_some]
                    exact dsync
                  · simp only [lfst,
                      List.getElem?_set_ne (fun h => hj h.symm)]
                    exact syncIH j hj1 (by omega)
                · intro j
                  by_cases hj : j = n + 1
                  · subst hj
                    simp only [lfst, List.getElem?_set_self h1,
                      Option.map_some, hAn1v]
                    rw [hpg]
                    exact dpres
                  · simp only [lfst,
                      List.getElem?_set_ne (fun h => hj h.symm)]
                    exact presIH j
                · intro j
                  by_cases hj : j = n + 1
                  · subst hj
                    simp only [lfst, List.getElem?_set_self h1,
                      Option.map_some, hAn1v]
                    exact forward_result_accums ex pn.2 pk.1 pn.1 rA hPA
                  · simp only [lfst,
                      List.getElem?_set_ne (fun h => hj h.symm)]
                    exact keepA j
                · intro j
                  by_cases hj : j = n + 1
                  · subst hj
                    simp only [lfst, List.getElem?_set_self h2,
                      Option.map_some, hBn1v]
                    exact forward_result_accums ex pn.2 qk.1 qn.1 rB hPB
                  · simp only [lfst,
                      List.getElem?_set_ne (fun h => hj h.symm)]
                    exact keepB j
                · intro j
                  by_cases hj : j = n + 1
                  · subst hj
                    simp only [lfst, List.getElem?_set_self h1,
                      Option.map_some]
                    exact dwf
                  · simp only [lfst,
                      List.getElem?_set_ne (fun h => hj h.symm)]
                    exact wfIH j

theorem bact_conv (ex : ℚ → ℚ) (c : ConvolutionalLayer)
    (func : ActivationFunction) :
    Layer.backward_activate ex (Layer.Convolutional c) func =
      Layer.Convolutional (ConvolutionalLayer.back_activate ex c func) := rfl

theorem bact_pool (ex : ℚ → ℚ) (p : PoolingLayer)
    (func : ActivationFunction) :
    Layer.backward_activate ex (Layer.Pooling p) func = Layer.Pooling p :=
  rfl

theorem bact_fc (ex : ℚ → ℚ) (f : FullyConnectedLayer)
    (func : ActivationFunction) :
    Layer.backward_activate ex (Layer.FullyConnected f) func =
      Layer.FullyConnected (FullyConnectedLayer.back_activate ex f func) :=
  rfl

theorem backward_cc (c p : ConvolutionalLayer) :
    Layer.back_propagate (Layer.Convolutional c) (Layer.Convolutional p) =
      match check_output_dimension p.dimension c.dimension p.zero_padding
          c.num_kernels c.kernel_size c.stride with
      | Except.error e => Except.error e
      | Except.ok _ =>
        Except.ok (Layer.Convolutional
            (c.convolve_back p.dimension p.volume p.volume_gradients
              p.zero_padding).1,
          Layer.Convolutional { p with volume_gradients :=
            (c.convolve_back p.dimension p.volume p.volume_gradients
              p.zero_padding).2 }) := rfl

theorem backward_cp (c : ConvolutionalLayer) (p : PoolingLayer) :
    Layer.back_propagate (Layer.Convolutional c) (Layer.Pooling p) =
      match check_output_dimension p.dimension c.dimension p.zero_padding
          c.num_kernels c.kernel_size c.stride with
      | Except.error e => Except.error e
      | Except.ok _ =>
        Except.ok (Layer.Convolutional
            (c.convolve_back p.dimension p.volume p.volume_gradients
              p.zero_padding).1,
          Layer.Pooling { p with volume_gradients :=
            (c.convolve_back p.dimension p.volume p.volume_gradients
              p.zero_padding).2 }) := rfl

theorem backward_cf (c : ConvolutionalLayer) (f : FullyConnectedLayer) :
    Layer.back_propagate (Layer.Convolutional c) (Layer.FullyConnected f) =
      Except.ok (Layer.Convolutional c, Layer.FullyConnected f) := rfl

theorem backward_pc (p : PoolingLayer) (c : ConvolutionalLayer) :
    Layer.back_propagate (Layer.Pooling p) (Layer.Convolutional c) =
      match check_output_dimension c.dimension p.dimension 0 p.dimension.z
          p.kernel_size p.stride with
      | Except.error e => Except.error e
      | Except.ok _ =>
        Except.ok (Layer.Pooling p,
          Layer.Convolutional { c with volume_gradients :=
            (p.convolve_back c.dimension c.volume c.volume_gradients) }) :=
  rfl

theorem backward_pp (p : PoolingLayer) (q : PoolingLayer) :
    Layer.back_propagate (Layer.Pooling p) (Layer.Pooling q) =
      match check_output_dimension q.dimension p.dimension 0 p.dimension.z
          p.kernel_size p.stride with
      | Except.error e => Except.error e
      | Except.ok _ =>
        Except.ok (Layer.Pooling p,
          Layer.Pooling { q with volume_gradients :=
            (p.convolve_back q.dimension q.volume q.volume_gradients) }) :=
  rfl

theorem backward_pf (p : PoolingLayer) (f : FullyConnectedLayer) :
    Layer.back_propagate (Layer.Pooling p) (Layer.FullyConnected f) =
      Except.ok (Layer.Pooling p, Layer.FullyConnected f) := rfl

theorem backward_ff (f : FullyConnectedLayer) (p : FullyConnectedLayer) :
    Layer.back_propagate (Layer.FullyConnected f)
        (Layer.FullyConnected p) =
      (if p.num_neurons ≠ f.num_inputs
       then Except.error Error.DimensionMismatch
       else
        Except.ok (Layer.FullyConnected
            (f.feed_back p.values p.value_gradients).1,
          Layer.FullyConnected { p with value_gradients :=
            (f.feed_back p.values p.value_gradients).2 })) := rfl

theorem backward_fc (f : FullyConnectedLayer) (p : ConvolutionalLayer) :
    Layer.back_propagate (Layer.FullyConnected f)
        (Layer.Convolutional p) =
      (if p.dimension.x * p.dimension.y * p.dimension.z ≠ f.num_inputs
       then Except.error Error.DimensionMismatch
       else
        Except.ok (Layer.FullyConnected
            (f.feed_back p.volume p.volume_gradients).1,
          Layer.Convolutional { p with volume_gradients :=
            (f.feed_back p.volume p.volume_gradients).2 })) := rfl

theorem backward_fp (f : FullyConnectedLayer) (p : PoolingLayer) :
    Layer.back_propagate (Layer.FullyConnected f) (Layer.Pooling p) =
      (if p.dimension.x * p.dimension.y * p.dimension.z ≠ f.num_inputs
       then Except.error Error.DimensionMismatch
       else
        Except.ok (Layer.FullyConnected
            (f.feed_back p.volume p.volume_gradients).1,
          Layer.Pooling { p with volume_gradients :=
            (f.feed_back p.volume p.volume_gradients).2 })) := rfl

theorem conv_back_activate_eq (ex : ℚ → ℚ) (func : ActivationFunction)
    (x y : ConvolutionalLayer)
    (hvol : x.volume = y.volume) (hraw : x.raw_volume = y.raw_volume)
    (hvg : x.volume_gradients = y.volume_gradients)
    (hblen : x.back_activated_volume.length =
      y.back_activated_volume.length)
    (hbv : x.back_activated_volume.length = x.volume.length) :
    (x.back_activate ex func).back_activated_volume =
      (y.back_activate ex func).back_activated_volume := by
  show apply_writes x.back_activated_volume
      ((List.range x.volume.length).map fun i =>
        (i, activations_eval ex func (x.raw_volume.getD i 0) *
          x.volume_gradients.getD i 0)) =
    apply_writes y.back_activated_volume
      ((List.range y.volume.length).map fun i =>
        (i, activations_eval ex func (y.raw_volume.getD i 0) *
          y.volume_gradients.getD i 0))
  simp only [hraw, hvg]
  rw [hvol]
  exact apply_writes_range_congr _ _ _ _ hblen
    (le_of_eq (by rw [hbv, hvol]))

theorem fc_back_activate_eq (ex : ℚ → ℚ) (func : ActivationFunction)
    (x y : FullyConnectedLayer)
    (hval : x.values = y.values) (hraw : x.raw_values = y.raw_values)
    (hvg : x.value_gradients = y.value_gradients)
    (hblen : x.back_activated_values.length =
      y.back_activated_values.length)
    (hbv : x.back_activated_values.length = x.values.length) :
    (x.back_activate ex func).back_activated_values =
      (y.back_activate ex func).back_activated_values := by
  show apply_writes x.back_activated_values
      ((List.range x.values.length).map fun i =>
        (i, activations_eval_derivative ex func (x.raw_values.getD i 0) *
          x.value_gradients.getD i 0)) =
    apply_writes y.back_activated_values
      ((List.range y.values.length).map fun i =>
        (i, activations_eval_derivative ex func (y.raw_values.getD i 0) *
          y.value_gradients.getD i 0))
  simp only [hraw, hvg]
  rw [hval]
  exact apply_writes_range_congr _ _ _ _ hblen
    (le_of_eq (by rw [hbv, hval]))

theorem conv_back_kernel_adds_congr (cx cy : ConvolutionalLayer)
    (idim : Dim3) (vol : List ℚ) (zp : Nat)
    (h1 : cx.num_kernels = cy.num_kernels)
    (h2 : cx.kernel_size = cy.kernel_size) (h3 : cx.stride = cy.stride)
    (h4 : cx.dimension = cy.dimension)
    (h5 : cx.input_depth = cy.input_depth)
    (h7 : cx.back_activated_volume = cy.back_activated_volume) :
    conv_back_kernel_adds cx idim vol zp =
      conv_back_kernel_adds cy idim vol zp := by
  unfold conv_back_kernel_adds
  simp only [h1, h2, h3, h4, h5, h7]

theorem conv_back_input_adds_congr (cx cy : ConvolutionalLayer)
    (idim : Dim3) (zp : Nat)
    (h1 : cx.num_kernels = cy.num_kernels)
    (h2 : cx.kernel_size = cy.kernel_size) (h3 : cx.stride = cy.stride)
    (h4 : cx.dimension = cy.dimension)
    (h5 : cx.input_depth = cy.input_depth) (h6 : cx.kernel = cy.kernel)
    (h7 : cx.back_activated_volume = cy.back_activated_volume) :
    conv_back_input_adds cx idim zp = conv_back_input_adds cy idim zp := by
  unfold conv_back_input_adds
  simp only [h1, h2, h3, h4, h5, h6, h7]

theorem conv_back_bias_adds_congr (cx cy : ConvolutionalLayer)
    (idim : Dim3) (zp : Nat)
    (h1 : cx.num_kernels = cy.num_kernels)
    (h2 : cx.kernel_size = cy.kernel_size) (h3 : cx.stride = cy.stride)
    (h4 : cx.dimension = cy.dimension)
    (h7 : cx.back_activated_volume = cy.back_activated_volume) :
    conv_back_bias_adds cx idim zp = conv_back_bias_adds cy idim zp := by
  unfold conv_back_bias_adds
  simp only [h1, h2, h3, h4, h7]

theorem pool_back_adds_congr (x y : PoolingLayer) (idim : Dim3)
    (vol : List ℚ)
    (h1 : x.kernel_size = y.kernel_size) (h2 : x.stride = y.stride)
    (h3 : x.dimension = y.dimension)
    (h4 : x.pooling_type = y.pooling_type)
    (h5 : x.volume_gradients = y.volume_gradients) :
    pool_back_adds x idim vol = pool_back_adds y idim vol := by
  unfold pool_back_adds
  simp only [h1, h2, h3, h4, h5]

theorem bw_conv_core (ex : ℚ → ℚ) (func : ActivationFunction)
    (x y : ConvolutionalLayer) (idim idimB : Dim3) (volA volB : List ℚ)
    (zp zpB : Nat) (vgA vgB : List ℚ) (hdi : idim = idimB)
    (hzpe : zp = zpB) (hvv : volA = volB)
    (hs : conv_statics x y) (hl : conv_lens x y)
    (hvol : x.volume = y.volume) (hraw : x.raw_volume = y.raw_volume)
    (hvg : x.volume_gradients = y.volume_gradients)
    (hwf : wf_conv x) (hlen : vgA.length = vgB.length) :
    layer_done (Layer.Convolutional x) (Layer.Convolutional y)
      (Layer.Convolutional
        ((ConvolutionalLayer.back_activate ex x func).convolve_back idim
          volA vgA zp).1)
      (Layer.Convolutional
        ((ConvolutionalLayer.back_activate ex y func).convolve_back idimB
          volB vgB zpB).1) ∧
    ((ConvolutionalLayer.back_activate ex x func).convolve_back idim volA
        vgA zp).2 =
      ((ConvolutionalLayer.back_activate ex y func).convolve_back idimB
        volB vgB zpB).2 ∧
    (∀ pd, layer_rel pd (Layer.Convolutional
        ((ConvolutionalLayer.back_activate ex x func).convolve_back idim
          volA vgA zp).1)
      (Layer.Convolutional x)) ∧
    wf_conv ((ConvolutionalLayer.back_activate ex x func).convolve_back
      idim volA vgA zp).1 ∧
    ((ConvolutionalLayer.back_activate ex x func).convolve_back idim volA
      vgA zp).2.length = vgA.length := by
  cases hdi
  cases hzpe
  obtain ⟨hstride, hks, hnk, hdim, hzp, hid, hker, hbias, hbv, hkv⟩ := hs
  obtain ⟨lvol, lraw, lback, lvg, lkg, lbg⟩ := hl
  obtain ⟨wnk, wvol, wvg, wback, wraw, wbg, wkg, wbias, wker⟩ := hwf
  have hback : (ConvolutionalLayer.back_activate ex x
      func).back_activated_volume = (ConvolutionalLayer.back_activate ex y
      func).back_activated_volume :=
    conv_back_activate_eq ex func x y hvol hraw hvg lback
      (by rw [wback, wvol])
  have hK : conv_back_kernel_adds (ConvolutionalLayer.back_activate ex y
      func) idim volB zp = conv_back_kernel_adds
      (ConvolutionalLayer.back_activate ex x func) idim volA zp := by
    rw [← hvv]
    exact conv_back_kernel_adds_congr _ _ _ _ _ hnk.symm hks.symm
      hstride.symm hdim.symm hid.symm hback.symm
  have hI : conv_back_input_adds (ConvolutionalLayer.back_activate ex y
      func) idim zp = conv_back_input_adds
      (ConvolutionalLayer.back_activate ex x func) idim zp :=
    conv_back_input_adds_congr _ _ _ _ hnk.symm hks.symm hstride.symm
      hdim.symm hid.symm hker.symm hback.symm
  have hB : conv_back_bias_adds (ConvolutionalLayer.back_activate ex y
      func) idim zp = conv_back_bias_adds
      (ConvolutionalLayer.back_activate ex x func) idim zp :=
    conv_back_bias_adds_congr _ _ _ _ hnk.symm hks.symm hstride.symm
      hdim.symm hback.symm
  refine ⟨⟨⟨hstride, hks, hnk, hdim, hzp, hid, hker, hbias, hbv, hkv⟩,
    hvol, hraw, hback, hvg, ⟨conv_back_kernel_adds
      (ConvolutionalLayer.back_activate ex x func) idim volA zp, rfl, ?_⟩,
    ⟨conv_back_bias_adds (ConvolutionalLayer.back_activate ex x func) idim
      zp, rfl, ?_⟩⟩, ?_, fun pd => ⟨⟨rfl, rfl, rfl, rfl, rfl, rfl, rfl,
      rfl, rfl, rfl⟩, rfl, rfl, ?_, rfl, ?_, ?_⟩, ⟨wnk, wvol, wvg, ?_,
      wraw, ?_, ?_, wbias, wker⟩, ?_⟩
  · show apply_adds y.kernel_gradients (conv_back_kernel_adds
        (ConvolutionalLayer.back_activate ex y func) idim volB zp) =
      apply_adds y.kernel_gradients (conv_back_kernel_adds
        (ConvolutionalLayer.back_activate ex x func) idim volA zp)
    rw [hK]
  · show apply_adds y.bias_gradients (conv_back_bias_adds
        (ConvolutionalLayer.back_activate ex y func) idim zp) =
      apply_adds y.bias_gradients (conv_back_bias_adds
        (ConvolutionalLayer.back_activate ex x func) idim zp)
    rw [hB]
  · show apply_adds (List.replicate vgA.length 0) (conv_back_input_adds
        (ConvolutionalLayer.back_activate ex x func) idim zp) =
      apply_adds (List.replicate vgB.length 0) (conv_back_input_adds
        (ConvolutionalLayer.back_activate ex y func) idim zp)
    rw [hlen, hI]
  · show (apply_writes x.back_activated_volume _).length =
      x.back_activated_volume.length
    rw [apply_writes_length]
  · show (apply_adds x.kernel_gradients _).length =
      x.kernel_gradients.length
    rw [apply_adds_length]
  · show (apply_adds x.bias_gradients _).length = x.bias_gradients.length
    rw [apply_adds_length]
  · show (apply_writes x.back_activated_volume _).length =
      x.dimension.x * x.dimension.y * x.dimension.z
    rw [apply_writes_length, wback]
  · show (apply_adds x.bias_gradients _).length = x.dimension.z
    rw [apply_adds_length, wbg]
  · show (apply_adds x.kernel_gradients _).length =
      x.kernel_size * x.kernel_size * x.input_depth * x.num_kernels
    rw [apply_adds_length, wkg]
  · show (apply_adds (List.replicate vgA.length 0) _).length = vgA.length
    rw [apply_adds_length, List.length_replicate]

theorem bw_pool_core (x y : PoolingLayer) (idim idimB : Dim3)
    (volA volB : List ℚ) (vgA vgB : List ℚ) (hdi : idim = idimB)
    (hvv : volA = volB) (hs : pool_statics x y)
    (hvg : x.volume_gradients = y.volume_gradients)
    (hlen : vgA.length = vgB.length) :
    x.convolve_back idim volA vgA = y.convolve_back idimB volB vgB ∧
    (x.convolve_back idim volA vgA).length = vgA.length := by
  cases hdi
  obtain ⟨hzp, hstride, hks, hdim, hpt⟩ := hs
  constructor
  · show apply_adds (List.replicate vgA.length 0) (pool_back_adds x idim
      volA) = apply_adds (List.replicate vgB.length 0) (pool_back_adds y
      idim volB)
    rw [hlen, ← hvv,
      pool_back_adds_congr x y idim volA hks hstride hdim hpt hvg]
  · show (apply_adds (List.replicate vgA.length 0) _).length = vgA.length
    rw [apply_adds_length, List.length_replicate]

theorem bw_fc_core (ex : ℚ → ℚ) (func : ActivationFunction)
    (x y : FullyConnectedLayer) (inputA inputB : List ℚ)
    (igA igB : List ℚ) (hinput : inputA = inputB)
    (hs : fc_statics x y) (hl : fc_lens x y)
    (hval : x.values = y.values) (hraw : x.raw_values = y.raw_values)
    (hvg : x.value_gradients = y.value_gradients)
    (hwf : wf_fc x) (hlen : igA.length = igB.length) :
    layer_done (Layer.FullyConnected x) (Layer.FullyConnected y)
      (Layer.FullyConnected
        ((FullyConnectedLayer.back_activate ex x func).feed_back inputA
          igA).1)
      (Layer.FullyConnected
        ((FullyConnectedLayer.back_activate ex y func).feed_back inputB
          igB).1) ∧
    ((FullyConnectedLayer.back_activate ex x func).feed_back inputA
        igA).2 =
      ((FullyConnectedLayer.back_activate ex y func).feed_back inputB
        igB).2 ∧
    (∀ pd, layer_rel pd (Layer.FullyConnected
        ((FullyConnectedLayer.back_activate ex x func).feed_back inputA
          igA).1)
      (Layer.FullyConnected x)) ∧
    wf_fc ((FullyConnectedLayer.back_activate ex x func).feed_back inputA
      igA).1 ∧
    ((FullyConnectedLayer.back_activate ex x func).feed_back inputA
      igA).2.length = igA.length := by
  obtain ⟨hni, hnn, hw, hb, hwv, hbv⟩ := hs
  obtain ⟨lval, lraw, lback, lvg, lwg, lbg⟩ := hl
  obtain ⟨wval, wraw, wback, wvg, wbias, wbg, wwts, wwg⟩ := hwf
  have hback : (FullyConnectedLayer.back_activate ex x
      func).back_activated_values = (FullyConnectedLayer.back_activate ex
      y func).back_activated_values :=
    fc_back_activate_eq ex func x y hval hraw hvg lback
      (by rw [wback, wval])
  have hbadds : ((List.range y.num_neurons).map fun i =>
      (i, (FullyConnectedLayer.back_activate ex y
        func).back_activated_values.getD i 0)) =
      ((List.range x.num_neurons).map fun i =>
      (i, (FullyConnectedLayer.back_activate ex x
        func).back_activated_values.getD i 0)) := by
    simp only [hback, hnn]
  have hwadds : ((List.range y.num_neurons).flatMap fun i =>
      (List.range y.num_inputs).map fun j =>
        (i * y.num_inputs + j,
         (FullyConnectedLayer.back_activate ex y
           func).back_activated_values.getD i 0 * inputB.getD j 0)) =
      ((List.range x.num_neurons).flatMap fun i =>
      (List.range x.num_inputs).map fun j =>
        (i * x.num_inputs + j,
         (FullyConnectedLayer.back_activate ex x
           func).back_activated_values.getD i 0 * inputA.getD j 0)) := by
    simp only [hback, hnn, hni, hinput]
  have hgadds : ((List.range y.num_neurons).flatMap fun i =>
      (List.range y.num_inputs).map fun j =>
        (j, (FullyConnectedLayer.back_activate ex y
          func).back_activated_values.getD i 0 *
          y.weights.getD (i * y.num_inputs + j) 0)) =
      ((List.range x.num_neurons).flatMap fun i =>
      (List.range x.num_inputs).map fun j =>
        (j, (FullyConnectedLayer.back_activate ex x
          func).back_activated_values.getD i 0 *
          x.weights.getD (i * x.num_inputs + j) 0)) := by
    simp only [hback, hnn, hni, hw]
  refine ⟨⟨⟨hni, hnn, hw, hb, hwv, hbv⟩, hval, hraw, hback, hvg,
    ⟨(List.range x.num_neurons).flatMap fun i =>
      (List.range x.num_inputs).map fun j =>
        (i * x.num_inputs + j,
         (FullyConnectedLayer.back_activate ex x
           func).back_activated_values.getD i 0 * inputA.getD j 0), rfl,
      ?_⟩,
    ⟨(List.range x.num_neurons).map fun i =>
      (i, (FullyConnectedLayer.back_activate ex x
        func).back_activated_values.getD i 0), rfl, ?_⟩⟩, ?_,
    fun pd => ⟨⟨rfl, rfl, rfl, rfl, rfl, rfl⟩, rfl, rfl, ?_, rfl, ?_,
      ?_⟩, ⟨wval, wraw, ?_, wvg, wbias, ?_, wwts, ?_⟩, ?_⟩
  · show apply_adds y.weight_gradients
        ((List.range y.num_neurons).flatMap fun i =>
          (List.range y.num_inputs).map fun j =>
            (i * y.num_inputs + j,
             (FullyConnectedLayer.back_activate ex y
               func).back_activated_values.getD i 0 * inputB.getD j 0)) =
      apply_adds y.weight_gradients
        ((List.range x.num_neurons).flatMap fun i =>
          (List.range x.num_inputs).map fun j =>
            (i * x.num_inputs + j,
             (FullyConnectedLayer.back_activate ex x
               func).back_activated_values.getD i 0 * inputA.getD j 0))
    rw [hwadds]
  · show apply_adds y.bias_gradients
        ((List.range y.num_neurons).map fun i =>
          (i, (FullyConnectedLayer.back_activate ex y
            func).back_activated_values.getD i 0)) =
      apply_adds y.bias_gradients
        ((List.range x.num_neurons).map fun i =>
          (i, (FullyConnectedLayer.back_activate ex x
            func).back_activated_values.getD i 0))
    rw [hbadds]
  · show apply_adds (List.replicate igA.length 0)
        ((List.range x.num_neurons).flatMap fun i =>
          (List.range x.num_inputs).map fun j =>
            (j, (FullyConnectedLayer.back_activate ex x
              func).back_activated_values.getD i 0 *
              x.weights.getD (i * x.num_inputs + j) 0)) =
      apply_adds (List.replicate igB.length 0)
        ((List.range y.num_neurons).flatMap fun i =>
          (List.range y.num_inputs).map fun j =>
            (j, (FullyConnectedLayer.back_activate ex y
              func).back_activated_values.getD i 0 *
              y.weights.getD (i * y.num_inputs + j) 0))
    rw [hlen, hgadds]
  · show (apply_writes x.back_activated_values _).length =
      x.back_activated_values.length
    rw [apply_writes_length]
  · show (apply_adds x.weight_gradients _).length =
      x.weight_gradients.length
    rw [apply_adds_length]
  · show (apply_adds x.bias_gradients _).length = x.bias_gradients.length
    rw [apply_adds_length]
  · show (apply_writes x.back_activated_values _).length = x.num_neurons
    rw [apply_writes_length, wback]
  · show (apply_adds x.bias_gradients _).length = x.num_neurons
    rw [apply_adds_length, wbg]
  · show (apply_adds x.weight_gradients _).length =
      x.num_inputs * x.num_neurons
    rw [apply_adds_length, wwg]
  · show (apply_adds (List.replicate igA.length 0) _).length = igA.length
    rw [apply_adds_length, List.length_replicate]

theorem cba_dimension (ex : ℚ → ℚ) (c : ConvolutionalLayer)
    (func : ActivationFunction) :
    (ConvolutionalLayer.back_activate ex c func).dimension = c.dimension :=
  rfl

theorem cba_num_kernels (ex : ℚ → ℚ) (c : ConvolutionalLayer)
    (func : ActivationFunction) :
    (ConvolutionalLayer.back_activate ex c func).num_kernels =
      c.num_kernels := rfl

theorem cba_kernel_size (ex : ℚ → ℚ) (c : ConvolutionalLayer)
    (func : ActivationFunction) :
    (ConvolutionalLayer.back_activate ex c func).kernel_size =
      c.kernel_size := rfl

theorem cba_stride (ex : ℚ → ℚ) (c : ConvolutionalLayer)
    (func : ActivationFunction) :
    (ConvolutionalLayer.back_activate ex c func).stride = c.stride := rfl

theorem fba_num_inputs (ex : ℚ → ℚ) (f : FullyConnectedLayer)
    (func : ActivationFunction) :
    (FullyConnectedLayer.back_activate ex f func).num_inputs =
      f.num_inputs := rfl

theorem backward_propagate_lockstep (ex : ℚ → ℚ)
    (func : ActivationFunction) (bp : Bool) (cA cB pA pB : Layer)
    (hcur : layer_sync true cA cB) (hseed : seeded cA cB)
    (hwfc : wf_layer cA)
    (hprev : layer_sync bp pA pB) (hwfp : wf_layer pA)
    (hcompat : fc_ok pA cA) :
    match Layer.back_propagate (Layer.backward_activate ex cA func) pA,
        Layer.back_propagate (Layer.backward_activate ex cB func) pB with
    | Except.error e₁, Except.error e₂ => e₁ = e₂
    | Except.ok rA, Except.ok rB =>
      layer_done cA cB rA.1 rB.1 ∧
      layer_sync bp rA.2 rB.2 ∧
      seeded rA.2 rB.2 ∧
      accums_keep pA rA.2 ∧ accums_keep pB rB.2 ∧
      (∀ pd, layer_rel pd rA.1 cA) ∧ (∀ pd, layer_rel pd rA.2 pA) ∧
      wf_layer rA.1 ∧ wf_layer rA.2
    | _, _ => False := by
  cases cA with
  | Convolutional x =>
    cases cB with
    | Pooling y => exact absurd hcur (by simp [layer_sync])
    | FullyConnected y => exact absurd hcur (by simp [layer_sync])
    | Convolutional y =>
      obtain ⟨hsx, hlx, hxv, hxr⟩ := hcur
      cases pA with
      | FullyConnected p => exact hcompat.elim
      | Convolutional p =>
        cases pB with
        | Pooling q => exact absurd hprev (by simp [layer_sync])
        | FullyConnected q => exact absurd hprev (by simp [layer_sync])
        | Convolutional q =>
          obtain ⟨hsp, hlp, hpv, hpr⟩ := hprev
          rw [bact_conv, bact_conv, backward_cc, backward_cc]
          have hchk : check_output_dimension q.dimension
              (ConvolutionalLayer.back_activate ex y func).dimension
              q.zero_padding
              (ConvolutionalLayer.back_activate ex y func).num_kernels
              (ConvolutionalLayer.back_activate ex y func).kernel_size
              (ConvolutionalLayer.back_activate ex y func).stride =
              check_output_dimension p.dimension
              (ConvolutionalLayer.back_activate ex x func).dimension
              p.zero_padding
              (ConvolutionalLayer.back_activate ex x func).num_kernels
              (ConvolutionalLayer.back_activate ex x func).kernel_size
              (ConvolutionalLayer.back_activate ex x func).stride := by
            simp only [cba_dimension, cba_num_kernels, cba_kernel_size,
              cba_stride]
            rw [hsx.2.2.2.1, hsx.2.2.1, hsx.2.1, hsx.1, hsp.2.2.2.1,
              hsp.2.2.2.2.1]
          rw [hchk]
          rcases hc : check_output_dimension p.dimension
              (ConvolutionalLayer.back_activate ex x func).dimension
              p.zero_padding
              (ConvolutionalLayer.back_activate ex x func).num_kernels
              (ConvolutionalLayer.back_activate ex x func).kernel_size
              (ConvolutionalLayer.back_activate ex x func).stride
            with e | u
          · rfl
          · obtain ⟨Cdone, Cr2, Cpres, Cwf, Clen⟩ := bw_conv_core ex func
              x y p.dimension q.dimension p.volume q.volume p.zero_padding
              q.zero_padding p.volume_gradients q.volume_gradients
              hsp.2.2.2.1 hsp.2.2.2.2.1 hpv hsx hlx hxv
              (hxr rfl) hseed hwfc hlp.2.2.2.1
            refine ⟨Cdone, ⟨hsp, ⟨hlp.1, hlp.2.1, hlp.2.2.1, ?_,
              hlp.2.2.2.2.1, hlp.2.2.2.2.2⟩, hpv, fun hb => hpr hb⟩, Cr2,
              ⟨rfl, rfl⟩, ⟨rfl, rfl⟩, Cpres, fun pd => ⟨⟨rfl, rfl, rfl,
                rfl, rfl, rfl, rfl, rfl, rfl, rfl⟩, rfl, rfl, rfl, ?_,
                rfl, rfl⟩, Cwf, ?_⟩
            · rw [Cr2]
            · rw [Clen]
            · obtain ⟨pnk, pvol, pvg, pback, praw, pbg, pkg, pbias,
                pker⟩ := hwfp
              exact ⟨pnk, pvol, by rw [Clen]; exact pvg, pback, praw,
                pbg, pkg, pbias, pker⟩
      | Pooling p =>
        cases pB with
        | Convolutional q => exact absurd hprev (by simp [layer_sync])
        | FullyConnected q => exact absurd hprev (by simp [layer_sync])
        | Pooling q =>
          obtain ⟨hsp, hglp, hpv⟩ := hprev
          rw [bact_conv, bact_conv, backward_cp, backward_cp]
          have hchk : check_output_dimension q.dimension
              (ConvolutionalLayer.back_activate ex y func).dimension
              q.zero_padding
              (ConvolutionalLayer.back_activate ex y func).num_kernels
              (ConvolutionalLayer.back_activate ex y func).kernel_size
              (ConvolutionalLayer.back_activate ex y func).stride =
              check_output_dimension p.dimension
              (ConvolutionalLayer.back_activate ex x func).dimension
              p.zero_padding
              (ConvolutionalLayer.back_activate ex x func).num_kernels
              (ConvolutionalLayer.back_activate ex x func).kernel_size
              (ConvolutionalLayer.back_activate ex x func).stride := by
            simp only [cba_dimension, cba_num_kernels, cba_kernel_size,
              cba_stride]
            rw [hsx.2.2.2.1, hsx.2.2.1, hsx.2.1, hsx.1, hsp.2.2.2.1,
              hsp.1]
          rw [hchk]
          rcases hc : check_output_dimension p.dimension
              (ConvolutionalLayer.back_activate ex x func).dimension
              p.zero_padding
              (ConvolutionalLayer.back_activate ex x func).num_kernels
              (ConvolutionalLayer.back_activate ex x func).kernel_size
              (ConvolutionalLayer.back_activate ex x func).stride
            with e | u
          · rfl
          · obtain ⟨Cdone, Cr2, Cpres, Cwf, Clen⟩ := bw_conv_core ex func
              x y p.dimension q.dimension p.volume q.volume p.zero_padding
              q.zero_padding p.volume_gradients q.volume_gradients
              hsp.2.2.2.1 hsp.1 hpv hsx hlx hxv
              (hxr rfl) hseed hwfc hglp
            refine ⟨Cdone, ⟨hsp, ?_, hpv⟩, Cr2, trivial, trivial, Cpres,
              fun pd => ⟨⟨rfl, rfl, rfl, rfl, rfl⟩, rfl, ?_,
                fun j _ => rfl⟩, Cwf, ?_⟩
            · rw [Cr2]
            · rw [Clen]
            · obtain ⟨pvol, pvg⟩ := hwfp
              exact ⟨pvol, by rw [Clen]; exact pvg⟩
  | Pooling x =>
    cases cB with
    | Convolutional y => exact absurd hcur (by simp [layer_sync])
    | FullyConnected y => exact absurd hcur (by simp [layer_sync])
    | Pooling y =>
      obtain ⟨hsx, hglx, hxv⟩ := hcur
      cases pA with
      | FullyConnected p => exact hcompat.elim
      | Convolutional p =>
        cases pB with
        | Pooling q => exact absurd hprev (by simp [layer_sync])
        | FullyConnected q => exact absurd hprev (by simp [layer_sync])
        | Convolutional q =>
          obtain ⟨hsp, hlp, hpv, hpr⟩ := hprev
          rw [bact_pool, bact_pool, backward_pc, backward_pc]
          have hchk : check_output_dimension q.dimension y.dimension 0
              y.dimension.z y.kernel_size y.stride =
              check_output_dimension p.dimension x.dimension 0
              x.dimension.z x.kernel_size x.stride := by
            rw [hsx.2.2.2.1, hsx.2.2.1, hsx.2.1, hsp.2.2.2.1]
          rw [hchk]
          rcases hc : check_output_dimension p.dimension x.dimension 0
              x.dimension.z x.kernel_size x.stride with e | u
          · rfl
          · obtain ⟨Pr2, Plen⟩ := bw_pool_core x y p.dimension
              q.dimension p.volume q.volume p.volume_gradients
              q.volume_gradients hsp.2.2.2.1 hpv hsx hseed hlp.2.2.2.1
            refine ⟨⟨hsx, hxv, hseed⟩, ⟨hsp, ⟨hlp.1, hlp.2.1, hlp.2.2.1,
              ?_, hlp.2.2.2.2.1, hlp.2.2.2.2.2⟩, hpv, fun hb => hpr hb⟩,
              Pr2, ⟨rfl, rfl⟩, ⟨rfl, rfl⟩,
              fun pd => layer_rel_refl pd (Layer.Pooling x),
              fun pd => ⟨⟨rfl, rfl, rfl, rfl, rfl, rfl, rfl, rfl, rfl,
                rfl⟩, rfl, rfl, rfl, ?_, rfl, rfl⟩, hwfc, ?_⟩
            · rw [Pr2]
            · rw [Plen]
            · obtain ⟨pnk, pvol, pvg, pback, praw, pbg, pkg, pbias,
                pker⟩ := hwfp
              exact ⟨pnk, pvol, by rw [Plen]; exact pvg, pback, praw,
                pbg, pkg, pbias, pker⟩
      | Pooling p =>
        cases pB with
        | Convolutional q => exact absurd hprev (by simp [layer_sync])
        | FullyConnected q => exact absurd hprev (by simp [layer_sync])
        | Pooling q =>
          obtain ⟨hsp, hglp, hpv⟩ := hprev
          rw [bact_pool, bact_pool, backward_pp, backward_pp]
          have hchk : check_output_dimension q.dimension y.dimension 0
              y.dimension.z y.kernel_size y.stride =
              check_output_dimension p.dimension x.dimension 0
              x.dimension.z x.kernel_size x.stride := by
            rw [hsx.2.2.2.1, hsx.2.2.1, hsx.2.1, hsp.2.2.2.1]
          rw [hchk]
          rcases hc : check_output_dimension p.dimension x.dimension 0
              x.dimension.z x.kernel_size x.stride with e | u
          · rfl
          · obtain ⟨Pr2, Plen⟩ := bw_pool_core x y p.dimension
              q.dimension p.volume q.volume p.volume_gradients
              q.volume_gradients hsp.2.2.2.1 hpv hsx hseed hglp
            refine ⟨⟨hsx, hxv, hseed⟩, ⟨hsp, ?_, hpv⟩, Pr2, trivial,
              trivial, fun pd => layer_rel_refl pd (Layer.Pooling x),
              fun pd => ⟨⟨rfl, rfl, rfl, rfl, rfl⟩, rfl, ?_,
                fun j _ => rfl⟩, hwfc, ?_⟩
            · rw [Pr2]
            · rw [Plen]
            · obtain ⟨pvol, pvg⟩ := hwfp
              exact ⟨pvol, by rw [Plen]; exact pvg⟩
  | FullyConnected x =>
    cases cB with
    | Convolutional y => exact absurd hcur (by simp [layer_sync])
    | Pooling y => exact absurd hcur (by simp [layer_sync])
    | FullyConnected y =>
      obtain ⟨hsx, hlx, hxv, hxr⟩ := hcur
      cases pA with
      | FullyConnected p =>
        cases pB with
        | Convolutional q => exact absurd hprev (by simp [layer_sync])
        | Pooling q => exact absurd hprev (by simp [layer_sync])
        | FullyConnected q =>
          obtain ⟨hsp, hlp, hpv, hpr⟩ := hprev
          rw [bact_fc, bact_fc, backward_ff, backward_ff]
          simp only [fba_num_inputs]
          by_cases hcnd : p.num_neurons ≠ x.num_inputs
          · have hcndB : q.num_neurons ≠ y.num_inputs := by
              rw [← hsp.2.1, ← hsx.1]
              exact hcnd
            rw [if_pos hcnd, if_pos hcndB]
          · have hcndB : ¬q.num_neurons ≠ y.num_inputs := by
              rw [← hsp.2.1, ← hsx.1]
              exact hcnd
            rw [if_neg hcnd, if_neg hcndB]
            obtain ⟨Fdone, Fr2, Fpres, Fwf, Flen⟩ := bw_fc_core ex func
              x y p.values q.values p.value_gradients q.value_gradients
              hpv hsx hlx hxv (hxr rfl) hseed hwfc hlp.2.2.2.1
            refine ⟨Fdone, ⟨hsp, ⟨hlp.1, hlp.2.1, hlp.2.2.1, ?_,
              hlp.2.2.2.2.1, hlp.2.2.2.2.2⟩, hpv, fun hb => hpr hb⟩, Fr2,
              ⟨rfl, rfl⟩, ⟨rfl, rfl⟩, Fpres, fun pd => ⟨⟨rfl, rfl, rfl,
                rfl, rfl, rfl⟩, rfl, rfl, rfl, ?_, rfl, rfl⟩, Fwf, ?_⟩
            · rw [Fr2]
            · rw [Flen]
            · obtain ⟨pval, praw, pback, pvg, pbias, pbg, pwts, pwg⟩ :=
                hwfp
              exact ⟨pval, praw, pback, by rw [Flen]; exact pvg, pbias,
                pbg, pwts, pwg⟩
      | Convolutional p =>
        cases pB with
        | Pooling q => exact absurd hprev (by simp [layer_sync])
        | FullyConnected q => exact absurd hprev (by simp [layer_sync])
        | Convolutional q =>
          obtain ⟨hsp, hlp, hpv, hpr⟩ := hprev
          rw [bact_fc, bact_fc, backward_fc, backward_fc]
          simp only [fba_num_inputs]
          by_cases hcnd : p.dimension.x * p.dimension.y * p.dimension.z ≠
              x.num_inputs
          · have hcndB : q.dimension.x * q.dimension.y * q.dimension.z ≠
                y.num_inputs := by
              rw [← hsp.2.2.2.1, ← hsx.1]
              exact hcnd
            rw [if_pos hcnd, if_pos hcndB]
          · have hcndB : ¬q.dimension.x * q.dimension.y * q.dimension.z ≠
                y.num_inputs := by
              rw [← hsp.2.2.2.1, ← hsx.1]
              exact hcnd
            rw [if_neg hcnd, if_neg hcndB]
            obtain ⟨Fdone, Fr2, Fpres, Fwf, Flen⟩ := bw_fc_core ex func
              x y p.volume q.volume p.volume_gradients q.volume_gradients
              hpv hsx hlx hxv (hxr rfl) hseed hwfc hlp.2.2.2.1
            refine ⟨Fdone, ⟨hsp, ⟨hlp.1, hlp.2.1, hlp.2.2.1, ?_,
              hlp.2.2.2.2.1, hlp.2.2.2.2.2⟩, hpv, fun hb => hpr hb⟩, Fr2,
              ⟨rfl, rfl⟩, ⟨rfl, rfl⟩, Fpres, fun pd => ⟨⟨rfl, rfl, rfl,
                rfl, rfl, rfl, rfl, rfl, rfl, rfl⟩, rfl, rfl, rfl, ?_,
                rfl, rfl⟩, Fwf, ?_⟩
            · rw [Fr2]
            · rw [Flen]
            · obtain ⟨pnk, pvol, pvg, pback, praw, pbg, pkg, pbias,
                pker⟩ := hwfp
              exact ⟨pnk, pvol, by rw [Flen]; exact pvg, pback, praw,
                pbg, pkg, pbias, pker⟩
      | Pooling p =>
        cases pB with
        | Convolutional q => exact absurd hprev (by simp [layer_sync])
        | FullyConnected q => exact absurd hprev (by simp [layer_sync])
        | Pooling q =>
          obtain ⟨hsp, hglp, hpv⟩ := hprev
          rw [bact_fc, bact_fc, backward_fp, backward_fp]
          simp only [fba_num_inputs]
          by_cases hcnd : p.dimension.x * p.dimension.y * p.dimension.z ≠
              x.num_inputs
          · have hcndB : q.dimension.x * q.dimension.y * q.dimension.z ≠
                y.num_inputs := by
              rw [← hsp.2.2.2.1, ← hsx.1]
              exact hcnd
            rw [if_pos hcnd, if_pos hcndB]
          · have hcndB : ¬q.dimension.x * q.dimension.y * q.dimension.z ≠
                y.num_inputs := by
              rw [← hsp.2.2.2.1, ← hsx.1]
              exact hcnd
            rw [if_neg hcnd, if_neg hcndB]
            obtain ⟨Fdone, Fr2, Fpres, Fwf, Flen⟩ := bw_fc_core ex func
              x y p.volume q.volume p.volume_gradients q.volume_gradients
              hpv hsx hlx hxv (hxr rfl) hseed hwfc hglp
            refine ⟨Fdone, ⟨hsp, ?_, hpv⟩, Fr2, trivial, trivial, Fpres,
              fun pd => ⟨⟨rfl, rfl, rfl, rfl, rfl⟩, rfl, ?_,
                fun j _ => rfl⟩, Fwf, ?_⟩
            · rw [Fr2]
            · rw [Flen]
            · obtain ⟨pvol, pvg⟩ := hwfp
              exact ⟨pvol, by rw [Flen]; exact pvg⟩

theorem orel_refl (R : Layer → Layer → Prop) (hR : ∀ a, R a a)
    (o : Option Layer) : orel R o o := by
  cases o with
  | none => trivial
  | some a => exact hR a

theorem orel_some_right (R : Layer → Layer → Prop) (o : Option Layer)
    (b : Layer) (h : orel R o (some b)) :
    ∃ a, o = some a ∧ R a b := by
  cases o with
  | none => exact h.elim
  | some a => exact ⟨a, rfl, h⟩

theorem backward_step_eq (ex : ℚ → ℚ)
    (L : List (Layer × ActivationFunction)) (i : Nat) (cur prev : Layer)
    (a f : ActivationFunction) (hc : L[i + 1]? = some (cur, a))
    (hp : L[i]? = some (prev, f)) :
    backward_step ex L (i + 1) =
      match Layer.back_propagate (Layer.backward_activate ex cur a) prev
        with
      | Except.error e => Except.error (Fail.err e)
      | Except.ok r =>
        Except.ok ((L.set (i + 1) (r.1, a)).set i (r.2, f)) := by
  unfold backward_step
  rw [Nat.add_sub_cancel, hc, hp]

theorem back_range_succ (n : Nat) :
    (List.range (n + 1)).reverse.map (· + 1) =
      (n + 1) :: (List.range n).reverse.map (· + 1) := by
  rw [List.range_succ, List.reverse_append]
  rfl

theorem foldlM_cons_except {σ α : Type} (f : σ → α → Except Fail σ)
    (s : σ) (a : α) (l : List α) :
    (a :: l).foldlM f s = f s a >>= fun x => l.foldlM f x := rfl

theorem layer_done_pre_congr (pa' pb' pa pb a b : Layer)
    (h : layer_done pa pb a b) (ha : accums_keep pa' pa)
    (hb : accums_keep pb' pb) : layer_done pa' pb' a b := by
  cases pa' <;> cases pb' <;> cases pa <;> cases pb <;> cases a <;>
    cases b <;> simp_all [accums_keep, layer_done]

theorem layer_done_rel (pd pd' : Dim3) (pa pb a b : Layer)
    (h : layer_done pa pb a b) (hrel : layer_rel pd pa pb) :
    layer_rel pd' a b := by
  cases pa <;> cases pb <;> cases a <;> cases b <;> try exact h.elim
  · obtain ⟨hst, hvol, hraw, hback, hvg, ⟨w1, ha1, hb1⟩,
      ⟨w2, ha2, hb2⟩⟩ := h
    obtain ⟨pst, plens⟩ := hrel
    refine ⟨hst, ?_, ?_, ?_, ?_, ?_, ?_⟩
    · rw [hvol]
    · rw [hraw]
    · rw [hback]
    · rw [hvg]
    · rw [ha1, hb1, apply_adds_length, apply_adds_length]
      exact plens.2.2.2.2.1
    · rw [ha2, hb2, apply_adds_length, apply_adds_length]
      exact plens.2.2.2.2.2
  · obtain ⟨hst, hvol, hvg⟩ := h
    exact ⟨hst, by rw [hvol], by rw [hvg], fun j _ => by rw [hvol]⟩
  · obtain ⟨hst, hval, hraw, hback, hvg, ⟨w1, ha1, hb1⟩,
      ⟨w2, ha2, hb2⟩⟩ := h
    obtain ⟨pst, plens⟩ := hrel
    refine ⟨hst, ?_, ?_, ?_, ?_, ?_, ?_⟩
    · rw [hval]
    · rw [hraw]
    · rw [hback]
    · rw [hvg]
    · rw [ha1, hb1, apply_adds_length, apply_adds_length]
      exact plens.2.2.2.2.1
    · rw [ha2, hb2, apply_adds_length, apply_adds_length]
      exact plens.2.2.2.2.2

theorem backward_fold_lockstep (ex : ℚ → ℚ)
    (P Q : List (Layer × ActivationFunction)) (m : Nat) :
    ∀ A B : List (Layer × ActivationFunction),
    A.length = B.length → A.length = P.length → B.length = Q.length →
    m + 1 ≤ A.length →
    (∀ j, lsnd A j = lsnd B j) →
    (∀ j, lsnd A j = lsnd P j) →
    (∀ j, lsnd B j = lsnd Q j) →
    orel (layer_sync false) (lfst A 0) (lfst B 0) →
    (∀ j, 1 ≤ j → j < m →
      orel (layer_sync true) (lfst A j) (lfst B j)) →
    (1 ≤ m → orel (layer_sync true) (lfst A m) (lfst B m) ∧
      orel seeded (lfst A m) (lfst B m)) →
    (∀ j, m + 1 ≤ j →
      orel4 layer_done (lfst P j) (lfst Q j) (lfst A j) (lfst B j)) →
    (∀ j, j ≤ m → orel accums_keep (lfst P j) (lfst A j)) →
    (∀ j, j ≤ m → orel accums_keep (lfst Q j) (lfst B j)) →
    (∀ j, orel (layer_rel (prev_geom P j)) (lfst A j) (lfst P j)) →
    (∀ j, owf (lfst A j)) →
    (∀ j, 1 ≤ j → j ≤ m → orel fc_ok (lfst P (j - 1)) (lfst P j)) →
    match ((List.range m).reverse.map (· + 1)).foldlM (backward_step ex)
        A,
      ((List.range m).reverse.map (· + 1)).foldlM (backward_step ex) B
      with
    | Except.error e₁, Except.error e₂ => e₁ = e₂
    | Except.ok A₂, Except.ok B₂ =>
      A₂.length = A.length ∧ B₂.length = B.length ∧
      (∀ j, lsnd A₂ j = lsnd A j) ∧ (∀ j, lsnd B₂ j = lsnd B j) ∧
      (∀ j, 1 ≤ j →
        orel4 layer_done (lfst P j) (lfst Q j) (lfst A₂ j)
          (lfst B₂ j)) ∧
      orel (layer_sync false) (lfst A₂ 0) (lfst B₂ 0) ∧
      orel accums_keep (lfst P 0) (lfst A₂ 0) ∧
      orel accums_keep (lfst Q 0) (lfst B₂ 0) ∧
      (∀ j, orel (layer_rel (prev_geom P j)) (lfst A₂ j) (lfst P j)) ∧
      (∀ j, owf (lfst A₂ j))
    | _, _ => False := by
  induction m with
  | zero =>
    intro A B hlen hlenP hlenQ hm hsndAB hsndAP hsndBQ hsync0 hsync hm1
      hdone hkeepA hkeepB hpres hwf hcompat
    exact ⟨rfl, rfl, fun j => rfl, fun j => rfl,
      fun j hj => hdone j (by omega), hsync0, hkeepA 0 (by omega),
      hkeepB 0 (by omega), hpres, hwf⟩
  | succ n ih =>
    intro A B hlen hlenP hlenQ hm hsndAB hsndAP hsndBQ hsync0 hsync hm1
      hdone hkeepA hkeepB hpres hwf hcompat
    rw [back_range_succ, foldlM_cons_except, foldlM_cons_except]
    cases hcA : A[n + 1]? with
    | none =>
      have : A.length ≤ n + 1 := by
        by_contra hcon
        rw [List.getElem?_eq_getElem (by omega)] at hcA
        exact Option.noConfusion hcA
      omega
    | some pc =>
      have hn1lt : n + 1 < A.length := by
        by_contra hcon
        rw [List.getElem?_eq_none (by omega)] at hcA
        exact Option.noConfusion hcA
      obtain ⟨hsyncC, hseedC⟩ := hm1 (by omega)
      have hlfcA : lfst A (n + 1) = some pc.1 := lfst_eq_some _ _ _ hcA
      obtain ⟨cb, hlfcB, hsyncc⟩ := orel_some_left _ _ _
        (hlfcA ▸ hsyncC)
      obtain ⟨qc, hcB, hqc⟩ := pair_of_lfst _ _ _ hlfcB
      subst hqc
      have hseedc : seeded pc.1 qc.1 := by
        have := hseedC
        rw [hlfcA, hlfcB] at this
        exact this
      have hfc : pc.2 = qc.2 := by
        have e1 : lsnd A (n + 1) = some pc.2 := by simp [lsnd, hcA]
        have e2 : lsnd B (n + 1) = some qc.2 := by simp [lsnd, hcB]
        have := hsndAB (n + 1)
        rw [e1, e2] at this
        exact Option.some.inj this
      cases hpA : A[n]? with
      | none =>
        have : A.length ≤ n := by
          by_contra hcon
          rw [List.getElem?_eq_getElem (by omega)] at hpA
          exact Option.noConfusion hpA
        omega
      | some pp =>
        have hnlt : n < A.length := by omega
        have hlfpA : lfst A n = some pp.1 := lfst_eq_some _ _ _ hpA
        have hbp : ∃ bp : Bool,
            orel (layer_sync bp) (lfst A n) (lfst B n) ∧
            (1 ≤ n → bp = true) ∧ (n = 0 → bp = false) := by
          cases n with
          | zero =>
            exact ⟨false, hsync0, fun h => absurd h (by omega),
              fun _ => rfl⟩
          | succ k =>
            exact ⟨true, hsync (k + 1) (by omega) (by omega),
              fun _ => rfl, fun h => Nat.noConfusion h⟩
        obtain ⟨bp, hsyncP, hbpt, hbpf⟩ := hbp
        obtain ⟨pb, hlfpB, hsyncp⟩ := orel_some_left _ _ _
          (hlfpA ▸ hsyncP)
        obtain ⟨qp, hpB, hqp⟩ := pair_of_lfst _ _ _ hlfpB
        subst hqp
        have hfp : pp.2 = qp.2 := by
          have e1 : lsnd A n = some pp.2 := by simp [lsnd, hpA]
          have e2 : lsnd B n = some qp.2 := by simp [lsnd, hpB]
          have := hsndAB n
          rw [e1, e2] at this
          exact Option.some.inj this
        have hwfC : wf_layer pc.1 := by
          have := hwf (n + 1)
          rw [hlfcA] at this
          exact this
        have hwfP : wf_layer pp.1 := by
          have := hwf n
          rw [hlfpA] at this
          exact this
        obtain ⟨Pc, hPc, hrelc⟩ := orel_some_left _ _ _
          (hlfcA ▸ hpres (n + 1))
        obtain ⟨Pp, hPp, hrelp⟩ := orel_some_left _ _ _
          (hlfpA ▸ hpres n)
        have hcompat' : fc_ok pp.1 pc.1 := by
          have := hcompat (n + 1) (by omega) (by omega)
          rw [Nat.add_sub_cancel, hPp, hPc] at this
          exact fc_ok_of_rel _ _ _ _ _ _ hrelp hrelc this
        rw [backward_step_eq ex A n pc.1 pp.1 pc.2 pp.2 (by rw [hcA])
            (by rw [hpA]),
          backward_step_eq ex B n qc.1 qp.1 qc.2 qp.2 (by rw [hcB])
            (by rw [hpB]), ← hfc, ← hfp]
        have D := backward_propagate_lockstep ex pc.2 bp pc.1 qc.1 pp.1
          qp.1 hsyncc hseedc hwfC hsyncp hwfP hcompat'
        rcases hBA : Layer.back_propagate
            (Layer.backward_activate ex pc.1 pc.2) pp.1 with e₁ | rA
        · rcases hBB : Layer.back_propagate
              (Layer.backward_activate ex qc.1 pc.2) qp.1 with e₂ | rB
          · rw [hBA, hBB] at D
            rw [except_bind_error, except_bind_error]
            exact congrArg Fail.err D
          · rw [hBA, hBB] at D
            exact False.elim D
        · rcases hBB : Layer.back_propagate
              (Layer.backward_activate ex qc.1 pc.2) qp.1 with e₂ | rB
          · rw [hBA, hBB] at D
            exact False.elim D
          · rw [hBA, hBB] at D
            obtain ⟨Ddone, Dsync, Dseed, DkeepA, DkeepB, DpresC, DpresP,
              DwfC, DwfP⟩ := D
            rw [except_bind_ok, except_bind_ok]
            have hn1ltB : n + 1 < B.length := by omega
            have hAset : ∀ j, j ≠ n → j ≠ n + 1 →
                ((A.set (n + 1) (rA.1, pc.2)).set n (rA.2, pp.2))[j]? =
                  A[j]? := by
              intro j h1 h2
              rw [List.getElem?_set_ne (fun h => h1 h.symm),
                List.getElem?_set_ne (fun h => h2 h.symm)]
            have hBset : ∀ j, j ≠ n → j ≠ n + 1 →
                ((B.set (n + 1) (rB.1, pc.2)).set n (rB.2, pp.2))[j]? =
                  B[j]? := by
              intro j h1 h2
              rw [List.getElem?_set_ne (fun h => h1 h.symm),
                List.getElem?_set_ne (fun h => h2 h.symm)]
            have hAc : ((A.set (n + 1) (rA.1, pc.2)).set n
                (rA.2, pp.2))[n + 1]? = some (rA.1, pc.2) := by
              rw [List.getElem?_set_ne (show n ≠ n + 1 by omega),
                List.getElem?_set_self hn1lt]
            have hBc : ((B.set (n + 1) (rB.1, pc.2)).set n
                (rB.2, pp.2))[n + 1]? = some (rB.1, pc.2) := by
              rw [List.getElem?_set_ne (show n ≠ n + 1 by omega),
                List.getElem?_set_self hn1ltB]
            have hAp : ((A.set (n + 1) (rA.1, pc.2)).set n
                (rA.2, pp.2))[n]? = some (rA.2, pp.2) := by
              rw [List.getElem?_set_self]
              rw [List.length_set]
              omega
            have hBp : ((B.set (n + 1) (rB.1, pc.2)).set n
                (rB.2, pp.2))[n]? = some (rB.2, pp.2) := by
              rw [List.getElem?_set_self]
              rw [List.length_set]
              omega
            have hs1 : ∀ j, lsnd ((A.set (n + 1) (rA.1, pc.2)).set n
                (rA.2, pp.2)) j = lsnd ((B.set (n + 1) (rB.1, pc.2)).set
                n (rB.2, pp.2)) j := by
              intro j
              by_cases h2 : j = n + 1
              · subst h2
                simp [lsnd, hAc, hBc]
              · by_cases h1 : j = n
                · rw [h1]
                  simp [lsnd, hAp, hBp]
                · simp only [lsnd, hAset j h1 h2, hBset j h1 h2]
                  exact hsndAB j
            have hs2 : ∀ j, lsnd ((A.set (n + 1) (rA.1, pc.2)).set n
                (rA.2, pp.2)) j = lsnd P j := by
              intro j
              by_cases h2 : j = n + 1
              · subst h2
                rw [show lsnd ((A.set (n + 1) (rA.1, pc.2)).set n
                    (rA.2, pp.2)) (n + 1) = some pc.2 from
                    by simp [lsnd, hAc]]
                rw [← hsndAP (n + 1)]
                simp [lsnd, hcA]
              · by_cases h1 : j = n
                · rw [h1]
                  rw [show lsnd ((A.set (n + 1) (rA.1, pc.2)).set n
                      (rA.2, pp.2)) n = some pp.2 from by simp [lsnd, hAp]]
                  rw [← hsndAP n]
                  simp [lsnd, hpA]
                · simp only [lsnd, hAset j h1 h2]
                  exact hsndAP j
            have hs3 : ∀ j, lsnd ((B.set (n + 1) (rB.1, pc.2)).set n
                (rB.2, pp.2)) j = lsnd Q j := by
              intro j
              by_cases h2 : j = n + 1
              · subst h2
                rw [show lsnd ((B.set (n + 1) (rB.1, pc.2)).set n
                    (rB.2, pp.2)) (n + 1) = some pc.2 from
                    by simp [lsnd, hBc]]
                rw [← hsndBQ (n + 1)]
                rw [hfc]
                simp [lsnd, hcB]
              · by_cases h1 : j = n
                · rw [h1]
                  rw [show lsnd ((B.set (n + 1) (rB.1, pc.2)).set n
                      (rB.2, pp.2)) n = some pp.2 from by simp [lsnd, hBp]]
                  rw [← hsndBQ n]
                  rw [hfp]
                  simp [lsnd, hpB]
                · simp only [lsnd, hBset j h1 h2]
                  exact hsndBQ j
            have hs4 : orel (layer_sync false)
                (lfst ((A.set (n + 1) (rA.1, pc.2)).set n (rA.2, pp.2)) 0)
                (lfst ((B.set (n + 1) (rB.1, pc.2)).set n (rB.2, pp.2)) 0)
                := by
              cases n with
              | zero =>
                rw [show lfst ((A.set 1 (rA.1, pc.2)).set 0
                    (rA.2, pp.2)) 0 = some rA.2 from by simp [lfst, hAp],
                  show lfst ((B.set 1 (rB.1, pc.2)).set 0
                    (rB.2, pp.2)) 0 = some rB.2 from by simp [lfst, hBp]]
                rw [hbpf rfl] at Dsync
                exact Dsync
              | succ k =>
                rw [show lfst ((A.set (k + 1 + 1) (rA.1, pc.2)).set
                    (k + 1) (rA.2, pp.2)) 0 = lfst A 0 from
                    by simp [lfst, hAset 0 (by omega) (by omega)],
                  show lfst ((B.set (k + 1 + 1) (rB.1, pc.2)).set
                    (k + 1) (rB.2, pp.2)) 0 = lfst B 0 from
                    by simp [lfst, hBset 0 (by omega) (by omega)]]
                exact hsync0
            have hs5 : ∀ j, 1 ≤ j → j < n →
                orel (layer_sync true)
                (lfst ((A.set (n + 1) (rA.1, pc.2)).set n (rA.2, pp.2)) j)
                (lfst ((B.set (n + 1) (rB.1, pc.2)).set n (rB.2, pp.2)) j)
                := by
              intro j hj1 hj2
              rw [show lfst ((A.set (n + 1) (rA.1, pc.2)).set n
                  (rA.2, pp.2)) j = lfst A j from
                  by simp [lfst, hAset j (by omega) (by omega)],
                show lfst ((B.set (n + 1) (rB.1, pc.2)).set n
                  (rB.2, pp.2)) j = lfst B j from
                  by simp [lfst, hBset j (by omega) (by omega)]]
              exact hsync j hj1 (by omega)
            have hs6 : 1 ≤ n → orel (layer_sync true)
                (lfst ((A.set (n + 1) (rA.1, pc.2)).set n (rA.2, pp.2)) n)
                (lfst ((B.set (n + 1) (rB.1, pc.2)).set n (rB.2, pp.2)) n)
                ∧ orel seeded
                (lfst ((A.set (n + 1) (rA.1, pc.2)).set n (rA.2, pp.2)) n)
                (lfst ((B.set (n + 1) (rB.1, pc.2)).set n (rB.2, pp.2)) n)
                := by
              intro hn1
              rw [show lfst ((A.set (n + 1) (rA.1, pc.2)).set n
                  (rA.2, pp.2)) n = some rA.2 from by simp [lfst, hAp],
                show lfst ((B.set (n + 1) (rB.1, pc.2)).set n
                  (rB.2, pp.2)) n = some rB.2 from by simp [lfst, hBp]]
              rw [hbpt hn1] at Dsync
              exact ⟨Dsync, Dseed⟩
            have hs7 : ∀ j, n + 1 ≤ j → orel4 layer_done (lfst P j)
                (lfst Q j)
                (lfst ((A.set (n + 1) (rA.1, pc.2)).set n (rA.2, pp.2)) j)
                (lfst ((B.set (n + 1) (rB.1, pc.2)).set n (rB.2, pp.2)) j)
                := by
              intro j hj
              by_cases h2 : j = n + 1
              · subst h2
                rw [show lfst ((A.set (n + 1) (rA.1, pc.2)).set n
                    (rA.2, pp.2)) (n + 1) = some rA.1 from
                    by simp [lfst, hAc],
                  show lfst ((B.set (n + 1) (rB.1, pc.2)).set n
                    (rB.2, pp.2)) (n + 1) = some rB.1 from
                    by simp [lfst, hBc], hPc]
                have hkA := hkeepA (n + 1) (by omega)
                rw [hPc, hlfcA] at hkA
                have hkB := hkeepB (n + 1) (by omega)
                rw [hlfcB] at hkB
                obtain ⟨Qc, hQc, hkB'⟩ := orel_some_right _ _ _ hkB
                rw [hQc]
                exact layer_done_pre_congr _ _ _ _ _ _ Ddone hkA hkB'
              · rw [show lfst ((A.set (n + 1) (rA.1, pc.2)).set n
                    (rA.2, pp.2)) j = lfst A j from
                    by simp [lfst, hAset j (by omega) h2],
                  show lfst ((B.set (n + 1) (rB.1, pc.2)).set n
                    (rB.2, pp.2)) j = lfst B j from
                    by simp [lfst, hBset j (by omega) h2]]
                exact hdone j (by omega)
            have hs8 : ∀ j, j ≤ n → orel accums_keep (lfst P j)
                (lfst ((A.set (n + 1) (rA.1, pc.2)).set n (rA.2, pp.2)) j)
                := by
              intro j hj
              by_cases h1 : j = n
              · rw [h1]
                rw [show lfst ((A.set (n + 1) (rA.1, pc.2)).set n
                    (rA.2, pp.2)) n = some rA.2 from by simp [lfst, hAp]]
                have hkA := hkeepA n (by omega)
                rw [hlfpA, hPp] at hkA
                rw [hPp]
                exact accums_keep_trans _ _ _ hkA DkeepA
              · rw [show lfst ((A.set (n + 1) (rA.1, pc.2)).set n
                    (rA.2, pp.2)) j = lfst A j from
                    by simp [lfst, hAset j h1 (by omega)]]
                exact hkeepA j (by omega)
            have hs9 : ∀ j, j ≤ n → orel accums_keep (lfst Q j)
                (lfst ((B.set (n + 1) (rB.1, pc.2)).set n (rB.2, pp.2)) j)
                := by
              intro j hj
              by_cases h1 : j = n
              · rw [h1]
                rw [show lfst ((B.set (n + 1) (rB.1, pc.2)).set n
                    (rB.2, pp.2)) n = some rB.2 from by simp [lfst, hBp]]
                have hkB := hkeepB n (by omega)
                rw [hlfpB] at hkB
                obtain ⟨Qp, hQp, hkB'⟩ := orel_some_right _ _ _ hkB
                rw [hQp]
                exact accums_keep_trans _ _ _ hkB' DkeepB
              · rw [show lfst ((B.set (n + 1) (rB.1, pc.2)).set n
                    (rB.2, pp.2)) j = lfst B j from
                    by simp [lfst, hBset j h1 (by omega)]]
                exact hkeepB j (by omega)
            have hs10 : ∀ j, orel (layer_rel (prev_geom P j))
                (lfst ((A.set (n + 1) (rA.1, pc.2)).set n (rA.2, pp.2)) j)
                (lfst P j) := by
              intro j
              by_cases h2 : j = n + 1
              · subst h2
                rw [show lfst ((A.set (n + 1) (rA.1, pc.2)).set n
                    (rA.2, pp.2)) (n + 1) = some rA.1 from
                    by simp [lfst, hAc], hPc]
                exact layer_rel_trans _ _ _ _ (DpresC _) hrelc
              · by_cases h1 : j = n
                · rw [h1]
                  rw [show lfst ((A.set (n + 1) (rA.1, pc.2)).set n
                      (rA.2, pp.2)) n = some rA.2 from
                      by simp [lfst, hAp], hPp]
                  exact layer_rel_trans _ _ _ _ (DpresP _) hrelp
                · rw [show lfst ((A.set (n + 1) (rA.1, pc.2)).set n
                      (rA.2, pp.2)) j = lfst A j from
                      by simp [lfst, hAset j h1 h2]]
                  exact hpres j
            have hs11 : ∀ j, owf
                (lfst ((A.set (n + 1) (rA.1, pc.2)).set n (rA.2, pp.2)) j)
                := by
              intro j
              by_cases h2 : j = n + 1
              · subst h2
                rw [show lfst ((A.set (n + 1) (rA.1, pc.2)).set n
                    (rA.2, pp.2)) (n + 1) = some rA.1 from
                    by simp [lfst, hAc]]
                exact DwfC
              · by_cases h1 : j = n
                · rw [h1]
                  rw [show lfst ((A.set (n + 1) (rA.1, pc.2)).set n
                      (rA.2, pp.2)) n = some rA.2 from
                      by simp [lfst, hAp]]
                  exact DwfP
                · rw [show lfst ((A.set (n + 1) (rA.1, pc.2)).set n
                      (rA.2, pp.2)) j = lfst A j from
                      by simp [lfst, hAset j h1 h2]]
                  exact hwf j
            have IH := ih ((A.set (n + 1) (rA.1, pc.2)).set n
                (rA.2, pp.2))
              ((B.set (n + 1) (rB.1, pc.2)).set n (rB.2, pp.2))
              (by simp [List.length_set, hlen])
              (by simp [List.length_set, hlenP])
              (by simp [List.length_set, hlenQ])
              (by simp only [List.length_set]; omega)
              hs1 hs2 hs3 hs4 hs5 hs6 hs7 hs8 hs9 hs10 hs11
              (fun j h1 h2 => hcompat j h1 (by omega))
            rcases hRA : ((List.range n).reverse.map (· + 1)).foldlM
                (backward_step ex)
                ((A.set (n + 1) (rA.1, pc.2)).set n (rA.2, pp.2))
              with e₃ | A₃
            · rcases hRB : ((List.range n).reverse.map (· + 1)).foldlM
                  (backward_step ex)
                  ((B.set (n + 1) (rB.1, pc.2)).set n (rB.2, pp.2))
                with e₄ | B₃
              · rw [hRA, hRB] at IH
                exact IH
              · rw [hRA, hRB] at IH
                exact False.elim IH
            · rcases hRB : ((List.range n).reverse.map (· + 1)).foldlM
                  (backward_step ex)
                  ((B.set (n + 1) (rB.1, pc.2)).set n (rB.2, pp.2))
                with e₄ | B₃
              · rw [hRA, hRB] at IH
                exact False.elim IH
              · rw [hRA, hRB] at IH
                obtain ⟨ilenA, ilenB, isndA, isndB, idone, isync0,
                  ikeepA, ikeepB, ipres, iwf⟩ := IH
                refine ⟨?_, ?_, ?_, ?_, idone, isync0, ikeepA, ikeepB,
                  ipres, iwf⟩
                · rw [ilenA]
                  simp [List.length_set]
                · rw [ilenB]
                  simp [List.length_set]
                · intro j
                  rw [isndA j]
                  by_cases h2 : j = n + 1
                  · subst h2
                    rw [show lsnd ((A.set (n + 1) (rA.1, pc.2)).set n
                        (rA.2, pp.2)) (n + 1) = some pc.2 from
                        by simp [lsnd, hAc]]
                    simp [lsnd, hcA]
                  · by_cases h1 : j = n
                    · rw [h1]
                      rw [show lsnd ((A.set (n + 1) (rA.1, pc.2)).set n
                          (rA.2, pp.2)) n = some pp.2 from
                          by simp [lsnd, hAp]]
                      simp [lsnd, hpA]
                    · simp only [lsnd, hAset j h1 h2]
                · intro j
                  rw [isndB j]
                  by_cases h2 : j = n + 1
                  · subst h2
                    rw [show lsnd ((B.set (n + 1) (rB.1, pc.2)).set n
                        (rB.2, pp.2)) (n + 1) = some pc.2 from
                        by simp [lsnd, hBc]]
                    rw [hfc]
                    simp [lsnd, hcB]
                  · by_cases h1 : j = n
                    · rw [h1]
                      rw [show lsnd ((B.set (n + 1) (rB.1, pc.2)).set n
                          (rB.2, pp.2)) n = some pp.2 from
                          by simp [lsnd, hBp]]
                      rw [hfp]
                      simp [lsnd, hpB]
                    · simp only [lsnd, hBset j h1 h2]

theorem forward_result_fc_ok (ex : ℚ → ℚ) (func : ActivationFunction)
    (c n r : Layer) (h : Layer.forward_propagate c n = Except.ok r) :
    fc_ok c (Layer.activate ex r func) := by
  cases c with
  | Convolutional x => trivial
  | Pooling x => trivial
  | FullyConnected x =>
    cases n with
    | Convolutional m => exact Except.noConfusion h
    | Pooling m => exact Except.noConfusion h
    | FullyConnected m =>
      rw [forward_ff] at h
      by_cases hc : m.num_inputs ≠ x.num_neurons
      · rw [if_pos hc] at h
        exact Except.noConfusion h
      · rw [if_neg hc] at h
        obtain rfl := Except.ok.inj h
        trivial

theorem forward_fold_compat (ex : ℚ → ℚ) (k : Nat) :
    ∀ A A₂ : List (Layer × ActivationFunction),
    (List.range k).foldlM (forward_step ex) A = Except.ok A₂ →
    ∀ i, i < k → orel fc_ok (lfst A₂ i) (lfst A₂ (i + 1)) := by
  induction k with
  | zero =>
    intro A A₂ h i hi
    omega
  | succ n ih =>
    intro A A₂ h i hi
    rw [List.range_succ, List.foldlM_append] at h
    rcases hF : (List.range n).foldlM (forward_step ex) A with e | A₁
    · rw [hF] at h
      exact Except.noConfusion h
    · rw [hF, except_bind_ok, foldlM_single] at h
      cases hA1n : A₁[n]? with
      | none =>
        rw [forward_step_none_cur ex A₁ n hA1n] at h
        exact Except.noConfusion h
      | some pk =>
        cases hA1n1 : A₁[n + 1]? with
        | none =>
          rw [forward_step_none_nxt ex A₁ n hA1n1] at h
          exact Except.noConfusion h
        | some pn =>
          rw [forward_step_eq ex A₁ n pk.1 pn.1 pk.2 pn.2 (by rw [hA1n])
            (by rw [hA1n1])] at h
          rcases hP : Layer.forward_propagate pk.1 pn.1 with e | r
          · rw [hP] at h
            exact Except.noConfusion h
          · rw [hP] at h
            obtain rfl := Except.ok.inj h
            have hlt : n + 1 < A₁.length := by
              by_contra hcon
              rw [List.getElem?_eq_none (by omega)] at hA1n1
              exact Option.noConfusion hA1n1
            by_cases hik : i = n
            · rw [hik]
              rw [show lfst (A₁.set (n + 1)
                  (Layer.activate ex r pn.2, pn.2)) n = some pk.1 from by
                  simp [lfst, List.getElem?_set_ne
                    (show n + 1 ≠ n by omega), hA1n],
                show lfst (A₁.set (n + 1)
                  (Layer.activate ex r pn.2, pn.2)) (n + 1) =
                  some (Layer.activate ex r pn.2) from by
                  simp [lfst, List.getElem?_set_self hlt]]
              exact forward_result_fc_ok ex pn.2 pk.1 pn.1 r hP
            · rw [show lfst (A₁.set (n + 1)
                  (Layer.activate ex r pn.2, pn.2)) i = lfst A₁ i from by
                  simp [lfst, List.getElem?_set_ne
                    (show n + 1 ≠ i by omega)],
                show lfst (A₁.set (n + 1)
                  (Layer.activate ex r pn.2, pn.2)) (i + 1) =
                  lfst A₁ (i + 1) from by
                  simp [lfst, List.getElem?_set_ne
                    (show n + 1 ≠ i + 1 by omega)]]
              exact ih A A₁ hF i (by omega)

theorem lfst_cons_zero (p : Layer × ActivationFunction)
    (l : List (Layer × ActivationFunction)) :
    lfst (p :: l) 0 = some p.1 := by simp [lfst]

theorem lfst_cons_succ (p : Layer × ActivationFunction)
    (l : List (Layer × ActivationFunction)) (i : Nat) :
    lfst (p :: l) (i + 1) = lfst l i := by simp [lfst]

theorem lsnd_cons_zero (p : Layer × ActivationFunction)
    (l : List (Layer × ActivationFunction)) :
    lsnd (p :: l) 0 = some p.2 := by simp [lsnd]

theorem lsnd_cons_succ (p : Layer × ActivationFunction)
    (l : List (Layer × ActivationFunction)) (i : Nat) :
    lsnd (p :: l) (i + 1) = lsnd l i := by simp [lsnd]

theorem set_input_nil (s : NeuralNetwork) (input : List ℚ)
    (h : s.layers = []) :
    s.set_input input = Except.error Error.IncompatibleLayers := by
  unfold NeuralNetwork.set_input
  rw [h]

theorem set_input_cons_conv (s : NeuralNetwork) (c : ConvolutionalLayer)
    (a : ActivationFunction) (rest : List (Layer × ActivationFunction))
    (input : List ℚ)
    (h : s.layers = (Layer.Convolutional c, a) :: rest) :
    s.set_input input =
      match c.set_volume input with
      | Except.ok c₂ =>
        Except.ok { s with layers := (Layer.Convolutional c₂, a) :: rest }
      | Except.error e => Except.error e := by
  unfold NeuralNetwork.set_input
  rw [h]

theorem set_input_cons_pool (s : NeuralNetwork) (p : PoolingLayer)
    (a : ActivationFunction) (rest : List (Layer × ActivationFunction))
    (input : List ℚ) (h : s.layers = (Layer.Pooling p, a) :: rest) :
    s.set_input input = Except.error Error.IncompatibleLayers := by
  unfold NeuralNetwork.set_input
  rw [h]

theorem set_input_cons_fc (s : NeuralNetwork) (f : FullyConnectedLayer)
    (a : ActivationFunction) (rest : List (Layer × ActivationFunction))
    (input : List ℚ)
    (h : s.layers = (Layer.FullyConnected f, a) :: rest) :
    s.set_input input = Except.error Error.IncompatibleLayers := by
  unfold NeuralNetwork.set_input
  rw [h]

theorem set_input_lockstep (s t : NeuralNetwork) (input : List ℚ)
    (hrel : net_rel s t) (hwf : wf_net s) :
    match s.set_input input, t.set_input input with
    | Except.error e₁, Except.error e₂ => e₁ = e₂
    | Except.ok s₁, Except.ok t₁ =>
      s₁.error_function = s.error_function ∧
      t₁.error_function = t.error_function ∧
      s₁.layers.length = s.layers.length ∧
      t₁.layers.length = t.layers.length ∧
      (∀ j, lsnd s₁.layers j = lsnd s.layers j) ∧
      (∀ j, lsnd t₁.layers j = lsnd t.layers j) ∧
      orel (layer_sync false) (lfst s₁.layers 0) (lfst t₁.layers 0) ∧
      (∀ j, 1 ≤ j → s₁.layers[j]? = s.layers[j]?) ∧
      (∀ j, 1 ≤ j → t₁.layers[j]? = t.layers[j]?) ∧
      (∀ j, orel (layer_rel (prev_geom s.layers j)) (lfst s₁.layers j)
        (lfst s.layers j)) ∧
      (∀ j, orel accums_keep (lfst s.layers j) (lfst s₁.layers j)) ∧
      (∀ j, orel accums_keep (lfst t.layers j) (lfst t₁.layers j)) ∧
      (∀ j, owf (lfst s₁.layers j))
    | _, _ => False := by
  obtain ⟨herr, hlen, hsnd, hrelj⟩ := hrel
  cases hsl : s.layers with
  | nil =>
    cases htl : t.layers with
    | nil =>
      rw [set_input_nil s input hsl, set_input_nil t input htl]
    | cons q rest₂ =>
      rw [hsl, htl] at hlen
      exact absurd hlen (by simp)
  | cons p rest =>
    cases htl : t.layers with
    | nil =>
      rw [hsl, htl] at hlen
      exact absurd hlen (by simp)
    | cons q rest₂ =>
      have hrel0 := hrelj 0
      rw [hsl, htl] at hrel0
      have hlf0s : lfst (p :: rest) 0 = some p.1 := lfst_cons_zero p rest
      have hlf0t : lfst (q :: rest₂) 0 = some q.1 :=
        lfst_cons_zero q rest₂
      rw [hlf0s, hlf0t] at hrel0
      have hwf0 : wf_layer p.1 := by
        refine hwf p ?_
        rw [hsl]
        exact List.mem_cons_self _ _
      obtain ⟨pl, pa⟩ := p
      obtain ⟨ql, qa⟩ := q
      cases pl with
      | Pooling c =>
        cases ql with
        | Convolutional d => exact absurd hrel0 (by simp [orel, layer_rel])
        | Pooling d =>
          rw [set_input_cons_pool s c pa rest input hsl,
            set_input_cons_pool t d qa rest₂ input htl]
        | FullyConnected d => exact absurd hrel0 (by simp [orel, layer_rel])
      | FullyConnected c =>
        cases ql with
        | Convolutional d => exact absurd hrel0 (by simp [orel, layer_rel])
        | Pooling d => exact absurd hrel0 (by simp [orel, layer_rel])
        | FullyConnected d =>
          rw [set_input_cons_fc s c pa rest input hsl,
            set_input_cons_fc t d qa rest₂ input htl]
      | Convolutional c =>
        cases ql with
        | Pooling d => exact absurd hrel0 (by simp [orel, layer_rel])
        | FullyConnected d => exact absurd hrel0 (by simp [orel, layer_rel])
        | Convolutional d =>
          obtain ⟨hst, hlns⟩ := hrel0
          rw [set_input_cons_conv s c pa rest input hsl,
            set_input_cons_conv t d qa rest₂ input htl]
          unfold ConvolutionalLayer.set_volume
          by_cases hvl : c.volume.length ≠ input.length
          · rw [if_pos hvl, if_pos (by rw [← hlns.1]; exact hvl)]
          · rw [if_neg hvl, if_neg (by rw [← hlns.1]; exact hvl)]
            push_neg at hvl
            refine ⟨rfl, rfl, by simp, by simp,
              fun j => ?_, fun j => ?_, ?_, ?_, ?_, ?_, ?_, ?_, ?_⟩
            · cases j with
              | zero => rw [lsnd_cons_zero, lsnd_cons_zero]
              | succ i => rw [lsnd_cons_succ, lsnd_cons_succ]
            · cases j with
              | zero => rw [lsnd_cons_zero, lsnd_cons_zero]
              | succ i => rw [lsnd_cons_succ, lsnd_cons_succ]
            · rw [lfst_cons_zero, lfst_cons_zero]
              exact ⟨hst, ⟨by simp, hlns.2.1, hlns.2.2.1, hlns.2.2.2.1,
                hlns.2.2.2.2.1, hlns.2.2.2.2.2⟩, rfl,
                fun hb => Bool.noConfusion hb⟩
            · intro j hj
              cases j with
              | zero => omega
              | succ i => simp
            · intro j hj
              cases j with
              | zero => omega
              | succ i => simp
            · intro j
              cases j with
              | zero =>
                rw [lfst_cons_zero, lfst_cons_zero]
                show layer_rel (prev_geom ((Layer.Convolutional c, pa)
                    :: rest) 0)
                  (Layer.Convolutional { c with volume := input })
                  (Layer.Convolutional c)
                exact ⟨⟨rfl, rfl, rfl, rfl, rfl, rfl, rfl, rfl, rfl,
                  rfl⟩, by simp [hvl], rfl, rfl, rfl, rfl, rfl⟩
              | succ i =>
                rw [lfst_cons_succ, lfst_cons_succ]
                exact orel_refl _ (layer_rel_refl _) _
            · intro j
              cases j with
              | zero =>
                rw [lfst_cons_zero, lfst_cons_zero]
                exact ⟨rfl, rfl⟩
              | succ i =>
                rw [lfst_cons_succ, lfst_cons_succ]
                exact orel_refl _ accums_keep_refl _
            · intro j
              cases j with
              | zero =>
                rw [lfst_cons_zero, lfst_cons_zero]
                exact ⟨rfl, rfl⟩
              | succ i =>
                rw [lfst_cons_succ, lfst_cons_succ]
                exact orel_refl _ accums_keep_refl _
            · intro j
              cases j with
              | zero =>
                rw [lfst_cons_zero]
                show wf_conv { c with volume := input }
                obtain ⟨wnk, wvol, wvg, wback, wraw, wbg, wkg, wbias,
                  wker⟩ := hwf0
                exact ⟨wnk, by simp [← hvl, wvol], wvg, wback, wraw,
                  wbg, wkg, wbias, wker⟩
              | succ i =>
                rw [lfst_cons_succ]
                cases hres : lfst rest i with
                | none => trivial
                | some a =>
                  obtain ⟨pr, hri, hpra⟩ := pair_of_lfst _ _ _ hres
                  show wf_layer a
                  rw [← hpra]
                  refine hwf pr ?_
                  rw [hsl]
                  exact List.mem_cons_of_mem _ (List.getElem?_mem hri)

theorem wf_list_pos (L : List (Layer × ActivationFunction))
    (h : ∀ la ∈ L, wf_layer la.1) : ∀ j, owf (lfst L j) := by
  intro j
  cases hL : lfst L j with
  | none => trivial
  | some a =>
    obtain ⟨p, hp, hpa⟩ := pair_of_lfst _ _ _ hL
    show wf_layer a
    rw [← hpa]
    exact h p (List.getElem?_mem hp)

theorem wf_list_of_pos (L : List (Layer × ActivationFunction))
    (h : ∀ j, owf (lfst L j)) : ∀ la ∈ L, wf_layer la.1 := by
  intro la hla
  obtain ⟨i, hi, he⟩ := List.getElem_of_mem hla
  have : lfst L i = some la.1 :=
    lfst_eq_some _ _ _ (by rw [List.getElem?_eq_getElem hi, he])
  have hw := h i
  rw [this] at hw
  exact hw

theorem orel_keep_trans (o₁ o₂ o₃ : Option Layer)
    (h₁ : orel accums_keep o₁ o₂) (h₂ : orel accums_keep o₂ o₃) :
    orel accums_keep o₁ o₃ := by
  cases o₁ with
  | none =>
    have h2 := orel_none_left _ _ h₁
    rw [h2] at h₂
    have h3 := orel_none_left _ _ h₂
    rw [h3]
    trivial
  | some a =>
    obtain ⟨b, hb, hab⟩ := orel_some_left _ _ _ h₁
    rw [hb] at h₂
    obtain ⟨c, hc, hbc⟩ := orel_some_left _ _ _ h₂
    rw [hc]
    exact accums_keep_trans a b c hab hbc

theorem orel_rel_trans (pd : Dim3) (o₁ o₂ o₃ : Option Layer)
    (h₁ : orel (layer_rel pd) o₁ o₂) (h₂ : orel (layer_rel pd) o₂ o₃) :
    orel (layer_rel pd) o₁ o₃ := by
  cases o₁ with
  | none =>
    have h2 := orel_none_left _ _ h₁
    rw [h2] at h₂
    have h3 := orel_none_left _ _ h₂
    rw [h3]
    trivial
  | some a =>
    obtain ⟨b, hb, hab⟩ := orel_some_left _ _ _ h₁
    rw [hb] at h₂
    obtain ⟨c, hc, hbc⟩ := orel_some_left _ _ _ h₂
    rw [hc]
    exact layer_rel_trans pd a b c hab hbc

theorem net_rel_refl (s : NeuralNetwork) : net_rel s s :=
  ⟨rfl, rfl, fun j => rfl, fun j => orel_refl _ (layer_rel_refl _) _⟩

theorem chain_rel_trans (A B C : List (Layer × ActivationFunction))
    (h₁ : chain_rel A B) (h₂ : chain_rel B C) : chain_rel A C := by
  obtain ⟨hl₁, hs₁, hr₁⟩ := h₁
  obtain ⟨hl₂, hs₂, hr₂⟩ := h₂
  have hpd : ∀ j, prev_geom A j = prev_geom B j := prev_geom_congr A B _ hr₁
  refine ⟨hl₁.trans hl₂, fun j => (hs₁ j).trans (hs₂ j), fun j => ?_⟩
  refine orel_rel_trans _ _ _ _ (hr₁ j) ?_
  rw [hpd j]
  exact hr₂ j

theorem net_rel_trans (a b c : NeuralNetwork)
    (h₁ : net_rel a b) (h₂ : net_rel b c) : net_rel a c :=
  ⟨h₁.1.trans h₂.1, chain_rel_trans _ _ _ h₁.2 h₂.2⟩

theorem orel_none_right (R : Layer → Layer → Prop) (o : Option Layer)
    (h : orel R o none) : o = none := by
  cases o with
  | none => rfl
  | some b => exact h.elim

theorem orel4_gdone_mk (os ot oP oQ oa ob : Option Layer)
    (hd : orel4 layer_done oP oQ oa ob)
    (hkP : orel accums_keep os oP) (hkQ : orel accums_keep ot oQ) :
    orel4 gdone os ot oa ob := by
  cases oP with
  | none =>
    cases oQ with
    | some q => exact hd.elim
    | none =>
      cases oa with
      | some a => exact hd.elim
      | none =>
        cases ob with
        | some b => exact hd.elim
        | none =>
          rw [orel_none_right _ _ hkP, orel_none_right _ _ hkQ]
          trivial
  | some p =>
    cases oQ with
    | none => exact hd.elim
    | some q =>
      cases oa with
      | none => exact hd.elim
      | some a =>
        cases ob with
        | none => exact hd.elim
        | some b =>
          obtain ⟨sp, hsp, hksp⟩ := orel_some_right _ _ _ hkP
          obtain ⟨tq, htq, hktq⟩ := orel_some_right _ _ _ hkQ
          rw [hsp, htq]
          exact gdone_pre_congr sp tq p q a b (gdone_of_done _ _ _ _ hd)
            hksp hktq

theorem orel4_gdone_keep (pd : Dim3) (os ot oa ob : Option Layer)
    (hka : orel accums_keep os oa) (hkb : orel accums_keep ot ob)
    (hrel : orel (layer_rel pd) os ot) : orel4 gdone os ot oa ob := by
  cases os with
  | none =>
    have ha := orel_none_left _ _ hka
    have ht := orel_none_left _ _ hrel
    rw [ht] at hkb
    have hb := orel_none_left _ _ hkb
    rw [ha, ht, hb]
    trivial
  | some s =>
    obtain ⟨a, ha, hsa⟩ := orel_some_left _ _ _ hka
    obtain ⟨t, ht, hst⟩ := orel_some_left _ _ _ hrel
    rw [ht] at hkb
    obtain ⟨b, hb, htb⟩ := orel_some_left _ _ _ hkb
    rw [ha, ht, hb]
    exact gdone_of_keep pd s t a b hsa htb hst

theorem orel4_gdone_trans (os ot om₁ om₂ oa ob : Option Layer)
    (h₁ : orel4 gdone os ot om₁ om₂) (h₂ : orel4 gdone om₁ om₂ oa ob) :
    orel4 gdone os ot oa ob := by
  cases os with
  | none =>
    cases ot with
    | some t => exact h₁.elim
    | none =>
      cases om₁ with
      | some m => exact h₁.elim
      | none =>
        cases om₂ with
        | some m => exact h₁.elim
        | none =>
          cases oa with
          | some a => exact h₂.elim
          | none =>
            cases ob with
            | some b => exact h₂.elim
            | none => trivial
  | some s =>
    cases ot with
    | none => exact h₁.elim
    | some t =>
      cases om₁ with
      | none => exact h₁.elim
      | some m₁ =>
        cases om₂ with
        | none => exact h₁.elim
        | some m₂ =>
          cases oa with
          | none => exact h₂.elim
          | some a =>
            cases ob with
            | none => exact h₂.elim
            | some b => exact gdone_trans s t m₁ m₂ a b h₁ h₂

theorem checked_sub_pos (n : Nat) (h : 1 ≤ n) :
    checked_sub n 1 = some (n - 1) := by
  unfold checked_sub
  rw [if_pos h]

theorem except_map_ok {α β ε : Type} (f : α → β) (a : α) :
    (Except.ok a : Except ε α).map f = Except.ok (f a) := rfl

theorem except_map_error {α β ε : Type} (f : α → β) (e : ε) :
    (Except.error e : Except ε α).map f = Except.error e := rfl

theorem seed_lockstep (ef : ErrorFunction) (target : List ℚ)
    (f g : FullyConnectedLayer) (hs : fc_statics f g) (hl : fc_lens f g)
    (hval : f.values = g.values) (hraw : f.raw_values = g.raw_values)
    (hwf : wf_fc f) :
    match f.calculate_output_gradients ef target,
        g.calculate_output_gradients ef target with
    | Except.error e₁, Except.error e₂ => e₁ = e₂
    | Except.ok f₂, Except.ok g₂ =>
      layer_sync true (Layer.FullyConnected f₂)
        (Layer.FullyConnected g₂) ∧
      seeded (Layer.FullyConnected f₂) (Layer.FullyConnected g₂) ∧
      accums_keep (Layer.FullyConnected f) (Layer.FullyConnected f₂) ∧
      accums_keep (Layer.FullyConnected g) (Layer.FullyConnected g₂) ∧
      (∀ pd, layer_rel pd (Layer.FullyConnected f₂)
        (Layer.FullyConnected f)) ∧
      wf_fc f₂
    | _, _ => False := by
  unfold FullyConnectedLayer.calculate_output_gradients
  by_cases hc : f.values.length ≠ target.length
  · rw [if_pos hc, if_pos (by rw [← hval]; exact hc)]
  · rw [if_neg hc, if_neg (by rw [← hval]; exact hc)]
    push_neg at hc
    have hvg : apply_writes f.value_gradients
        ((List.range target.length).map fun i =>
          (i, nn_error_eval_derivative ef i f.values target)) =
        apply_writes g.value_gradients
        ((List.range target.length).map fun i =>
          (i, nn_error_eval_derivative ef i g.values target)) := by
      simp only [← hval]
      exact apply_writes_range_congr _ _ _ _ hl.2.2.2.1
        (le_of_eq (by rw [hwf.2.2.2.1, ← hwf.1, hc]))
    refine ⟨⟨hs, ⟨?_, ?_, ?_, ?_, ?_, ?_⟩, hval, fun _ => hraw⟩,
      hvg, ⟨rfl, rfl⟩, ⟨rfl, rfl⟩, fun pd => ?_, ?_⟩
    · exact hl.1
    · exact hl.2.1
    · exact hl.2.2.1
    · show (apply_writes f.value_gradients
          ((List.range target.length).map fun i =>
            (i, nn_error_eval_derivative ef i f.values target))).length =
        (apply_writes g.value_gradients
          ((List.range target.length).map fun i =>
            (i, nn_error_eval_derivative ef i g.values target))).length
      rw [apply_writes_length, apply_writes_length]
      exact hl.2.2.2.1
    · exact hl.2.2.2.2.1
    · exact hl.2.2.2.2.2
    · exact ⟨⟨rfl, rfl, rfl, rfl, rfl, rfl⟩, rfl, rfl, rfl,
        by rw [apply_writes_length], rfl, rfl⟩
    · exact ⟨hwf.1, hwf.2.1, hwf.2.2.1,
        by rw [apply_writes_length]; exact hwf.2.2.2.1,
        hwf.2.2.2.2.1, hwf.2.2.2.2.2.1, hwf.2.2.2.2.2.2.1,
        hwf.2.2.2.2.2.2.2⟩

theorem lfst_set_ne (L : List (Layer × ActivationFunction)) (i j : Nat)
    (p : Layer × ActivationFunction) (h : i ≠ j) :
    lfst (L.set i p) j = lfst L j := by
  unfold lfst
  rw [List.getElem?_set_ne h]

theorem lfst_set_self (L : List (Layer × ActivationFunction)) (i : Nat)
    (p : Layer × ActivationFunction) (h : i < L.length) :
    lfst (L.set i p) i = some p.1 := by
  unfold lfst
  rw [List.getElem?_set_self h]
  rfl

theorem lsnd_set_ne (L : List (Layer × ActivationFunction)) (i j : Nat)
    (p : Layer × ActivationFunction) (h : i ≠ j) :
    lsnd (L.set i p) j = lsnd L j := by
  unfold lsnd
  rw [List.getElem?_set_ne h]

theorem lsnd_set_self (L : List (Layer × ActivationFunction)) (i : Nat)
    (p : Layer × ActivationFunction) (h : i < L.length) :
    lsnd (L.set i p) i = some p.2 := by
  unfold lsnd
  rw [List.getElem?_set_self h]
  rfl

theorem process_sample_err_si (ex : ℚ → ℚ) (s : NeuralNetwork)
    (smp : List ℚ × List ℚ) (e : Error)
    (h : s.set_input smp.1 = Except.error e) :
    process_sample ex s smp = Except.error (Fail.err e) := by
  unfold process_sample
  rw [h]

theorem process_sample_ok_si (ex : ℚ → ℚ) (s : NeuralNetwork)
    (smp : List ℚ × List ℚ) (s₁ : NeuralNetwork)
    (h : s.set_input smp.1 = Except.ok s₁) :
    process_sample ex s smp =
      match s₁.forward_propagate ex with
      | Except.error f => Except.error f
      | Except.ok nn₂ => nn₂.back_propagate ex smp.2 := by
  unfold process_sample
  rw [h]

theorem nn_forward_eq (ex : ℚ → ℚ) (nn : NeuralNetwork) (bound : Nat)
    (h : checked_sub nn.layers.length 1 = some bound) :
    nn.forward_propagate ex =
      ((List.range bound).foldlM (forward_step ex) nn.layers).map
        (fun ls => { nn with layers := ls }) := by
  unfold NeuralNetwork.forward_propagate
  rw [h]

theorem nn_back_ok_eq (ex : ℚ → ℚ) (nn : NeuralNetwork) (target : List ℚ)
    (last : Nat) (f : FullyConnectedLayer) (func : ActivationFunction)
    (hcs : checked_sub nn.layers.length 1 = some last)
    (hlast : nn.layers[last]? = some (Layer.FullyConnected f, func)) :
    nn.back_propagate ex target =
      match f.calculate_output_gradients nn.error_function target with
      | Except.error e => Except.error (Fail.err e)
      | Except.ok f₂ =>
        ((back_range nn.layers.length).foldlM (backward_step ex)
          (nn.layers.set last (Layer.FullyConnected f₂, func))).map
          (fun ls => { nn with layers := ls }) := by
  unfold NeuralNetwork.back_propagate
  simp only [hcs, hlast]

theorem nn_back_conv_eq (ex : ℚ → ℚ) (nn : NeuralNetwork)
    (target : List ℚ) (last : Nat) (c : ConvolutionalLayer)
    (func : ActivationFunction)
    (hcs : checked_sub nn.layers.length 1 = some last)
    (hlast : nn.layers[last]? = some (Layer.Convolutional c, func)) :
    nn.back_propagate ex target =
      Except.error (Fail.err Error.IncompatibleLayers) := by
  unfold NeuralNetwork.back_propagate
  simp only [hcs, hlast]

theorem nn_back_pool_eq (ex : ℚ → ℚ) (nn : NeuralNetwork)
    (target : List ℚ) (last : Nat) (p : PoolingLayer)
    (func : ActivationFunction)
    (hcs : checked_sub nn.layers.length 1 = some last)
    (hlast : nn.layers[last]? = some (Layer.Pooling p, func)) :
    nn.back_propagate ex target =
      Except.error (Fail.err Error.IncompatibleLayers) := by
  unfold NeuralNetwork.back_propagate
  simp only [hcs, hlast]

theorem set_input_head_conv (s : NeuralNetwork) (input : List ℚ)
    (s₁ : NeuralNetwork) (h : s.set_input input = Except.ok s₁) :
    ∃ c a rest, s₁.layers = (Layer.Convolutional c, a) :: rest := by
  cases hsl : s.layers with
  | nil =>
    rw [set_input_nil s input hsl] at h
    exact Except.noConfusion h
  | cons p rest =>
    obtain ⟨pl, pa⟩ := p
    cases pl with
    | Convolutional c =>
      rw [set_input_cons_conv s c pa rest input hsl] at h
      rcases hsv : c.set_volume input with e | c₂
      · rw [hsv] at h
        exact Except.noConfusion h
      · rw [hsv] at h
        refine ⟨c₂, pa, rest, ?_⟩
        rw [← Except.ok.inj h]
    | Pooling q =>
      rw [set_input_cons_pool s q pa rest input hsl] at h
      exact Except.noConfusion h
    | FullyConnected q =>
      rw [set_input_cons_fc s q pa rest input hsl] at h
      exact Except.noConfusion h

theorem lfst_ge_none (L : List (Layer × ActivationFunction)) (j : Nat)
    (h : L.length ≤ j) : lfst L j = none := by
  unfold lfst
  rw [List.getElem?_eq_none h]
  rfl

theorem orel_sync_rel (b : Bool) (pd : Dim3) (o₁ o₂ : Option Layer)
    (h : orel (layer_sync b) o₁ o₂) : orel (layer_rel pd) o₁ o₂ := by
  cases o₁ with
  | none =>
    rw [orel_none_left _ _ h]
    trivial
  | some a =>
    obtain ⟨c, hc, hac⟩ := orel_some_left _ _ _ h
    rw [hc]
    exact layer_sync_rel b pd a c hac

theorem orel_done_rel (pd pd' : Dim3) (oP oQ oa ob : Option Layer)
    (hd : orel4 layer_done oP oQ oa ob)
    (hrel : orel (layer_rel pd) oP oQ) : orel (layer_rel pd') oa ob := by
  cases oP with
  | none =>
    cases oQ with
    | some q => exact hd.elim
    | none =>
      cases oa with
      | some a => exact hd.elim
      | none =>
        cases ob with
        | some b => exact hd.elim
        | none => trivial
  | some p =>
    cases oQ with
    | none => exact hd.elim
    | some q =>
      cases oa with
      | none => exact hd.elim
      | some a =>
        cases ob with
        | none => exact hd.elim
        | some b => exact layer_done_rel pd pd' p q a b hd hrel

theorem process_sample_fwd_err (ex : ℚ → ℚ) (s : NeuralNetwork)
    (smp : List ℚ × List ℚ) (s₁ : NeuralNetwork) (bound : Nat) (e : Fail)
    (hsi : s.set_input smp.1 = Except.ok s₁)
    (hcs : checked_sub s₁.layers.length 1 = some bound)
    (hF : (List.range bound).foldlM (forward_step ex) s₁.layers =
      Except.error e) :
    process_sample ex s smp = Except.error e := by
  unfold process_sample
  rw [hsi]
  show (match s₁.forward_propagate ex with
    | Except.error f => Except.error f
    | Except.ok nn₂ => nn₂.back_propagate ex smp.2) = _
  rw [nn_forward_eq ex s₁ bound hcs, hF]
  rfl

theorem process_sample_fwd_ok (ex : ℚ → ℚ) (s : NeuralNetwork)
    (smp : List ℚ × List ℚ) (s₁ : NeuralNetwork) (bound : Nat)
    (A₂ : List (Layer × ActivationFunction))
    (hsi : s.set_input smp.1 = Except.ok s₁)
    (hcs : checked_sub s₁.layers.length 1 = some bound)
    (hF : (List.range bound).foldlM (forward_step ex) s₁.layers =
      Except.ok A₂) :
    process_sample ex s smp =
      ({ s₁ with layers := A₂ } : NeuralNetwork).back_propagate ex
        smp.2 := by
  unfold process_sample
  rw [hsi]
  show (match s₁.forward_propagate ex with
    | Except.error f => Except.error f
    | Except.ok nn₂ => nn₂.back_propagate ex smp.2) = _
  rw [nn_forward_eq ex s₁ bound hcs, hF]
  rfl

theorem nn_back_seed_err (ex : ℚ → ℚ) (nn : NeuralNetwork)
    (target : List ℚ) (last : Nat) (f : FullyConnectedLayer)
    (func : ActivationFunction) (L : List (Layer × ActivationFunction))
    (e : Error) (hL : nn.layers = L)
    (hcs : checked_sub L.length 1 = some last)
    (hlast : L[last]? = some (Layer.FullyConnected f, func))
    (hseed : f.calculate_output_gradients nn.error_function target =
      Except.error e) :
    nn.back_propagate ex target = Except.error (Fail.err e) := by
  unfold NeuralNetwork.back_propagate
  rw [hL]
  simp only [hcs, hlast, hseed]

theorem nn_back_seed_ok (ex : ℚ → ℚ) (nn : NeuralNetwork)
    (target : List ℚ) (last : Nat) (f f₂ : FullyConnectedLayer)
    (func : ActivationFunction) (L : List (Layer × ActivationFunction))
    (hL : nn.layers = L)
    (hcs : checked_sub L.length 1 = some last)
    (hlast : L[last]? = some (Layer.FullyConnected f, func))
    (hseed : f.calculate_output_gradients nn.error_function target =
      Except.ok f₂) :
    nn.back_propagate ex target =
      ((back_range L.length).foldlM (backward_step ex)
        (L.set last (Layer.FullyConnected f₂, func))).map
        (fun ls => { nn with layers := ls }) := by
  unfold NeuralNetwork.back_propagate
  rw [hL]
  simp only [hcs, hlast, hseed]

theorem back_range_def (n : Nat) :
    back_range n = (List.range (n - 1)).reverse.map (· + 1) := rfl

theorem process_sample_lockstep (ex : ℚ → ℚ) (smp : List ℚ × List ℚ)
    (s t : NeuralNetwork) (hrel : net_rel s t) (hwf : wf_net s) :
    match process_sample ex s smp, process_sample ex t smp with
    | Except.error e₁, Except.error e₂ => e₁ = e₂
    | Except.ok s₂, Except.ok t₂ =>
      net_rel s₂ s ∧ net_rel s₂ t₂ ∧ wf_net s₂ ∧ gnet s t s₂ t₂
    | _, _ => False := by
  obtain ⟨herr, hlen, hsnd, hrelj⟩ := hrel
  have SI := set_input_lockstep s t smp.1 ⟨herr, hlen, hsnd, hrelj⟩ hwf
  rcases hA : s.set_input smp.1 with e₁ | s₁
  · rcases hB : t.set_input smp.1 with e₂ | t₁
    · rw [hA, hB] at SI
      rw [process_sample_err_si ex s smp e₁ hA,
        process_sample_err_si ex t smp e₂ hB]
      exact congrArg Fail.err SI
    · rw [hA, hB] at SI
      exact SI.elim
  · rcases hB : t.set_input smp.1 with e₂ | t₁
    · rw [hA, hB] at SI
      exact SI.elim
    · rw [hA, hB] at SI
      obtain ⟨herr₁, herr₁t, hlen₁, hlen₁t, hsnd₁, hsnd₁t, hsync0,
        hunt₁, hunt₁t, hpres₁, hkeep₁, hkeep₁t, hwf₁⟩ := SI
      have hpos : 1 ≤ s.layers.length := by
        cases hsl : s.layers with
        | nil =>
          rw [set_input_nil s smp.1 hsl] at hA
          exact Except.noConfusion hA
        | cons p r => simp
      have hlenAB : s₁.layers.length = t₁.layers.length := by
        rw [hlen₁, hlen₁t]
        exact hlen
      have hpos₁ : 1 ≤ s₁.layers.length := by omega
      have hpos₁t : 1 ≤ t₁.layers.length := by omega
      have hpg₁ : ∀ j, prev_geom s₁.layers j = prev_geom s.layers j :=
        prev_geom_congr _ _ _ hpres₁
      have hsndAB : ∀ j, lsnd s₁.layers j = lsnd t₁.layers j := by
        intro j
        rw [hsnd₁ j, hsnd₁t j]
        exact hsnd j
      have hrelAB : ∀ j, 1 ≤ j →
          orel (layer_rel (prev_geom s₁.layers j)) (lfst s₁.layers j)
            (lfst t₁.layers j) := by
        intro j hj
        rw [hpg₁ j,
          show lfst s₁.layers j = lfst s.layers j from by
            unfold lfst; rw [hunt₁ j hj],
          show lfst t₁.layers j = lfst t.layers j from by
            unfold lfst; rw [hunt₁t j hj]]
        exact hrelj j
      have FF := forward_fold_lockstep ex s₁.layers t₁.layers
        (s₁.layers.length - 1) hlenAB hsndAB hsync0 hrelAB hwf₁
      have hcs₁ : checked_sub s₁.layers.length 1 =
          some (s₁.layers.length - 1) := checked_sub_pos _ hpos₁
      have hcs₁t : checked_sub t₁.layers.length 1 =
          some (s₁.layers.length - 1) := by
        rw [checked_sub_pos _ hpos₁t, hlenAB]
      rcases hFA : (List.range (s₁.layers.length - 1)).foldlM
          (forward_step ex) s₁.layers with eA | A₂
      · rcases hFB : (List.range (s₁.layers.length - 1)).foldlM
            (forward_step ex) t₁.layers with eB | B₂
        · rw [hFA, hFB] at FF
          rw [process_sample_fwd_err ex s smp s₁ _ eA hA hcs₁ hFA,
            process_sample_fwd_err ex t smp t₁ _ eB hB hcs₁t hFB]
          exact FF
        · rw [hFA, hFB] at FF
          exact FF.elim
      · rcases hFB : (List.range (s₁.layers.length - 1)).foldlM
            (forward_step ex) t₁.layers with eB | B₂
        · rw [hFA, hFB] at FF
          exact FF.elim
        · rw [hFA, hFB] at FF
          obtain ⟨lenA, lenB, sndA, sndB, untA, untB, z0A, z0B, syncF,
            presF, keepFA, keepFB, wfF⟩ := FF
          rw [process_sample_fwd_ok ex s smp s₁ _ A₂ hA hcs₁ hFA,
            process_sample_fwd_ok ex t smp t₁ _ B₂ hB hcs₁t hFB]
          have compatF := forward_fold_compat ex (s₁.layers.length - 1)
            s₁.layers A₂ hFA
          have hcsA : checked_sub A₂.length 1 = some (A₂.length - 1) :=
            checked_sub_pos _ (by omega)
          have hlastA : A₂.length - 1 < A₂.length := by omega
          have hlen2 : B₂.length = A₂.length := by omega
          have hcsB : checked_sub B₂.length 1 = some (A₂.length - 1) := by
            rw [checked_sub_pos _ (by omega), hlen2]
          obtain ⟨plA, hpa⟩ : ∃ pl, A₂[A₂.length - 1]? = some pl :=
            ⟨_, List.getElem?_eq_getElem hlastA⟩
          obtain ⟨plB, hpb⟩ : ∃ pl, B₂[A₂.length - 1]? = some pl :=
            ⟨_, List.getElem?_eq_getElem (by omega)⟩
          obtain ⟨cA, funcA⟩ := plA
          obtain ⟨cB, funcB⟩ := plB
          have hlfA : lfst A₂ (A₂.length - 1) = some cA :=
            lfst_eq_some _ _ _ hpa
          have hlfB : lfst B₂ (A₂.length - 1) = some cB :=
            lfst_eq_some _ _ _ hpb
          have hsynclast : ∃ bb, orel (layer_sync bb)
              (lfst A₂ (A₂.length - 1)) (lfst B₂ (A₂.length - 1)) := by
            cases hz : A₂.length - 1 with
            | zero =>
              refine ⟨false, ?_⟩
              rw [show lfst A₂ 0 = lfst s₁.layers 0 from by
                  unfold lfst; rw [z0A],
                show lfst B₂ 0 = lfst t₁.layers 0 from by
                  unfold lfst; rw [z0B]]
              exact hsync0
            | succ i =>
              exact ⟨true, syncF (i + 1) (by omega) (by omega)⟩
          obtain ⟨bb, hsyncL⟩ := hsynclast
          rw [hlfA, hlfB] at hsyncL
          have hfuncBA : funcB = funcA := by
            have h1 : lsnd A₂ (A₂.length - 1) = some funcA := by
              unfold lsnd; rw [hpa]; rfl
            have h2 : lsnd B₂ (A₂.length - 1) = some funcB := by
              unfold lsnd; rw [hpb]; rfl
            have h3 := sndA (A₂.length - 1)
            have h4 := sndB (A₂.length - 1)
            have h5 : some funcA = some funcB := by
              rw [← h1, ← h2, h3, h4, hsnd₁ _, hsnd₁t _, hsnd _]
            exact (Option.some.inj h5).symm
          cases cA with
          | Convolutional x =>
            cases cB with
            | Pooling y => exact False.elim hsyncL
            | FullyConnected y =>
              exact False.elim hsyncL
            | Convolutional y =>
              rw [nn_back_conv_eq ex { s₁ with layers := A₂ } smp.2
                  (A₂.length - 1) x funcA hcsA hpa,
                nn_back_conv_eq ex { t₁ with layers := B₂ } smp.2
                  (A₂.length - 1) y funcB hcsB hpb]
          | Pooling x =>
            cases cB with
            | Convolutional y =>
              exact False.elim hsyncL
            | FullyConnected y =>
              exact False.elim hsyncL
            | Pooling y =>
              rw [nn_back_pool_eq ex { s₁ with layers := A₂ } smp.2
                  (A₂.length - 1) x funcA hcsA hpa,
                nn_back_pool_eq ex { t₁ with layers := B₂ } smp.2
                  (A₂.length - 1) y funcB hcsB hpb]
          | FullyConnected f =>
            cases cB with
            | Convolutional y =>
              exact False.elim hsyncL
            | Pooling y => exact False.elim hsyncL
            | FullyConnected g =>
              obtain ⟨c0, a0, rest0, h1l⟩ :=
                set_input_head_conv s smp.1 s₁ hA
              have hlast1 : 1 ≤ A₂.length - 1 := by
                by_contra hcon
                have hz : A₂.length - 1 = 0 := by omega
                rw [hz] at hlfA
                rw [show lfst A₂ 0 = lfst s₁.layers 0 from by
                    unfold lfst; rw [z0A], h1l, lfst_cons_zero] at hlfA
                exact Layer.noConfusion (Option.some.inj hlfA)
              have hsyncT : layer_sync true (Layer.FullyConnected f)
                  (Layer.FullyConnected g) := by
                have h := syncF (A₂.length - 1) hlast1 (by omega)
                rw [hlfA, hlfB] at h
                exact h
              obtain ⟨hsfc, hlfc, hvalfc, hrawfc⟩ := hsyncT
              have hwff : wf_fc f := by
                have h := wfF (A₂.length - 1)
                rw [hlfA] at h
                exact h
              have hEFt : (t₁ : NeuralNetwork).error_function =
                  s₁.error_function := by
                rw [herr₁t, herr₁]
                exact herr.symm
              have SL := seed_lockstep s₁.error_function smp.2 f g hsfc
                hlfc hvalfc (hrawfc rfl) hwff
              rcases hSA : f.calculate_output_gradients
                  s₁.error_function smp.2 with e | f₂
              · rcases hSB : g.calculate_output_gradients
                    s₁.error_function smp.2 with e' | g₂
                · rw [hSA, hSB] at SL
                  rw [nn_back_seed_err ex { s₁ with layers := A₂ } smp.2
                      (A₂.length - 1) f funcA A₂ e rfl hcsA hpa hSA,
                    nn_back_seed_err ex { t₁ with layers := B₂ } smp.2
                      (A₂.length - 1) g funcB B₂ e' rfl hcsB hpb
                      (by rw [show ({ t₁ with layers := B₂ } :
                          NeuralNetwork).error_function =
                          s₁.error_function from hEFt]; exact hSB)]
                  exact congrArg Fail.err SL
                · rw [hSA, hSB] at SL
                  exact SL.elim
              · rcases hSB : g.calculate_output_gradients
                    s₁.error_function smp.2 with e' | g₂
                · rw [hSA, hSB] at SL
                  exact SL.elim
                · rw [hSA, hSB] at SL
                  obtain ⟨syncS, seedS, keepSA, keepSB, presS, wfS⟩ := SL
                  rw [nn_back_seed_ok ex { s₁ with layers := A₂ } smp.2
                      (A₂.length - 1) f f₂ funcA A₂ rfl hcsA hpa hSA,
                    nn_back_seed_ok ex { t₁ with layers := B₂ } smp.2
                      (A₂.length - 1) g g₂ funcB B₂ rfl hcsB hpb
                      (by rw [show ({ t₁ with layers := B₂ } :
                          NeuralNetwork).error_function =
                          s₁.error_function from hEFt]; exact hSB),
                    back_range_def, back_range_def, hlen2, hfuncBA]
                  have hPQ : ∀ j, lsnd (A₂.set (A₂.length - 1)
                      (Layer.FullyConnected f₂, funcA)) j =
                      lsnd (B₂.set (A₂.length - 1)
                      (Layer.FullyConnected g₂, funcA)) j := by
                    intro j
                    by_cases hj : A₂.length - 1 = j
                    · rw [← hj, lsnd_set_self _ _ _ hlastA,
                        lsnd_set_self _ _ _ (by omega)]
                    · rw [lsnd_set_ne _ _ _ _ hj, lsnd_set_ne _ _ _ _ hj,
                        sndA j, sndB j]
                      exact hsndAB j
                  have hsndPA : ∀ j, lsnd (A₂.set (A₂.length - 1)
                      (Layer.FullyConnected f₂, funcA)) j =
                      lsnd A₂ j := by
                    intro j
                    by_cases hj : A₂.length - 1 = j
                    · rw [← hj, lsnd_set_self _ _ _ hlastA]
                      unfold lsnd
                      rw [hpa]
                      rfl
                    · rw [lsnd_set_ne _ _ _ _ hj]
                  have hsndQB : ∀ j, lsnd (B₂.set (A₂.length - 1)
                      (Layer.FullyConnected g₂, funcA)) j =
                      lsnd B₂ j := by
                    intro j
                    by_cases hj : A₂.length - 1 = j
                    · rw [← hj, lsnd_set_self _ _ _ (by omega)]
                      unfold lsnd
                      rw [hpb, hfuncBA]
                      rfl
                    · rw [lsnd_set_ne _ _ _ _ hj]
                  have hPA : ∀ j, A₂.length - 1 ≠ j →
                      lfst (A₂.set (A₂.length - 1)
                        (Layer.FullyConnected f₂, funcA)) j =
                      lfst A₂ j := fun j hj => lfst_set_ne _ _ _ _ hj
                  have hQB : ∀ j, A₂.length - 1 ≠ j →
                      lfst (B₂.set (A₂.length - 1)
                        (Layer.FullyConnected g₂, funcA)) j =
                      lfst B₂ j := fun j hj => lfst_set_ne _ _ _ _ hj
                  have hPm : lfst (A₂.set (A₂.length - 1)
                      (Layer.FullyConnected f₂, funcA))
                      (A₂.length - 1) =
                      some (Layer.FullyConnected f₂) :=
                    lfst_set_self _ _ _ hlastA
                  have hQm : lfst (B₂.set (A₂.length - 1)
                      (Layer.FullyConnected g₂, funcA))
                      (A₂.length - 1) =
                      some (Layer.FullyConnected g₂) :=
                    lfst_set_self _ _ _ (by omega)
                  have BF := backward_fold_lockstep ex
                    (A₂.set (A₂.length - 1)
                      (Layer.FullyConnected f₂, funcA))
                    (B₂.set (A₂.length - 1)
                      (Layer.FullyConnected g₂, funcA))
                    (A₂.length - 1)
                    (A₂.set (A₂.length - 1)
                      (Layer.FullyConnected f₂, funcA))
                    (B₂.set (A₂.length - 1)
                      (Layer.FullyConnected g₂, funcA))
                    (by simp only [List.length_set]; omega)
                    rfl rfl
                    (by simp only [List.length_set]; omega)
                    hPQ (fun j => rfl) (fun j => rfl)
                    (by
                      rw [hPA 0 (by omega), hQB 0 (by omega),
                        show lfst A₂ 0 = lfst s₁.layers 0 from by
                          unfold lfst; rw [z0A],
                        show lfst B₂ 0 = lfst t₁.layers 0 from by
                          unfold lfst; rw [z0B]]
                      exact hsync0)
                    (by
                      intro j h1 h2
                      rw [hPA j (by omega), hQB j (by omega)]
                      exact syncF j h1 (by omega))
                    (by
                      intro h1
                      rw [hPm, hQm]
                      exact ⟨syncS, seedS⟩)
                    (by
                      intro j hj
                      rw [lfst_ge_none _ _ (by
                          simp only [List.length_set]; omega),
                        lfst_ge_none _ _ (by
                          simp only [List.length_set]; omega)]
                      trivial)
                    (fun j hj => orel_refl _ accums_keep_refl _)
                    (fun j hj => orel_refl _ accums_keep_refl _)
                    (fun j => orel_refl _ (layer_rel_refl _) _)
                    (by
                      intro j
                      by_cases hj : A₂.length - 1 = j
                      · rw [← hj, hPm]
                        exact wfS
                      · rw [hPA j hj]
                        exact wfF j)
                    (by
                      intro j h1 h2
                      by_cases hj : A₂.length - 1 = j
                      · rw [← hj, hPm,
                          hPA (A₂.length - 1 - 1) (by omega)]
                        obtain ⟨pl, hpl⟩ : ∃ pl,
                            A₂[A₂.length - 1 - 1]? = some pl :=
                          ⟨_, List.getElem?_eq_getElem (by omega)⟩
                        rw [lfst_eq_some _ _ _ hpl]
                        cases pl.1 <;> trivial
                      · rw [hPA j (by omega), hPA (j - 1) (by omega)]
                        have hc := compatF (j - 1) (by omega)
                        rw [show j - 1 + 1 = j from by omega] at hc
                        exact hc)
                  rcases hBA : ((List.range (A₂.length - 1)).reverse.map
                      (· + 1)).foldlM (backward_step ex)
                      (A₂.set (A₂.length - 1)
                        (Layer.FullyConnected f₂, funcA))
                    with eA2 | A₃
                  · rcases hBB : ((List.range
                        (A₂.length - 1)).reverse.map
                        (· + 1)).foldlM (backward_step ex)
                        (B₂.set (A₂.length - 1)
                          (Layer.FullyConnected g₂, funcA))
                      with eB2 | B₃
                    · rw [hBA, hBB] at BF
                      rw [except_map_error, except_map_error]
                      exact BF
                    · rw [hBA, hBB] at BF
                      exact BF.elim
                  · rcases hBB : ((List.range
                        (A₂.length - 1)).reverse.map
                        (· + 1)).foldlM (backward_step ex)
                        (B₂.set (A₂.length - 1)
                          (Layer.FullyConnected g₂, funcA))
                      with eB2 | B₃
                    · rw [hBA, hBB] at BF
                      exact BF.elim
                    · rw [hBA, hBB] at BF
                      obtain ⟨blenA, blenB, bsndA, bsndB, bdone, bsync0,
                        bkeep0A, bkeep0B, bpres, bwf⟩ := BF
                      rw [except_map_ok, except_map_ok]
                      have hPlen : (A₂.set (A₂.length - 1)
                          (Layer.FullyConnected f₂, funcA)).length =
                          A₂.length := by simp
                      have hQlen : (B₂.set (A₂.length - 1)
                          (Layer.FullyConnected g₂, funcA)).length =
                          B₂.length := by simp
                      have F3 : ∀ j, orel (layer_rel
                          (prev_geom s.layers j)) (lfst A₂ j)
                          (lfst s₁.layers j) := by
                        intro j
                        rw [← hpg₁ j]
                        exact presF j
                      have F2 : ∀ j, orel (layer_rel
                          (prev_geom s.layers j))
                          (lfst (A₂.set (A₂.length - 1)
                            (Layer.FullyConnected f₂, funcA)) j)
                          (lfst A₂ j) := by
                        intro j
                        by_cases hj : A₂.length - 1 = j
                        · rw [← hj, hPm, hlfA]
                          exact presS
                            (prev_geom s.layers (A₂.length - 1))
                        · rw [hPA j hj]
                          exact orel_refl _ (layer_rel_refl _) _
                      have FPs : ∀ j, orel (layer_rel
                          (prev_geom s.layers j))
                          (lfst (A₂.set (A₂.length - 1)
                            (Layer.FullyConnected f₂, funcA)) j)
                          (lfst s.layers j) := fun j =>
                        orel_rel_trans _ _ _ _ (F2 j)
                          (orel_rel_trans _ _ _ _ (F3 j) (hpres₁ j))
                      have hpgP : ∀ j, prev_geom (A₂.set (A₂.length - 1)
                          (Layer.FullyConnected f₂, funcA)) j =
                          prev_geom s.layers j :=
                        prev_geom_congr _ _ _ FPs
                      have F1 : ∀ j, orel (layer_rel
                          (prev_geom s.layers j)) (lfst A₃ j)
                          (lfst (A₂.set (A₂.length - 1)
                            (Layer.FullyConnected f₂, funcA)) j) := by
                        intro j
                        rw [← hpgP j]
                        exact bpres j
                      have FtotA : ∀ j, orel (layer_rel
                          (prev_geom s.layers j)) (lfst A₃ j)
                          (lfst s.layers j) := fun j =>
                        orel_rel_trans _ _ _ _ (F1 j) (FPs j)
                      have hpgA : ∀ j, prev_geom A₃ j =
                          prev_geom s.layers j :=
                        prev_geom_congr _ _ _ FtotA
                      have FPQ : ∀ j, orel (layer_rel (prev_geom A₃ j))
                          (lfst (A₂.set (A₂.length - 1)
                            (Layer.FullyConnected f₂, funcA)) j)
                          (lfst (B₂.set (A₂.length - 1)
                            (Layer.FullyConnected g₂, funcA)) j) := by
                        intro j
                        by_cases hj : A₂.length - 1 = j
                        · rw [← hj, hPm, hQm]
                          exact layer_sync_rel true
                            (prev_geom A₃ (A₂.length - 1)) _ _ syncS
                        · rw [hPA j hj, hQB j hj]
                          rcases Nat.eq_zero_or_pos j with h0 | h1
                          · rw [h0,
                              show lfst A₂ 0 = lfst s₁.layers 0 from by
                                unfold lfst; rw [z0A],
                              show lfst B₂ 0 = lfst t₁.layers 0 from by
                                unfold lfst; rw [z0B]]
                            exact orel_sync_rel false
                              (prev_geom A₃ 0) _ _ hsync0
                          · by_cases hjlen : j < A₂.length
                            · exact orel_sync_rel true
                                (prev_geom A₃ j) _ _
                                (syncF j (by omega) (by omega))
                            · rw [lfst_ge_none _ _ (by omega),
                                lfst_ge_none _ _ (by omega)]
                              trivial
                      have KA : ∀ j, orel accums_keep (lfst s.layers j)
                          (lfst (A₂.set (A₂.length - 1)
                            (Layer.FullyConnected f₂, funcA)) j) := by
                        intro j
                        refine orel_keep_trans _ (lfst A₂ j) _
                          (orel_keep_trans _ (lfst s₁.layers j) _
                            (hkeep₁ j) (keepFA j)) ?_
                        by_cases hj : A₂.length - 1 = j
                        · rw [← hj, hPm, hlfA]
                          exact keepSA
                        · rw [hPA j hj]
                          exact orel_refl _ accums_keep_refl _
                      have KB : ∀ j, orel accums_keep (lfst t.layers j)
                          (lfst (B₂.set (A₂.length - 1)
                            (Layer.FullyConnected g₂, funcA)) j) := by
                        intro j
                        refine orel_keep_trans _ (lfst B₂ j) _
                          (orel_keep_trans _ (lfst t₁.layers j) _
                            (hkeep₁t j) (keepFB j)) ?_
                        by_cases hj : A₂.length - 1 = j
                        · rw [← hj, hQm, hlfB]
                          exact keepSB
                        · rw [hQB j hj]
                          exact orel_refl _ accums_keep_refl _
                      refine ⟨⟨?_, ?_, ?_, ?_⟩, ⟨?_, ?_, ?_, ?_⟩, ?_,
                        ⟨?_, ?_, ?_⟩⟩
                      · exact herr₁
                      · show A₃.length = s.layers.length
                        omega
                      · show ∀ j, lsnd A₃ j = lsnd s.layers j
                        intro j
                        rw [bsndA j, hsndPA j, sndA j, hsnd₁ j]
                      · show ∀ j, orel (layer_rel (prev_geom A₃ j))
                          (lfst A₃ j) (lfst s.layers j)
                        intro j
                        rw [hpgA j]
                        exact FtotA j
                      · exact hEFt.symm
                      · show A₃.length = B₃.length
                        omega
                      · show ∀ j, lsnd A₃ j = lsnd B₃ j
                        intro j
                        rw [bsndA j, bsndB j]
                        exact hPQ j
                      · show ∀ j, orel (layer_rel (prev_geom A₃ j))
                          (lfst A₃ j) (lfst B₃ j)
                        intro j
                        rcases Nat.eq_zero_or_pos j with h0 | h1
                        · rw [h0]
                          exact orel_sync_rel false
                            (prev_geom A₃ 0) _ _ bsync0
                        · exact orel_done_rel (prev_geom A₃ j) _ _ _ _ _
                            (bdone j h1) (FPQ j)
                      · show ∀ la ∈ A₃, wf_layer la.1
                        exact wf_list_of_pos A₃ bwf
                      · show A₃.length = s.layers.length
                        omega
                      · show B₃.length = t.layers.length
                        omega
                      · show ∀ j, orel4 gdone (lfst s.layers j)
                          (lfst t.layers j) (lfst A₃ j) (lfst B₃ j)
                        intro j
                        rcases Nat.eq_zero_or_pos j with h0 | h1
                        · rw [h0]
                          exact orel4_gdone_keep (prev_geom s.layers 0)
                            _ _ _ _
                            (orel_keep_trans _ _ _ (KA 0) bkeep0A)
                            (orel_keep_trans _ _ _ (KB 0) bkeep0B)
                            (hrelj 0)
                        · exact orel4_gdone_mk _ _ _ _ _ _ (bdone j h1)
                            (KA j) (KB j)

theorem run_batch_cons_err (ex : ℚ → ℚ) (s : NeuralNetwork)
    (smp : List ℚ × List ℚ) (rest : List (List ℚ × List ℚ)) (e : Fail)
    (h : process_sample ex s smp = Except.error e) :
    run_batch ex s (smp :: rest) = Except.error e := by
  rw [show run_batch ex s (smp :: rest) =
      process_sample ex s smp >>= fun x => run_batch ex x rest from rfl,
    h]
  rfl

theorem run_batch_cons_ok (ex : ℚ → ℚ) (s : NeuralNetwork)
    (smp : List ℚ × List ℚ) (rest : List (List ℚ × List ℚ))
    (s' : NeuralNetwork) (h : process_sample ex s smp = Except.ok s') :
    run_batch ex s (smp :: rest) = run_batch ex s' rest := by
  rw [show run_batch ex s (smp :: rest) =
      process_sample ex s smp >>= fun x => run_batch ex x rest from rfl,
    h]
  rfl

theorem run_batch_lockstep (ex : ℚ → ℚ) (ch : List (List ℚ × List ℚ)) :
    ∀ s t : NeuralNetwork, net_rel s t → wf_net s →
    match run_batch ex s ch, run_batch ex t ch with
    | Except.error e₁, Except.error e₂ => e₁ = e₂
    | Except.ok s₂, Except.ok t₂ =>
      net_rel s₂ s ∧ net_rel s₂ t₂ ∧ wf_net s₂ ∧ gnet s t s₂ t₂
    | _, _ => False := by
  induction ch with
  | nil =>
    intro s t hrel hwf
    refine ⟨net_rel_refl s, hrel, hwf, rfl, rfl, fun j => ?_⟩
    exact orel4_gdone_keep (prev_geom s.layers j) _ _ _ _
      (orel_refl _ accums_keep_refl _) (orel_refl _ accums_keep_refl _)
      (hrel.2.2.2 j)
  | cons smp rest ih =>
    intro s t hrel hwf
    have PS := process_sample_lockstep ex smp s t hrel hwf
    rcases hPA : process_sample ex s smp with e₁ | s'
    · rcases hPB : process_sample ex t smp with e₂ | t'
      · rw [hPA, hPB] at PS
        rw [run_batch_cons_err ex s smp rest e₁ hPA,
          run_batch_cons_err ex t smp rest e₂ hPB]
        exact PS
      · rw [hPA, hPB] at PS
        exact PS.elim
    · rcases hPB : process_sample ex t smp with e₂ | t'
      · rw [hPA, hPB] at PS
        exact PS.elim
      · rw [hPA, hPB] at PS
        obtain ⟨hres, hrst, hwfs, hg⟩ := PS
        rw [run_batch_cons_ok ex s smp rest s' hPA,
          run_batch_cons_ok ex t smp rest t' hPB]
        have IH := ih s' t' hrst hwfs
        rcases hRA : run_batch ex s' rest with e₃ | s₂
        · rcases hRB : run_batch ex t' rest with e₄ | t₂
          · rw [hRA, hRB] at IH
            exact IH
          · rw [hRA, hRB] at IH
            exact IH.elim
        · rcases hRB : run_batch ex t' rest with e₄ | t₂
          · rw [hRA, hRB] at IH
            exact IH.elim
          · rw [hRA, hRB] at IH
            obtain ⟨ihres, ihrst, ihwf, ihg⟩ := IH
            exact ⟨net_rel_trans _ _ _ ihres hres, ihrst, ihwf,
              ihg.1.trans hg.1, ihg.2.1.trans hg.2.1, fun j =>
                orel4_gdone_trans _ _ _ _ _ _ (hg.2.2 j) (ihg.2.2 j)⟩

theorem apply_adds_nil_base (ws : List (Nat × ℚ)) :
    apply_adds [] ws = [] := by
  induction ws with
  | nil => rfl
  | cons w rest ih =>
    rw [apply_adds_cons]
    exact ih

theorem apply_adds_filter (n : Nat) (ws : List (Nat × ℚ)) :
    ∀ v : List ℚ, v.length = n →
    apply_adds v ws =
      apply_adds v (ws.filter fun w => decide (w.1 < n)) := by
  induction ws with
  | nil =>
    intro v hv
    rfl
  | cons w rest ih =>
    intro v hv
    rw [apply_adds_cons, List.filter_cons]
    by_cases h : w.1 < n
    · rw [if_pos (by simpa using h), apply_adds_cons]
      exact ih _ (by rw [List.length_set]; exact hv)
    · rw [if_neg (by simpa using h),
        List.set_eq_of_length_le (by omega)]
      exact ih v hv

theorem apply_adds_append_left (ws : List (Nat × ℚ)) :
    ∀ v z : List ℚ, (∀ w ∈ ws, w.1 < v.length) →
    apply_adds (v ++ z) ws = apply_adds v ws ++ z := by
  induction ws with
  | nil =>
    intro v z hb
    rfl
  | cons w rest ih =>
    intro v z hb
    have hw : w.1 < v.length := hb w (List.mem_cons_self _ _)
    rw [apply_adds_cons, apply_adds_cons,
      show (v ++ z).getD w.1 0 = v.getD w.1 0 from by
        rw [getD_eq_getElem?, getD_eq_getElem?,
          List.getElem?_append_left hw],
      List.set_append_left _ _ hw]
    rw [ih (v.set w.1 (v.getD w.1 0 + w.2)) z (fun u hu => by
      rw [List.length_set]
      exact hb u (List.mem_cons_of_mem _ hu))]

theorem apply_adds_shift (ws : List (Nat × ℚ)) :
    ∀ v z : List ℚ,
    apply_adds (v ++ z) (shift_adds v.length ws) =
      v ++ apply_adds z ws := by
  induction ws with
  | nil =>
    intro v z
    rfl
  | cons w rest ih =>
    intro v z
    show apply_adds (v ++ z)
      ((w.1 + v.length, w.2) :: shift_adds v.length rest) = _
    rw [apply_adds_cons, apply_adds_cons,
      show (v ++ z).getD (w.1 + v.length) 0 = z.getD w.1 0 from by
        rw [getD_eq_getElem?, getD_eq_getElem?,
          List.getElem?_append_right (by omega),
          Nat.add_sub_cancel],
      List.set_append_right _ _ (by omega), Nat.add_sub_cancel]
    exact ih v (z.set w.1 (z.getD w.1 0 + w.2))

theorem filter_mem_bound (ws : List (Nat × ℚ)) (n : Nat) :
    ∀ w ∈ ws.filter (fun w => decide (w.1 < n)), w.1 < n := by
  intro w hw
  have := List.of_mem_filter hw
  simpa using this

theorem pair_adds (kx bx ky bY ka ba kb bb : List ℚ)
    (hlk : ky.length = kx.length) (hlb : bY.length = bx.length)
    (k bz : List (Nat × ℚ))
    (hak : ka = apply_adds kx k) (hbk : kb = apply_adds ky k)
    (hab : ba = apply_adds bx bz) (hbb : bb = apply_adds bY bz) :
    ∃ u : List (Nat × ℚ),
      (∀ w ∈ u, w.1 < (kx ++ bx).length) ∧
      ka ++ ba = apply_adds (kx ++ bx) u ∧
      kb ++ bb = apply_adds (ky ++ bY) u ∧
      (ky ++ bY).length = (kx ++ bx).length := by
  refine ⟨k.filter (fun w => decide (w.1 < kx.length)) ++
    shift_adds kx.length
      (bz.filter (fun w => decide (w.1 < bx.length))),
    ?_, ?_, ?_, ?_⟩
  · intro w hw
    rcases List.mem_append.mp hw with h | h
    · have := filter_mem_bound _ _ w h
      rw [List.length_append]
      omega
    · obtain ⟨u0, hu0, hw0⟩ := List.mem_map.mp h
      have := filter_mem_bound _ _ u0 hu0
      rw [← hw0, List.length_append]
      show u0.1 + kx.length < kx.length + bx.length
      omega
  · rw [apply_adds_append,
      apply_adds_append_left _ _ _ (filter_mem_bound k kx.length)]
    have hsh := apply_adds_shift
      (bz.filter (fun w => decide (w.1 < bx.length)))
      (apply_adds kx (k.filter (fun w => decide (w.1 < kx.length)))) bx
    rw [apply_adds_length] at hsh
    rw [hsh, hak, hab, apply_adds_filter kx.length k kx rfl,
      apply_adds_filter bx.length bz bx rfl]
  · rw [apply_adds_append,
      apply_adds_append_left _ _ _ (fun w hw => by
        rw [hlk]
        exact filter_mem_bound _ _ w hw)]
    have hsh := apply_adds_shift
      (bz.filter (fun w => decide (w.1 < bx.length)))
      (apply_adds ky (k.filter (fun w => decide (w.1 < kx.length)))) bY
    rw [apply_adds_length, hlk] at hsh
    rw [hsh, hbk, hbb, apply_adds_filter kx.length k ky hlk,
      apply_adds_filter bx.length bz bY hlb]
  · rw [List.length_append, List.length_append, hlk, hlb]

theorem seg_adds (x y a b : Layer) (pd : Dim3)
    (hrel : layer_rel pd x y) (hg : gdone x y a b) :
    ∃ u : List (Nat × ℚ),
      (∀ w ∈ u, w.1 < (seg x).length) ∧
      seg a = apply_adds (seg x) u ∧
      seg b = apply_adds (seg y) u ∧
      (seg y).length = (seg x).length := by
  cases x with
  | Pooling px =>
    cases y with
    | Convolutional _ => exact hrel.elim
    | FullyConnected _ => exact hrel.elim
    | Pooling py =>
      cases a with
      | Convolutional _ => exact hg.elim
      | FullyConnected _ => exact hg.elim
      | Pooling pa => cases b with
        | Convolutional _ => exact hg.elim
        | FullyConnected _ => exact hg.elim
        | Pooling pb => exact ⟨[], by simp, rfl, rfl, rfl⟩
  | Convolutional cx =>
    cases y with
    | Pooling _ => exact hrel.elim
    | FullyConnected _ => exact hrel.elim
    | Convolutional cy =>
      cases a with
      | Pooling _ => exact hg.elim
      | FullyConnected _ => exact hg.elim
      | Convolutional ca => cases b with
        | Pooling _ => exact hg.elim
        | FullyConnected _ => exact hg.elim
        | Convolutional cb =>
          obtain ⟨⟨k, hak, hbk⟩, ⟨bz, hab, hbb⟩⟩ := hg
          exact pair_adds cx.kernel_gradients cx.bias_gradients
            cy.kernel_gradients cy.bias_gradients
            ca.kernel_gradients ca.bias_gradients
            cb.kernel_gradients cb.bias_gradients
            hrel.2.2.2.2.2.1.symm hrel.2.2.2.2.2.2.symm
            k bz hak hbk hab hbb
  | FullyConnected fx =>
    cases y with
    | Pooling _ => exact hrel.elim
    | Convolutional _ => exact hrel.elim
    | FullyConnected fy =>
      cases a with
      | Pooling _ => exact hg.elim
      | Convolutional _ => exact hg.elim
      | FullyConnected fa => cases b with
        | Pooling _ => exact hg.elim
        | Convolutional _ => exact hg.elim
        | FullyConnected fb =>
          obtain ⟨⟨k, hak, hbk⟩, ⟨bz, hab, hbb⟩⟩ := hg
          exact pair_adds fx.weight_gradients fx.bias_gradients
            fy.weight_gradients fy.bias_gradients
            fa.weight_gradients fa.bias_gradients
            fb.weight_gradients fb.bias_gradients
            hrel.2.2.2.2.2.1.symm hrel.2.2.2.2.2.2.symm
            k bz hak hbk hab hbb

theorem collect_adds (PA : List (Layer × ActivationFunction)) :
    ∀ (PB A B : List (Layer × ActivationFunction)) (pdf : Nat → Dim3),
    A.length = PA.length → B.length = PB.length →
    (∀ j, orel (layer_rel (pdf j)) (lfst PA j) (lfst PB j)) →
    (∀ j, orel4 gdone (lfst PA j) (lfst PB j) (lfst A j) (lfst B j)) →
    ∃ u : List (Nat × ℚ),
      A.flatMap (fun la => seg la.1) =
        apply_adds (PA.flatMap (fun la => seg la.1)) u ∧
      B.flatMap (fun la => seg la.1) =
        apply_adds (PB.flatMap (fun la => seg la.1)) u := by
  induction PA with
  | nil =>
    intro PB A B pdf hla hlb hrel hg
    have hA : A = [] := List.length_eq_zero.mp hla
    have hPB : PB = [] := by
      cases PB with
      | nil => rfl
      | cons q qr =>
        have h := hrel 0
        rw [lfst_ge_none [] 0 (by simp), lfst_cons_zero] at h
        exact h.elim
    have hB : B = [] := by
      rw [hPB] at hlb
      exact List.length_eq_zero.mp hlb
    rw [hA, hB, hPB]
    exact ⟨[], rfl, rfl⟩
  | cons p pr ih =>
    intro PB A B pdf hla hlb hrel hg
    cases PB with
    | nil =>
      have h := hrel 0
      rw [lfst_cons_zero, lfst_ge_none [] 0 (by simp)] at h
      exact h.elim
    | cons q qr =>
      cases A with
      | nil => exact absurd hla (by simp)
      | cons a ar =>
        cases B with
        | nil => exact absurd hlb (by simp)
        | cons b br =>
          have hrel0 := hrel 0
          rw [lfst_cons_zero, lfst_cons_zero] at hrel0
          have hg0 := hg 0
          rw [lfst_cons_zero, lfst_cons_zero, lfst_cons_zero,
            lfst_cons_zero] at hg0
          obtain ⟨u0, hub, ha0, hb0, hlen0⟩ :=
            seg_adds p.1 q.1 a.1 b.1 (pdf 0) hrel0 hg0
          obtain ⟨u, hu1, hu2⟩ := ih qr ar br (fun j => pdf (j + 1))
            (by simpa using hla) (by simpa using hlb)
            (fun j => by
              have h := hrel (j + 1)
              rwa [lfst_cons_succ, lfst_cons_succ] at h)
            (fun j => by
              have h := hg (j + 1)
              rwa [lfst_cons_succ, lfst_cons_succ, lfst_cons_succ,
                lfst_cons_succ] at h)
          refine ⟨u0 ++ shift_adds (seg p.1).length u, ?_, ?_⟩
          · rw [List.flatMap_cons, List.flatMap_cons,
              apply_adds_append, apply_adds_append_left _ _ _ hub]
            have hsh := apply_adds_shift u (apply_adds (seg p.1) u0)
              (pr.flatMap (fun la => seg la.1))
            rw [apply_adds_length] at hsh
            rw [hsh, ha0, hu1]
          · rw [List.flatMap_cons, List.flatMap_cons,
              apply_adds_append, apply_adds_append_left _ _ _
              (fun w hw => by rw [hlen0]; exact hub w hw)]
            have hsh := apply_adds_shift u (apply_adds (seg q.1) u0)
              (qr.flatMap (fun la => seg la.1))
            rw [apply_adds_length, hlen0] at hsh
            rw [hsh, hb0, hu2]

theorem apply_writes_range_zero (v : List ℚ) :
    ∀ q ∈ apply_writes v ((List.range v.length).map fun i =>
      ((i, 0) : Nat × ℚ)), q = 0 := by
  intro q hq
  obtain ⟨j, hj, he⟩ := List.getElem_of_mem hq
  have hjv : j < v.length := by
    have hlen := apply_writes_length v ((List.range v.length).map fun i =>
      ((i, 0) : Nat × ℚ))
    omega
  have huniq := apply_writes_getElem?_unique v
    ((List.range v.length).map fun i => ((i, 0) : Nat × ℚ)) j 0
    (List.mem_map.mpr ⟨j, List.mem_range.mpr hjv, rfl⟩)
    (fun w hw h1 => by
      obtain ⟨i, hi, hwi⟩ := List.mem_map.mp hw
      rw [← hwi])
    hjv
  rw [List.getElem?_eq_getElem hj, he] at huniq
  exact Option.some.inj huniq

theorem start_batch_wf (nn : NeuralNetwork) (h : wf_net nn) :
    wf_net nn.start_batch := by
  intro la hla
  obtain ⟨p, hp, hpe⟩ := List.mem_map.mp hla
  have hwfp := h p hp
  rw [← hpe]
  show wf_layer p.1.reset_gradients
  cases hp1 : p.1 with
  | Convolutional c =>
    rw [hp1] at hwfp
    obtain ⟨w1, w2, w3, w4, w5, w6, w7, w8, w9⟩ := hwfp
    refine ⟨w1, w2, w3, w4, w5, ?_, ?_, w8, w9⟩
    · have hb : c.reset_gradients.bias_gradients =
          apply_writes c.bias_gradients
          ((List.range c.bias_gradients.length).map fun i => (i, 0)) :=
        rfl
      rw [hb, apply_writes_length]
      exact w6
    · have hk : c.reset_gradients.kernel_gradients =
          apply_writes c.kernel_gradients
          ((List.range c.kernel_gradients.length).map fun i =>
            (i, 0)) := rfl
      rw [hk, apply_writes_length]
      exact w7
  | Pooling q =>
    rw [hp1] at hwfp
    exact hwfp
  | FullyConnected f =>
    rw [hp1] at hwfp
    obtain ⟨w1, w2, w3, w4, w5, w6, w7, w8⟩ := hwfp
    refine ⟨w1, w2, w3, w4, w5, ?_, w7, ?_⟩
    · have hb : f.reset_gradients.bias_gradients =
          apply_writes f.bias_gradients
          ((List.range f.bias_gradients.length).map fun i => (i, 0)) :=
        rfl
      rw [hb, apply_writes_length]
      exact w6
    · have hw : f.reset_gradients.weight_gradients =
          apply_writes f.weight_gradients
          ((List.range f.weight_gradients.length).map fun i =>
            (i, 0)) := rfl
      rw [hw, apply_writes_length]
      exact w8

theorem collect_eq (nn : NeuralNetwork) :
    nn.collect_gradients = nn.layers.flatMap (fun la => seg la.1) := rfl

theorem start_batch_zero (nn : NeuralNetwork) :
    ∀ q ∈ nn.start_batch.collect_gradients, q = 0 := by
  intro q hq
  rw [collect_eq] at hq
  obtain ⟨p, hp, hqp⟩ := List.mem_flatMap.mp hq
  obtain ⟨p0, hp0, hpe⟩ := List.mem_map.mp hp
  rw [← hpe] at hqp
  cases h0 : p0.1 with
  | Convolutional c =>
    rw [h0] at hqp
    have hqp2 : q ∈ c.reset_gradients.kernel_gradients ++
        c.reset_gradients.bias_gradients := hqp
    rcases List.mem_append.mp hqp2 with h | h
    · exact apply_writes_range_zero c.kernel_gradients q h
    · exact apply_writes_range_zero c.bias_gradients q h
  | Pooling pq =>
    rw [h0] at hqp
    exact absurd hqp (List.not_mem_nil q)
  | FullyConnected f =>
    rw [h0] at hqp
    have hqp2 : q ∈ f.reset_gradients.weight_gradients ++
        f.reset_gradients.bias_gradients := hqp
    rcases List.mem_append.mp hqp2 with h | h
    · exact apply_writes_range_zero f.weight_gradients q h
    · exact apply_writes_range_zero f.bias_gradients q h

theorem zip_add_getElem? (a b : List ℚ) (j : Nat) (x y : ℚ)
    (ha : a[j]? = some x) (hb : b[j]? = some y) :
    (List.zipWith (· + ·) a b)[j]? = some (x + y) := by
  rw [List.getElem?_zipWith, ha, hb]

theorem vec_add_adds (z : List ℚ) (hz : ∀ q ∈ z, q = 0)
    (u v : List (Nat × ℚ)) :
    vec_add (apply_adds z u) (apply_adds z v) = apply_adds z (u ++ v) := by
  apply List.ext_getElem?
  intro j
  by_cases hj : j < z.length
  · have hgd : z.getD j 0 = 0 := by
      rw [getD_eq_getElem?, List.getElem?_eq_getElem hj]
      exact hz _ (List.getElem_mem hj)
    rw [show vec_add (apply_adds z u) (apply_adds z v) =
        List.zipWith (· + ·) (apply_adds z u) (apply_adds z v) from rfl,
      zip_add_getElem? _ _ j _ _ (apply_adds_getElem? u z j hj)
        (apply_adds_getElem? v z j hj),
      apply_adds_getElem? (u ++ v) z j hj, hgd,
      List.filter_append, List.map_append, List.sum_append]
    congr 1
    ring
  · push_neg at hj
    rw [List.getElem?_eq_none (le_trans (by
        rw [show (vec_add (apply_adds z u) (apply_adds z v)).length =
          min (apply_adds z u).length (apply_adds z v).length from
          List.length_zipWith _ _ _, apply_adds_length,
          apply_adds_length, Nat.min_self] : (vec_add (apply_adds z u)
          (apply_adds z v)).length ≤ z.length) hj),
      List.getElem?_eq_none (by rw [apply_adds_length]; omega)]

theorem sum_vectors_cons (v : List ℚ) (vs : List (List ℚ)) :
    sum_vectors (v :: vs) = vs.foldl (fun combined w =>
      if combined.isEmpty then w else vec_add combined w) v := rfl

theorem sum_vectors_nil_all : ∀ vs : List (List ℚ),
    (∀ x ∈ vs, x = []) → sum_vectors vs = [] := by
  intro vs
  induction vs with
  | nil =>
    intro h
    rfl
  | cons x xs ih =>
    intro h
    rw [sum_vectors_cons, h x (List.mem_cons_self _ _)]
    exact ih (fun y hy => h y (List.mem_cons_of_mem _ hy))

theorem sum_fold_adds (z : List ℚ) (hz : ∀ q ∈ z, q = 0)
    (hzne : z ≠ []) (us : List (List (Nat × ℚ))) :
    ∀ acc : List (Nat × ℚ),
    (us.map (apply_adds z)).foldl (fun combined w =>
      if combined.isEmpty then w else vec_add combined w)
      (apply_adds z acc) =
    apply_adds z (acc ++ us.flatten) := by
  induction us with
  | nil =>
    intro acc
    simp
  | cons u rest ih =>
    intro acc
    simp only [List.map_cons, List.foldl_cons]
    have hne : ¬ (apply_adds z acc).isEmpty = true := by
      rw [List.isEmpty_iff]
      intro hcon
      apply hzne
      have hl := congrArg List.length hcon
      rw [apply_adds_length] at hl
      exact List.length_eq_zero.mp hl
    rw [if_neg hne, vec_add_adds z hz acc u, List.flatten_cons,
      ← List.append_assoc]
    exact ih (acc ++ u)

theorem sum_vectors_of_adds (z : List ℚ) (hz : ∀ q ∈ z, q = 0)
    (us : List (List (Nat × ℚ))) (hne : us ≠ []) :
    sum_vectors (us.map (apply_adds z)) = apply_adds z us.flatten := by
  by_cases hzn : z = []
  · rw [hzn, apply_adds_nil_base]
    refine sum_vectors_nil_all _ ?_
    intro x hx
    obtain ⟨u, hu, hxe⟩ := List.mem_map.mp hx
    rw [← hxe, apply_adds_nil_base]
  · cases us with
    | nil => exact absurd rfl hne
    | cons u rest =>
      rw [List.map_cons, sum_vectors_cons, List.flatten_cons]
      exact sum_fold_adds z hz hzn rest u

theorem run_batch_flatten_err (ex : ℚ → ℚ) (σ : NeuralNetwork)
    (ch : List (List ℚ × List ℚ))
    (rest : List (List (List ℚ × List ℚ))) (e : Fail)
    (h : run_batch ex σ ch = Except.error e) :
    run_batch ex σ ((ch :: rest).flatten) = Except.error e := by
  show List.foldlM (process_sample ex) σ ((ch :: rest).flatten) = _
  rw [List.flatten_cons, List.foldlM_append]
  show (run_batch ex σ ch >>= fun x =>
    List.foldlM (process_sample ex) x rest.flatten) = _
  rw [h]
  rfl

theorem run_batch_flatten_ok (ex : ℚ → ℚ) (σ : NeuralNetwork)
    (ch : List (List ℚ × List ℚ))
    (rest : List (List (List ℚ × List ℚ))) (σ' : NeuralNetwork)
    (h : run_batch ex σ ch = Except.ok σ') :
    run_batch ex σ ((ch :: rest).flatten) =
      run_batch ex σ' rest.flatten := by
  show List.foldlM (process_sample ex) σ ((ch :: rest).flatten) = _
  rw [List.flatten_cons, List.foldlM_append]
  show (run_batch ex σ ch >>= fun x =>
    List.foldlM (process_sample ex) x rest.flatten) = _
  rw [h]
  rfl

theorem mapM_cons_err {α β : Type} (f : α → Except Fail β) (a : α)
    (l : List α) (e : Fail) (h : f a = Except.error e) :
    (a :: l).mapM f = Except.error e := by
  rw [List.mapM_cons, h]
  rfl

theorem mapM_cons_ok {α β : Type} (f : α → Except Fail β) (a : α)
    (l : List α) (b : β) (h : f a = Except.ok b) :
    (a :: l).mapM f = l.mapM f >>= fun ys => Except.ok (b :: ys) := by
  rw [List.mapM_cons, h]
  rfl

theorem chunks_lockstep (ex : ℚ → ℚ) (z : NeuralNetwork)
    (hwfz : wf_net z) :
    ∀ (chunks : List (List (List ℚ × List ℚ))) (σ : NeuralNetwork),
    net_rel σ z → wf_net σ →
    match run_batch ex σ chunks.flatten,
        chunks.mapM (fun ch => run_batch ex z ch) with
    | Except.error e₁, Except.error e₂ => e₁ = e₂
    | Except.ok σ₂, Except.ok ws =>
      net_rel σ₂ z ∧ wf_net σ₂ ∧
      ∃ us : List (List (Nat × ℚ)),
        ws.map (fun w => w.collect_gradients) =
          us.map (apply_adds z.collect_gradients) ∧
        σ₂.collect_gradients =
          apply_adds σ.collect_gradients us.flatten
    | _, _ => False := by
  intro chunks
  induction chunks with
  | nil =>
    intro σ hrel hwfσ
    exact ⟨hrel, hwfσ, [], rfl, rfl⟩
  | cons ch rest ih =>
    intro σ hrel hwfσ
    have RB := run_batch_lockstep ex ch σ z hrel hwfσ
    rcases hCA : run_batch ex σ ch with e₁ | σ'
    · rcases hCB : run_batch ex z ch with e₂ | w
      · rw [hCA, hCB] at RB
        rw [run_batch_flatten_err ex σ ch rest e₁ hCA,
          mapM_cons_err _ ch rest e₂ hCB]
        exact RB
      · rw [hCA, hCB] at RB
        exact RB.elim
    · rcases hCB : run_batch ex z ch with e₂ | w
      · rw [hCA, hCB] at RB
        exact RB.elim
      · rw [hCA, hCB] at RB
        obtain ⟨hres, hrst, hwf', hg⟩ := RB
        rw [run_batch_flatten_ok ex σ ch rest σ' hCA,
          mapM_cons_ok _ ch rest w hCB]
        have IH := ih σ' (net_rel_trans _ _ _ hres hrel) hwf'
        rcases hSR : run_batch ex σ' rest.flatten with e₃ | σ₂
        · rcases hM : rest.mapM (fun c => run_batch ex z c)
            with e₄ | ws2
          · rw [hSR, hM] at IH
            exact IH
          · rw [hSR, hM] at IH
            exact IH.elim
        · rcases hM : rest.mapM (fun c => run_batch ex z c)
            with e₄ | ws2
          · rw [hSR, hM] at IH
            exact IH.elim
          · rw [hSR, hM] at IH
            obtain ⟨ihrel, ihwf, us, hus1, hus2⟩ := IH
            obtain ⟨hgl1, hgl2, hgj⟩ := hg
            obtain ⟨u₀, hu0A, hu0B⟩ := collect_adds σ.layers z.layers
              σ'.layers w.layers (fun j => prev_geom σ.layers j)
              hgl1 hgl2 hrel.2.2.2 hgj
            refine ⟨ihrel, ihwf, u₀ :: us, ?_, ?_⟩
            · rw [List.map_cons, List.map_cons,
                show w.collect_gradients =
                  apply_adds z.collect_gradients u₀ from by
                  rw [collect_eq, collect_eq]
                  exact hu0B,
                hus1]
            · rw [List.flatten_cons, apply_adds_append,
                show apply_adds σ.collect_gradients u₀ =
                  σ'.collect_gradients from by
                  rw [collect_eq, collect_eq]
                  exact hu0A.symm]
              exact hus2

/-- Claim C9: for every batch of samples partitioned into contiguous worker
chunks, running each chunk through an independent clone of the
freshly-reset network and summing the workers' `collect_gradients` vectors
elementwise yields exactly the gradient vector obtained by processing the
whole batch serially on one network with a single `start_batch` before and
one `collect_gradients` read after; the two schedules also fail with the
same error when any sample fails.  (In this exact-arithmetic model the
"up to floating-point summation order" tolerance of the claim is
equality.) -/
theorem claim_C9 (ex : ℚ → ℚ) (nn : NeuralNetwork)
    (chunks : List (List (List ℚ × List ℚ)))
    (hwf : wf_net nn) (hne : chunks ≠ []) :
    match run_batch ex nn.start_batch chunks.flatten,
        chunks.mapM (fun ch => run_batch ex nn.start_batch ch) with
    | Except.error e₁, Except.error e₂ => e₁ = e₂
    | Except.ok s, Except.ok ws =>
      sum_vectors (ws.map (fun w => w.collect_gradients)) =
        s.collect_gradients
    | _, _ => False := by
  have hwfz := start_batch_wf nn hwf
  have CH := chunks_lockstep ex nn.start_batch hwfz chunks
    nn.start_batch (net_rel_refl _) hwfz
  rcases hS : run_batch ex nn.start_batch chunks.flatten with e₁ | s
  · rcases hM : chunks.mapM (fun ch => run_batch ex nn.start_batch ch)
      with e₂ | ws
    · rw [hS, hM] at CH
      exact CH
    · rw [hS, hM] at CH
      exact CH.elim
  · rcases hM : chunks.mapM (fun ch => run_batch ex nn.start_batch ch)
      with e₂ | ws
    · rw [hS, hM] at CH
      exact CH.elim
    · rw [hS, hM] at CH
      obtain ⟨hrels, hwfs, us, hus1, hus2⟩ := CH
      have hwsne : ws ≠ [] := by
        cases chunks with
        | nil => exact absurd rfl hne
        | cons ch rest =>
          rcases hc : run_batch ex nn.start_batch ch with e | w
          · rw [mapM_cons_err _ ch rest e hc] at hM
            exact Except.noConfusion hM
          · rw [mapM_cons_ok _ ch rest w hc] at hM
            rcases hr : rest.mapM
                (fun c => run_batch ex nn.start_batch c) with e' | ys
            · rw [hr] at hM
              exact Except.noConfusion hM
            · rw [hr] at hM
              have hww : Except.ok (w :: ys) =
                  (Except.ok ws :
                    Except Fail (List NeuralNetwork)) := hM
              intro hcon
              rw [hcon] at hww
              exact List.noConfusion (Except.ok.inj hww)
      have husne : us ≠ [] := by
        intro hcon
        rw [hcon] at hus1
        exact hwsne (List.map_eq_nil_iff.mp (by rw [hus1]; rfl))
      show sum_vectors (ws.map (fun w => w.collect_gradients)) =
        s.collect_gradients
      rw [hus1, sum_vectors_of_adds nn.start_batch.collect_gradients
        (start_batch_zero nn) us husne, hus2]

theorem c9_wf : wf_net c9_network := by
  intro la hla
  rcases List.mem_cons.mp hla with h | h
  · rw [h]
    exact ⟨rfl, rfl, rfl, rfl, rfl, rfl, rfl, rfl, rfl⟩
  · rcases List.mem_cons.mp h with h2 | h2
    · rw [h2]
      exact ⟨rfl, rfl, rfl, rfl, rfl, rfl, rfl, rfl⟩
    · exact absurd h2 (List.not_mem_nil la)

theorem c9_chunks_ne : c9_chunks ≠ [] := by
  intro h
  exact List.noConfusion h

theorem claim_C9_witness :
    wf_net c9_network ∧ c9_chunks ≠ [] ∧
    (match run_batch id c9_network.start_batch c9_chunks.flatten,
        c9_chunks.mapM (fun ch =>
          run_batch id c9_network.start_batch ch) with
    | Except.error e₁, Except.error e₂ => e₁ = e₂
    | Except.ok s, Except.ok ws =>
      sum_vectors (ws.map (fun w => w.collect_gradients)) =
        s.collect_gradients
    | _, _ => False) :=
  ⟨c9_wf, c9_chunks_ne,
    claim_C9 id c9_network c9_chunks c9_wf c9_chunks_ne⟩

end CNN
